import Mathlib

/-!
# inx-indexer: filtered-query engine, cursor pagination and request parameters

A shallow embedding of `pkg/indexer/types.go`, `pkg/indexer/nft.go`, of the
cursor, filter and by-id handlers of `pkg/server/routes.go` and of the batcher and
`Finalize` of `pkg/indexer/import.go`, followed by theorems about the pagination
engine, the cursor encoding, the NFT filter composer, the HTTP parameter guards and
responses, and the import pipeline.

Conventions of the embedding.

* Go `string` is `GoString` (a list of characters); `len` counts UTF-8 bytes.
* `uint32` values are natural numbers; arithmetic that the source performs in
  `uint32` is reduced modulo `2 ^ 32` explicitly. Go `int` is 64 bits wide.
* `[]byte` is `List Nat` (every element below 256 for well-formed data).
* `time.Time` values have second resolution and are given as unix seconds.
* A Go `error` is `Option GoError` (`none` is `nil`).
* A function that touches the database returns a `Run`: the list of reads it
  issued together with its value. `LogErrorfAndExit` ends the process; a
  function that may reach it returns an `Option` whose `none` is that exit.
* A batcher worker is the function from the items it receives, each with the
  `ctx.Err()` observation made on receipt, to the batches it sends; `Finalize` is
  the list of its effects in statement order together with the returned error.
-/

namespace Inx

/-! ## Strings, bytes and hexadecimal text -/

/-- Go `string`. -/
abbrev GoString := List Char

/-- Go `len(s)`: the number of bytes of the UTF-8 text. -/
def len (s : GoString) : Nat := (s.map Char.utf8Size).sum

/-- Go `strings.ToUpper`, modelled on ASCII letters only: Go also maps letters outside
ASCII, which the hexadecimal cursors of the engine do not contain. -/
def ToUpper (s : GoString) : GoString := s.map Char.toUpper

/-- Go `strings.ToLower`, modelled on ASCII letters only: Go also maps letters outside
ASCII, which the hexadecimal cursors of the engine do not contain. -/
def ToLower (s : GoString) : GoString := s.map Char.toLower

/-- Bytewise comparison `a <= b` of two texts (`memcmp`, the shorter text first on a
tie): the order of SQLite's BINARY collation and of PostgreSQL's `C` collation. -/
def strLE : GoString → GoString → Bool
  | [], _ => true
  | _ :: _, [] => false
  | a :: as, b :: bs => decide (a.toNat < b.toNat) || (a.toNat == b.toNat && strLE as bs)

/-- Bytewise comparison `a <= b` of two blobs (`memcmp`, the shorter first on a tie). -/
def bytesLE : List Nat → List Nat → Bool
  | [], _ => true
  | _ :: _, [] => false
  | a :: as, b :: bs => decide (a < b) || (a == b && bytesLE as bs)

/-- The upper-case hexadecimal digit of a value below 16. -/
def hexDigitUpper : Nat → Char
  | 0 => '0' | 1 => '1' | 2 => '2' | 3 => '3' | 4 => '4' | 5 => '5' | 6 => '6' | 7 => '7'
  | 8 => '8' | 9 => '9' | 10 => 'A' | 11 => 'B' | 12 => 'C' | 13 => 'D' | 14 => 'E'
  | _ => 'F'

/-- The lower-case hexadecimal digit of a value below 16. -/
def hexDigitLower : Nat → Char
  | 0 => '0' | 1 => '1' | 2 => '2' | 3 => '3' | 4 => '4' | 5 => '5' | 6 => '6' | 7 => '7'
  | 8 => '8' | 9 => '9' | 10 => 'a' | 11 => 'b' | 12 => 'c' | 13 => 'd' | 14 => 'e'
  | _ => 'f'

/-- The two hexadecimal digit values of every byte of a blob, high nibble first. -/
def nibbles : List Nat → List Nat
  | [] => []
  | b :: bs => (b / 16 % 16) :: (b % 16) :: nibbles bs

/-- The hexadecimal digit values of a number, most significant first, without leading
zeros (one digit for zero); `fuel` bounds the number of digits. -/
def hexDigitsOf : Nat → Nat → List Nat
  | 0, _ => []
  | fuel + 1, n => if n < 16 then [n] else hexDigitsOf fuel (n / 16) ++ [n % 16]

/-- Left-pads a digit list with zeros up to a minimum width (never truncates). -/
def zeroPad (width : Nat) (ds : List Nat) : List Nat :=
  List.replicate (width - ds.length) 0 ++ ds

/-- SQLite `hex(blob)`: upper-case hexadecimal text of a blob. -/
def sqliteHex (bs : List Nat) : GoString := (nibbles bs).map hexDigitUpper

/-- PostgreSQL `encode(blob, 'hex')`: lower-case hexadecimal text of a blob. -/
def pgEncodeHex (bs : List Nat) : GoString := (nibbles bs).map hexDigitLower

/-- SQLite `printf('%08X', v)` for a non-negative 64-bit integer: upper-case
hexadecimal, zero-padded to at least eight digits. -/
def sqlitePrintf08X (v : Nat) : GoString :=
  (zeroPad 8 (hexDigitsOf 16 (v % 2 ^ 64))).map hexDigitUpper

/-- PostgreSQL `to_hex(v)` for a non-negative `integer`: lower-case hexadecimal
without leading zeros. -/
def pgToHex (v : Nat) : GoString := (hexDigitsOf 8 (v % 2 ^ 32)).map hexDigitLower

/-- PostgreSQL `lpad(s, n, '0')`: pads on the left to width `n`, and truncates a
longer text to its first `n` characters. -/
def pgLpad0 (n : Nat) (s : GoString) : GoString :=
  if s.length ≤ n then List.replicate (n - s.length) '0' ++ s else s.take n

/-! ## Errors -/

/-- The sentinel errors of the HTTP layer that the source wraps. -/
inductive Sentinel
  | ErrInvalidParameter
  | ErrInternalServerError
  | ErrNotFound
  deriving DecidableEq, Repr

/-- A Go error value: the sentinel it wraps (if any) and its message. -/
structure GoError where
  wraps : Option Sentinel
  msg : String
  deriving DecidableEq, Repr

/-- The call `errors.Errorf(...)` with the formatted message. -/
def Errorf (msg : String) : GoError := { wraps := none, msg := msg }

/-- The call `errors.WithMessage(sentinel, msg)`. -/
def WithMessage (s : Sentinel) (msg : String) : GoError := { wraps := some s, msg := msg }

/-! ## Data model of `types.go` -/

/-- The constant `CursorLength`. -/
def CursorLength : Nat := 76

/-- Length in bytes of `iotago.OutputID`. -/
def OutputIDLength : Nat := 34

/-- The row type `Status`. -/
structure Status where
  ID : Nat
  LedgerIndex : Nat
  ProtocolVersion : Nat
  NetworkName : String
  DatabaseVersion : Nat
  deriving DecidableEq, Repr

/-- The row type `queryResult` the joined read is scanned into. -/
structure queryResult where
  OutputID : List Nat
  Cursor : GoString
  LedgerIndex : Nat
  deriving DecidableEq, Repr

/-- The method `outputIDBytes.ID`: copies the bytes into a zeroed 34-byte array. -/
def outputIDBytes.ID (o : List Nat) : List Nat :=
  (o ++ List.replicate OutputIDLength 0).take OutputIDLength

/-- The method `queryResults.IDs`. -/
def queryResults.IDs (q : List queryResult) : List (List Nat) :=
  q.map (fun r => outputIDBytes.ID r.OutputID)

/-- The result type `IndexerResult`. -/
structure IndexerResult where
  OutputIDs : List (List Nat) := []
  LedgerIndex : Nat := 0
  PageSize : Nat := 0
  Cursor : Option GoString := none
  Error : Option GoError := none
  deriving DecidableEq, Repr

/-- The function `errorResult`: only `Error` is set, every other field is zero. -/
def errorResult (err : GoError) : IndexerResult := { Error := some err }

/-- The function `unixTime`: a `uint32` of unix seconds as a point in time. -/
def unixTime (fromValue : Nat) : Nat := fromValue

/-! ## The query builder and the store -/

/-- The values of `database.Engine`: the two dialects the source handles and any
other value (the `default` branches). -/
inductive Engine
  | EngineSQLite
  | EnginePostgreSQL
  | EngineOther
  deriving DecidableEq, Repr

/-- The select-list entries the source uses: `output_id` and the two cursor
expressions
`printf('%08X', strftime('%s', created_at)) || hex(output_id) as cursor` and
`lpad(to_hex(extract(epoch from created_at)::integer), 8, '0') || encode(output_id, 'hex') as cursor`. -/
inductive Column
  | output_id
  | cursorSQLite
  | cursorPostgreSQL
  deriving DecidableEq, Repr

/-- A `Where` clause: a predicate of the per-kind composer (`table`), the clause
`cursor >= ?` (`cursorGE`) or the clause
`lpad(to_hex(extract(epoch from created_at)::integer), 8, '0') || encode(output_id, 'hex') >= ?`
(`pgCursorGE`). -/
inductive Cond (κ : Type)
  | table (k : κ)
  | cursorGE (bound : GoString)
  | pgCursorGE (bound : GoString)
  deriving DecidableEq, Repr

/-- The state of a `*gorm.DB` query under construction: the conjoined `Where`
clauses in the order they were added, the select list, whether
`Order("created_at asc, output_id asc")` was requested, and the `Limit`. -/
structure Query (κ : Type) where
  wheres : List (Cond κ) := []
  selects : List Column := []
  order : Bool := false
  limit : Option Int := none
  deriving DecidableEq, Repr

/-- The call `db.Model(&row{})`: the unrestricted query over the table. -/
def Query.Model {κ : Type} : Query κ := {}

/-- The method `Where`: conjoins one more clause. -/
def Query.Where {κ : Type} (q : Query κ) (c : Cond κ) : Query κ :=
  { q with wheres := q.wheres ++ [c] }

/-- The method `Select`: replaces the select list. -/
def Query.Select {κ : Type} (q : Query κ) (cols : List Column) : Query κ :=
  { q with selects := cols }

/-- The method `Order("created_at asc, output_id asc")`. -/
def Query.Order {κ : Type} (q : Query κ) : Query κ := { q with order := true }

/-- The method `Limit`: replaces the limit. -/
def Query.Limit {κ : Type} (q : Query κ) (n : Int) : Query κ := { q with limit := some n }

/-- The reads the engine can issue: the joined read
`db.Table("(?) as results, (?) as status", query, ledgerIndexQuery).Find(&results)` and
the fallback `i.Status()`. -/
inductive StoreOp
  | joinedFind
  | statusRead
  deriving DecidableEq, Repr

/-- A value together with the reads issued to compute it, in order. -/
structure Run (α : Type) where
  ops : List StoreOp
  out : α
  deriving DecidableEq, Repr

/-- What the database answers: `Find q` is the outcome of the joined read for the
inner query `q`, and `Status` the outcome of `i.Status()`. -/
structure Store (κ : Type) where
  Find : Query κ → Except GoError (List queryResult)
  Status : Except GoError Status

/-- The receiver `Indexer`: its engine and its database. -/
structure Indexer (κ : Type) where
  engine : Engine
  db : Store κ

/-- The pagination block of `combineOutputIDFilteredQuery` (the body of
`if pageSize > 0`): `none` is the process exit of an unsupported engine, an error is
the early `errorResult` return. -/
def paginationQuery {κ : Type} (engine : Engine) (query : Query κ) (pageSize : Nat)
    (cursor : Option GoString) : Option (Except GoError (Query κ)) :=
  let cursorQuery : Option Column :=
    match engine with
    | Engine.EngineSQLite => some Column.cursorSQLite
    | Engine.EnginePostgreSQL => some Column.cursorPostgreSQL
    | Engine.EngineOther => none
  match cursorQuery with
  | none => none
  | some cursorQuery =>
    let query := (query.Select [Column.output_id, cursorQuery]).Limit
      (((pageSize + 1) % 2 ^ 32 : Nat) : Int)
    match cursor with
    | none => some (Except.ok query)
    | some c =>
      if len c ≠ CursorLength then
        some (Except.error (Errorf ("Invalid cursor length: " ++ toString (len c))))
      else
        match engine with
        | Engine.EngineSQLite => some (Except.ok (query.Where (Cond.cursorGE (ToUpper c))))
        | Engine.EnginePostgreSQL => some (Except.ok (query.Where (Cond.pgCursorGE c)))
        | Engine.EngineOther => none

/-- The query `combineOutputIDFilteredQuery` hands to the joined read: the select
and order of its first statement followed by the pagination block when
`pageSize > 0`. `none` is the process exit, an error the early `errorResult`. -/
def pagedQuery {κ : Type} (engine : Engine) (query : Query κ) (pageSize : Nat)
    (cursor : Option GoString) : Option (Except GoError (Query κ)) :=
  let query := (query.Select [Column.output_id]).Order
  if pageSize > 0 then paginationQuery engine query pageSize cursor
  else some (Except.ok query)

/-- The method `Indexer.combineOutputIDFilteredQuery`. -/
def combineOutputIDFilteredQuery {κ : Type} (i : Indexer κ) (query : Query κ)
    (pageSize : Nat) (cursor : Option GoString) : Run (Option IndexerResult) :=
  match pagedQuery i.engine query pageSize cursor with
  | none => { ops := [], out := none }
  | some (Except.error err) => { ops := [], out := some (errorResult err) }
  | some (Except.ok query) =>
    match i.db.Find query with
    | Except.error err => { ops := [StoreOp.joinedFind], out := some (errorResult err) }
    | Except.ok results =>
      let ledger : Run Nat :=
        match results with
        | first :: _ => { ops := [], out := first.LedgerIndex }
        | [] =>
          match i.db.Status with
          | Except.ok status => { ops := [StoreOp.statusRead], out := status.LedgerIndex }
          | Except.error _ => { ops := [StoreOp.statusRead], out := 0 }
      let paging : List queryResult × Option GoString :=
        if pageSize > 0 ∧ results.length % 2 ^ 32 > pageSize then
          (results.dropLast, (results.getLast?).map (fun lastResult => ToLower lastResult.Cursor))
        else (results, none)
      { ops := StoreOp.joinedFind :: ledger.ops
        out := some
          { OutputIDs := queryResults.IDs paging.1
            LedgerIndex := ledger.out
            PageSize := pageSize
            Cursor := paging.2
            Error := none } }

/-! ## The relational store behind the engine -/

/-- A table of one output kind as the engine reads it: its rows, the two ordering
columns, and which rows a composer predicate selects (SQL three-valued logic: a row
is selected only when the predicate is true). -/
structure Table (ρ κ : Type) where
  rows : List ρ
  created_at : ρ → Nat
  output_id : ρ → List Nat
  holds : κ → ρ → Bool

/-- How the data layer renders `Limit(0)`: older gorm releases leave the `LIMIT`
clause out (`omitted`), newer ones emit `LIMIT 0` (`literal`). -/
inductive ZeroLimit
  | omitted
  | literal
  deriving DecidableEq, Repr

/-- A database: one output table, the `statuses` table (at most the row with
`id = 1`) and the data layer's treatment of a zero limit. -/
structure Database (ρ κ : Type) where
  table : Table ρ κ
  status : Option Status
  zeroLimit : ZeroLimit

/-- The SQLite cursor expression
`printf('%08X', strftime('%s', created_at)) || hex(output_id)`. -/
def sqliteCursorExpr (created_at : Nat) (output_id : List Nat) : GoString :=
  sqlitePrintf08X created_at ++ sqliteHex output_id

/-- The text of the PostgreSQL cursor expression
`lpad(to_hex(extract(epoch from created_at)::integer), 8, '0') || encode(output_id, 'hex')`
when the cast to `integer` succeeds. -/
def pgCursorText (created_at : Nat) (output_id : List Nat) : GoString :=
  pgLpad0 8 (pgToHex created_at) ++ pgEncodeHex output_id

/-- The PostgreSQL cursor expression: the cast `::integer` fails outside the signed
32-bit range. -/
def pgCursorExpr (created_at : Nat) (output_id : List Nat) : Except GoError GoString :=
  if created_at < 2 ^ 31 then Except.ok (pgCursorText created_at output_id)
  else Except.error (Errorf "integer out of range")

/-- The order `created_at asc, output_id asc` on rows, as `a <= b`. -/
def rowLE {ρ κ : Type} (T : Table ρ κ) (a b : ρ) : Bool :=
  decide (T.created_at a < T.created_at b) ||
    (T.created_at a == T.created_at b && bytesLE (T.output_id a) (T.output_id b))

/-- Whether a row satisfies a `Where` clause. -/
def Cond.holds {ρ κ : Type} (T : Table ρ κ) : Cond κ → ρ → Bool
  | Cond.table k, r => T.holds k r
  | Cond.cursorGE bound, r => strLE bound (sqliteCursorExpr (T.created_at r) (T.output_id r))
  | Cond.pgCursorGE bound, r => strLE bound (pgCursorText (T.created_at r) (T.output_id r))

/-- Whether a clause is one of the composer's table predicates. -/
def Cond.isTable {κ : Type} : Cond κ → Bool
  | Cond.table _ => true
  | _ => false

/-- Whether a clause is `cursor >= ?`, which names the select-list alias `cursor`. -/
def Cond.usesAlias {κ : Type} : Cond κ → Bool
  | Cond.cursorGE _ => true
  | _ => false

/-- Whether a clause evaluates the PostgreSQL cursor expression. -/
def Cond.usesPostgres {κ : Type} : Cond κ → Bool
  | Cond.pgCursorGE _ => true
  | _ => false

/-- Whether the query evaluates the PostgreSQL cursor expression anywhere. -/
def Query.usesPostgres {κ : Type} (q : Query κ) : Bool :=
  q.selects.contains Column.cursorPostgreSQL || q.wheres.any Cond.usesPostgres

/-- Whether every use of the alias `cursor` finds the SQLite cursor column in the
select list. -/
def Query.aliasResolved {κ : Type} (q : Query κ) : Bool :=
  q.selects.contains Column.cursorSQLite || !(q.wheres.any Cond.usesAlias)

/-- The `LIMIT` of a query: a positive limit truncates, a negative one is dropped by
the data layer, and a zero limit follows `ZeroLimit`. -/
def applyLimit {ρ : Type} (z : ZeroLimit) (limit : Option Int) (rows : List ρ) : List ρ :=
  match limit with
  | none => rows
  | some n =>
    if 0 < n then rows.take n.toNat
    else if n = 0 ∧ z = ZeroLimit.literal then []
    else rows

/-- The rows the inner query produces, in order: the rows satisfying every clause,
ordered when requested, then limited. The `ORDER BY` is applied to every ordered
inner query, as an engine does that keeps the clause. SQLite leaves out the
`ORDER BY` of an inner query without `LIMIT` when it joins it with the status
query, so there the rows of an unlimited read come in scan order, not in the order
given here; a read with a `LIMIT` is ordered on every engine. -/
def selectRows {ρ κ : Type} (db : Database ρ κ) (q : Query κ) : List ρ :=
  let matching := db.table.rows.filter (fun r => q.wheres.all (fun c => Cond.holds db.table c r))
  let ordered :=
    if q.order then List.insertionSort (fun a b => rowLE db.table a b = true) matching
    else matching
  applyLimit db.zeroLimit q.limit ordered

/-- The columns of one result row of the join
`(inner query) as results, (SELECT ledger_index FROM statuses) as status`. -/
def resultRow {ρ κ : Type} (T : Table ρ κ) (q : Query κ) (ledgerIndex : Nat) (r : ρ) :
    queryResult :=
  { OutputID :=
      if q.selects.contains Column.output_id ∨ q.selects = [] then T.output_id r else []
    Cursor :=
      if q.selects.contains Column.cursorSQLite then
        sqliteCursorExpr (T.created_at r) (T.output_id r)
      else if q.selects.contains Column.cursorPostgreSQL then
        pgCursorText (T.created_at r) (T.output_id r)
      else []
    LedgerIndex := ledgerIndex }

/-- The joined read against a database. It fails when the alias `cursor` is used
without a cursor column, and when the PostgreSQL cursor expression is evaluated on
a row whose `created_at` does not fit `integer` (the expression is evaluated on the
rows that pass the table predicates). The cross join with an empty `statuses`
table has no rows. -/
def sqlFind {ρ κ : Type} (db : Database ρ κ) (q : Query κ) :
    Except GoError (List queryResult) :=
  if !q.aliasResolved then Except.error (Errorf "no such column: cursor")
  else if q.usesPostgres ∧
      (db.table.rows.filter (fun r =>
        (q.wheres.filter Cond.isTable).all (fun c => Cond.holds db.table c r))).any
        (fun r => decide (2 ^ 31 ≤ db.table.created_at r)) then
    Except.error (Errorf "integer out of range")
  else
    match db.status with
    | none => Except.ok []
    | some status =>
      Except.ok ((selectRows db q).map (resultRow db.table q status.LedgerIndex))

/-- Modelled from the spec: the method `Indexer.Status`, whose file is not among the
embedded ones; it reads the single `Status` row and fails when there is none. -/
def sqlStatus {ρ κ : Type} (db : Database ρ κ) : Except GoError Status :=
  match db.status with
  | some status => Except.ok status
  | none => Except.error (Errorf "record not found")

/-- The store interface of a database. -/
def sqlStore {ρ κ : Type} (db : Database ρ κ) : Store κ :=
  { Find := sqlFind db, Status := sqlStatus db }

/-- An indexer over a database with the given engine. -/
def sqlIndexer {ρ κ : Type} (engine : Engine) (db : Database ρ κ) : Indexer κ :=
  { engine := engine, db := sqlStore db }

/-! ## The NFT table and its filter composer (`nft.go`) -/

/-- The address kinds of `iotago.AddressType`. -/
inductive AddressType
  | AddressEd25519
  | AddressAlias
  | AddressNFT
  deriving DecidableEq, Repr

/-- An `iotago.Address`: its kind (`Type()`) and its identifier bytes. -/
structure Address where
  AddrType : AddressType
  id : List Nat
  deriving DecidableEq, Repr

/-- The functions of the `iotago` library the sources call: the canonical binary
serialization of an address and its bech32 text. -/
structure Iotago where
  Serialize : Address → Except GoError (List Nat)
  Bech32 : String → Address → String

/-- The function `addressBytesForAddress`. -/
def addressBytesForAddress (io : Iotago) (addr : Address) : Except GoError (List Nat) :=
  io.Serialize addr

/-- The row type `nft`; a nullable column is an `Option`. -/
structure nft where
  NFTID : List Nat
  OutputID : List Nat
  NativeTokenCount : Nat
  Issuer : Option (List Nat)
  Sender : Option (List Nat)
  Tag : Option (List Nat)
  Address : List Nat
  StorageDepositReturn : Option Nat
  StorageDepositReturnAddress : Option (List Nat)
  TimelockTime : Option Nat
  ExpirationTime : Option Nat
  ExpirationReturnAddress : Option (List Nat)
  CreatedAt : Nat
  deriving DecidableEq, Repr

/-- The type `NFTFilterOptions`; a nil pointer or nil slice is `none`. -/
structure NFTFilterOptions where
  hasNativeTokens : Option Bool := none
  minNativeTokenCount : Option Nat := none
  maxNativeTokenCount : Option Nat := none
  unlockableByAddress : Option Address := none
  hasStorageDepositReturnCondition : Option Bool := none
  storageDepositReturnAddress : Option Address := none
  hasExpirationCondition : Option Bool := none
  expirationReturnAddress : Option Address := none
  expiresBefore : Option Nat := none
  expiresAfter : Option Nat := none
  hasTimelockCondition : Option Bool := none
  timelockedBefore : Option Nat := none
  timelockedAfter : Option Nat := none
  issuer : Option Address := none
  sender : Option Address := none
  tag : Option (List Nat) := none
  pageSize : Nat := 0
  cursor : Option GoString := none
  createdBefore : Option Nat := none
  createdAfter : Option Nat := none
  deriving DecidableEq, Repr

/-- The type `NFTFilterOption`. -/
abbrev NFTFilterOption := NFTFilterOptions → NFTFilterOptions

/-- The option `NFTHasNativeTokens`. -/
def NFTHasNativeTokens (value : Bool) : NFTFilterOption :=
  fun args => { args with hasNativeTokens := some value }

/-- The option `NFTMinNativeTokenCount`. -/
def NFTMinNativeTokenCount (value : Nat) : NFTFilterOption :=
  fun args => { args with minNativeTokenCount := some value }

/-- The option `NFTMaxNativeTokenCount`. -/
def NFTMaxNativeTokenCount (value : Nat) : NFTFilterOption :=
  fun args => { args with maxNativeTokenCount := some value }

/-- The option `NFTUnlockableByAddress`. -/
def NFTUnlockableByAddress (address : Address) : NFTFilterOption :=
  fun args => { args with unlockableByAddress := some address }

/-- The option `NFTHasStorageDepositReturnCondition`. -/
def NFTHasStorageDepositReturnCondition (value : Bool) : NFTFilterOption :=
  fun args => { args with hasStorageDepositReturnCondition := some value }

/-- The option `NFTStorageDepositReturnAddress`. -/
def NFTStorageDepositReturnAddress (address : Address) : NFTFilterOption :=
  fun args => { args with storageDepositReturnAddress := some address }

/-- The option `NFTExpirationReturnAddress`. -/
def NFTExpirationReturnAddress (address : Address) : NFTFilterOption :=
  fun args => { args with expirationReturnAddress := some address }

/-- The option `NFTHasExpirationCondition`. -/
def NFTHasExpirationCondition (value : Bool) : NFTFilterOption :=
  fun args => { args with hasExpirationCondition := some value }

/-- The option `NFTExpiresBefore`. -/
def NFTExpiresBefore (time : Nat) : NFTFilterOption :=
  fun args => { args with expiresBefore := some time }

/-- The option `NFTExpiresAfter`. -/
def NFTExpiresAfter (time : Nat) : NFTFilterOption :=
  fun args => { args with expiresAfter := some time }

/-- The option `NFTHasTimelockCondition`. -/
def NFTHasTimelockCondition (value : Bool) : NFTFilterOption :=
  fun args => { args with hasTimelockCondition := some value }

/-- The option `NFTTimelockedBefore`. -/
def NFTTimelockedBefore (time : Nat) : NFTFilterOption :=
  fun args => { args with timelockedBefore := some time }

/-- The option `NFTTimelockedAfter`. -/
def NFTTimelockedAfter (time : Nat) : NFTFilterOption :=
  fun args => { args with timelockedAfter := some time }

/-- The option `NFTIssuer`. -/
def NFTIssuer (address : Address) : NFTFilterOption :=
  fun args => { args with issuer := some address }

/-- The option `NFTSender`. -/
def NFTSender (address : Address) : NFTFilterOption :=
  fun args => { args with sender := some address }

/-- The option `NFTTag`; the argument is the slice, `none` when nil. -/
def NFTTag (tag : Option (List Nat)) : NFTFilterOption :=
  fun args => { args with tag := tag }

/-- The option `NFTPageSize`. -/
def NFTPageSize (pageSize : Nat) : NFTFilterOption :=
  fun args => { args with pageSize := pageSize }

/-- The option `NFTCursor`. -/
def NFTCursor (cursor : GoString) : NFTFilterOption :=
  fun args => { args with cursor := some cursor }

/-- The option `NFTCreatedBefore`. -/
def NFTCreatedBefore (time : Nat) : NFTFilterOption :=
  fun args => { args with createdBefore := some time }

/-- The option `NFTCreatedAfter`. -/
def NFTCreatedAfter (time : Nat) : NFTFilterOption :=
  fun args => { args with createdAfter := some time }

/-- The function `nftFilterOptions`: applies the options in order to the zero value. -/
def nftFilterOptions (optionalOptions : List NFTFilterOption) : NFTFilterOptions :=
  optionalOptions.foldl (fun result optionalOption => optionalOption result) {}

/-- The `Where` clauses `NFTOutputsWithFilters` and `NFTOutput` write, one
constructor per SQL text. -/
inductive NFTCond
  /-- The clause `nft_id = ?`. -/
  | nftIDEq (nftID : List Nat)
  /-- The clause `native_token_count > 0`. -/
  | nativeTokenCountPositive
  /-- The clause `native_token_count = 0`. -/
  | nativeTokenCountZero
  /-- The clause `native_token_count >= ?`. -/
  | nativeTokenCountGE (value : Nat)
  /-- The clause `native_token_count <= ?`. -/
  | nativeTokenCountLE (value : Nat)
  /-- The clause `address = ?`. -/
  | addressEq (addr : List Nat)
  /-- The clause `storage_deposit_return IS NOT NULL`. -/
  | storageDepositReturnNotNull
  /-- The clause `storage_deposit_return IS NULL`. -/
  | storageDepositReturnNull
  /-- The clause `storage_deposit_return_address = ?`. -/
  | storageDepositReturnAddressEq (addr : List Nat)
  /-- The clause `expiration_return_address IS NOT NULL`. -/
  | expirationReturnAddressNotNull
  /-- The clause `expiration_return_address IS NULL`. -/
  | expirationReturnAddressNull
  /-- The clause `expiration_return_address = ?`. -/
  | expirationReturnAddressEq (addr : List Nat)
  /-- The clause `expiration_time < ?`. -/
  | expirationTimeLT (time : Nat)
  /-- The clause `expiration_time > ?`. -/
  | expirationTimeGT (time : Nat)
  /-- The clause `timelock_time IS NOT NULL`. -/
  | timelockTimeNotNull
  /-- The clause `timelock_time IS NULL`. -/
  | timelockTimeNull
  /-- The clause `timelock_time < ?`. -/
  | timelockTimeLT (time : Nat)
  /-- The clause `timelock_time > ?`. -/
  | timelockTimeGT (time : Nat)
  /-- The clause `issuer = ?`. -/
  | issuerEq (addr : List Nat)
  /-- The clause `sender = ?`. -/
  | senderEq (addr : List Nat)
  /-- The clause `tag = ?`. -/
  | tagEq (tag : List Nat)
  /-- The clause `created_at < ?`. -/
  | createdAtLT (time : Nat)
  /-- The clause `created_at > ?`. -/
  | createdAtGT (time : Nat)
  deriving DecidableEq, Repr

/-- SQL comparison of a nullable column with a value: a NULL column never
satisfies it. -/
def nullable {α : Type} (column : Option α) (test : α → Bool) : Bool :=
  match column with
  | some v => test v
  | none => false

/-- Whether an `nft` row satisfies a clause. -/
def NFTCond.holds : NFTCond → nft → Bool
  | NFTCond.nftIDEq nftID, r => r.NFTID == nftID
  | NFTCond.nativeTokenCountPositive, r => decide (r.NativeTokenCount > 0)
  | NFTCond.nativeTokenCountZero, r => r.NativeTokenCount == 0
  | NFTCond.nativeTokenCountGE value, r => decide (r.NativeTokenCount ≥ value)
  | NFTCond.nativeTokenCountLE value, r => decide (r.NativeTokenCount ≤ value)
  | NFTCond.addressEq addr, r => r.Address == addr
  | NFTCond.storageDepositReturnNotNull, r => r.StorageDepositReturn.isSome
  | NFTCond.storageDepositReturnNull, r => r.StorageDepositReturn.isNone
  | NFTCond.storageDepositReturnAddressEq addr, r =>
    nullable r.StorageDepositReturnAddress (fun a => a == addr)
  | NFTCond.expirationReturnAddressNotNull, r => r.ExpirationReturnAddress.isSome
  | NFTCond.expirationReturnAddressNull, r => r.ExpirationReturnAddress.isNone
  | NFTCond.expirationReturnAddressEq addr, r =>
    nullable r.ExpirationReturnAddress (fun a => a == addr)
  | NFTCond.expirationTimeLT time, r => nullable r.ExpirationTime (fun t => decide (t < time))
  | NFTCond.expirationTimeGT time, r => nullable r.ExpirationTime (fun t => decide (t > time))
  | NFTCond.timelockTimeNotNull, r => r.TimelockTime.isSome
  | NFTCond.timelockTimeNull, r => r.TimelockTime.isNone
  | NFTCond.timelockTimeLT time, r => nullable r.TimelockTime (fun t => decide (t < time))
  | NFTCond.timelockTimeGT time, r => nullable r.TimelockTime (fun t => decide (t > time))
  | NFTCond.issuerEq addr, r => nullable r.Issuer (fun a => a == addr)
  | NFTCond.senderEq addr, r => nullable r.Sender (fun a => a == addr)
  | NFTCond.tagEq tag, r => nullable r.Tag (fun a => a == tag)
  | NFTCond.createdAtLT time, r => decide (r.CreatedAt < time)
  | NFTCond.createdAtGT time, r => decide (r.CreatedAt > time)

/-- The `nfts` table holding the given rows. -/
def nftTable (rows : List nft) : Table nft NFTCond :=
  { rows := rows
    created_at := fun r => r.CreatedAt
    output_id := fun r => r.OutputID
    holds := NFTCond.holds }

/-- A `Where` call of the composer with a table predicate. -/
def whereNFT (query : Query NFTCond) (k : NFTCond) : Query NFTCond :=
  query.Where (Cond.table k)

/-- The block of a yes/no filter: one clause for `true`, another for `false`, none
when the filter is nil. -/
def whereFlag (flag : Option Bool) (yes no : NFTCond) (query : Query NFTCond) :
    Query NFTCond :=
  match flag with
  | some true => whereNFT query yes
  | some false => whereNFT query no
  | none => query

/-- The block of a value filter: one clause when the filter is not nil. -/
def whereValue {α : Type} (value : Option α) (clause : α → NFTCond) (query : Query NFTCond) :
    Query NFTCond :=
  match value with
  | some v => whereNFT query (clause v)
  | none => query

/-- The block of an address filter: serializes the address, returns the error of a
failed serialization, and otherwise adds one clause. -/
def whereAddress (io : Iotago) (address : Option Address) (clause : List Nat → NFTCond)
    (query : Query NFTCond) : Except GoError (Query NFTCond) :=
  match address with
  | some a =>
    match addressBytesForAddress io a with
    | Except.error err => Except.error err
    | Except.ok addr => Except.ok (whereNFT query (clause addr))
  | none => Except.ok query

/-- The block of the tag filter: `opts.tag != nil && len(opts.tag) > 0`. -/
def whereTag (tag : Option (List Nat)) (query : Query NFTCond) : Query NFTCond :=
  match tag with
  | some t => if t.length > 0 then whereNFT query (NFTCond.tagEq t) else query
  | none => query

/-- The query `NFTOutputsWithFilters` builds from its options, block by block in
source order, or the error of the first address that fails to serialize. -/
def nftFilterQuery (io : Iotago) (opts : NFTFilterOptions) : Except GoError (Query NFTCond) :=
  Except.ok Query.Model
  >>= (fun q => Except.ok (whereFlag opts.hasNativeTokens
        NFTCond.nativeTokenCountPositive NFTCond.nativeTokenCountZero q))
  >>= (fun q => Except.ok (whereValue opts.minNativeTokenCount NFTCond.nativeTokenCountGE q))
  >>= (fun q => Except.ok (whereValue opts.maxNativeTokenCount NFTCond.nativeTokenCountLE q))
  >>= whereAddress io opts.unlockableByAddress NFTCond.addressEq
  >>= (fun q => Except.ok (whereFlag opts.hasStorageDepositReturnCondition
        NFTCond.storageDepositReturnNotNull NFTCond.storageDepositReturnNull q))
  >>= whereAddress io opts.storageDepositReturnAddress NFTCond.storageDepositReturnAddressEq
  >>= (fun q => Except.ok (whereFlag opts.hasExpirationCondition
        NFTCond.expirationReturnAddressNotNull NFTCond.expirationReturnAddressNull q))
  >>= whereAddress io opts.expirationReturnAddress NFTCond.expirationReturnAddressEq
  >>= (fun q => Except.ok (whereValue opts.expiresBefore NFTCond.expirationTimeLT q))
  >>= (fun q => Except.ok (whereValue opts.expiresAfter NFTCond.expirationTimeGT q))
  >>= (fun q => Except.ok (whereFlag opts.hasTimelockCondition
        NFTCond.timelockTimeNotNull NFTCond.timelockTimeNull q))
  >>= (fun q => Except.ok (whereValue opts.timelockedBefore NFTCond.timelockTimeLT q))
  >>= (fun q => Except.ok (whereValue opts.timelockedAfter NFTCond.timelockTimeGT q))
  >>= whereAddress io opts.issuer NFTCond.issuerEq
  >>= whereAddress io opts.sender NFTCond.senderEq
  >>= (fun q => Except.ok (whereTag opts.tag q))
  >>= (fun q => Except.ok (whereValue opts.createdBefore NFTCond.createdAtLT q))
  >>= (fun q => Except.ok (whereValue opts.createdAfter NFTCond.createdAtGT q))

/-- The method `Indexer.NFTOutput`. -/
def NFTOutput (i : Indexer NFTCond) (nftID : List Nat) : Run (Option IndexerResult) :=
  let query := ((Query.Model).Where (Cond.table (NFTCond.nftIDEq nftID))).Limit 1
  combineOutputIDFilteredQuery i query 0 none

/-- The method `Indexer.NFTOutputsWithFilters`. -/
def NFTOutputsWithFilters (io : Iotago) (i : Indexer NFTCond)
    (filters : List NFTFilterOption) : Run (Option IndexerResult) :=
  let opts := nftFilterOptions filters
  match nftFilterQuery io opts with
  | Except.error err => { ops := [], out := some (errorResult err) }
  | Except.ok query => combineOutputIDFilteredQuery i query opts.pageSize opts.cursor

/-! ## The request handlers (`routes.go`) -/

/-- The query parameter names `QueryParameter...` of package `server`. -/
inductive QueryParameter
  | HasNativeTokens
  | MinNativeTokenCount
  | MaxNativeTokenCount
  | Address
  | AliasAddress
  | HasStorageDepositReturn
  | StorageDepositReturnAddress
  | HasExpiration
  | ExpirationReturnAddress
  | ExpiresBefore
  | ExpiresAfter
  | HasTimelock
  | TimelockedBefore
  | TimelockedAfter
  | StateController
  | Governor
  | Issuer
  | Sender
  | Tag
  | Cursor
  | PageSize
  | CreatedBefore
  | CreatedAfter
  deriving DecidableEq, Repr

/-- The request as the handlers use it: `c.QueryParam(name)`. -/
structure Context where
  QueryParam : QueryParameter → GoString

/-- The parameter parsers of the `httpserver` library the handlers call. -/
structure HttpServer where
  ParseBoolQueryParam : Context → QueryParameter → Except GoError Bool
  ParseUint32QueryParam : Context → QueryParameter → Nat → Except GoError Nat
  ParseBech32AddressQueryParam : Context → String → QueryParameter → Except GoError Address
  ParseUnixTimestampQueryParam : Context → QueryParameter → Except GoError Nat
  ParseHexQueryParam : Context → QueryParameter → Nat → Except GoError (List Nat)

/-- The constant `iotago.MaxNativeTokenCountPerOutput`. -/
def MaxNativeTokenCountPerOutput : Nat := 64

/-- The constant `iotago.MaxTagLength`. -/
def MaxTagLength : Nat := 64

/-- The filter options of the basic-output composer, kept symbolic (the composer is
outside the embedded files): one constructor per option function the handler calls. -/
inductive BasicOutputFilterOption
  | BasicOutputPageSize (pageSize : Nat)
  | BasicOutputHasNativeTokens (value : Bool)
  | BasicOutputMinNativeTokenCount (value : Nat)
  | BasicOutputMaxNativeTokenCount (value : Nat)
  | BasicOutputUnlockableByAddress (addr : Address)
  | BasicOutputHasStorageDepositReturnCondition (value : Bool)
  | BasicOutputStorageDepositReturnAddress (addr : Address)
  | BasicOutputHasExpirationCondition (value : Bool)
  | BasicOutputExpirationReturnAddress (addr : Address)
  | BasicOutputExpiresBefore (timestamp : Nat)
  | BasicOutputExpiresAfter (timestamp : Nat)
  | BasicOutputHasTimelockCondition (value : Bool)
  | BasicOutputTimelockedBefore (timestamp : Nat)
  | BasicOutputTimelockedAfter (timestamp : Nat)
  | BasicOutputSender (addr : Address)
  | BasicOutputTag (tagBytes : List Nat)
  | BasicOutputCursor (cursor : GoString)
  | BasicOutputCreatedBefore (timestamp : Nat)
  | BasicOutputCreatedAfter (timestamp : Nat)
  deriving DecidableEq, Repr

/-- The filter options of the alias composer, kept symbolic (the composer is outside
the embedded files): one constructor per option function the handler calls. -/
inductive AliasFilterOption
  | AliasPageSize (pageSize : Nat)
  | AliasHasNativeTokens (value : Bool)
  | AliasMinNativeTokenCount (value : Nat)
  | AliasMaxNativeTokenCount (value : Nat)
  | AliasStateController (addr : Address)
  | AliasGovernor (addr : Address)
  | AliasIssuer (addr : Address)
  | AliasSender (addr : Address)
  | AliasCursor (cursor : GoString)
  | AliasCreatedBefore (timestamp : Nat)
  | AliasCreatedAfter (timestamp : Nat)
  deriving DecidableEq, Repr

/-- The filter options of the foundry composer, kept symbolic (the composer is outside
the embedded files): one constructor per option function the handler calls. -/
inductive FoundryFilterOption
  | FoundryPageSize (pageSize : Nat)
  | FoundryHasNativeTokens (value : Bool)
  | FoundryMinNativeTokenCount (value : Nat)
  | FoundryMaxNativeTokenCount (value : Nat)
  | FoundryWithAliasAddress (addr : Address)
  | FoundryCursor (cursor : GoString)
  | FoundryCreatedBefore (timestamp : Nat)
  | FoundryCreatedAfter (timestamp : Nat)
  deriving DecidableEq, Repr

/-- The receiver `IndexerServer`: the configured maximum page size (a Go `int`),
the bech32 prefix, and `s.Indexer`, given by its NFT engine and by the filter
queries of the three kinds whose composers are outside the embedded files. -/
structure IndexerServer where
  RestAPILimitsMaxResults : Int
  Bech32HRP : String
  Indexer : Indexer NFTCond
  BasicOutputsWithFilters : List BasicOutputFilterOption → Run (Option IndexerResult)
  AliasOutputsWithFilters : List AliasFilterOption → Run (Option IndexerResult)
  FoundryOutputsWithFilters : List FoundryFilterOption → Run (Option IndexerResult)

/-- The conversion `uint32(x)` of a Go `int`. -/
def uint32OfInt (x : Int) : Nat := (x % 2 ^ 32).toNat

/-- Go `strings.Split(s, sep)` for a one-character separator. -/
def Split (s : GoString) (sep : Char) : List GoString :=
  match s with
  | [] => [[]]
  | ch :: rest =>
    if ch = sep then [] :: Split rest sep
    else
      match Split rest sep with
      | [] => [[ch]]
      | part :: parts => (ch :: part) :: parts

/-- The value of a decimal digit character. -/
def decimalDigit (ch : Char) : Option Nat :=
  if 48 ≤ ch.toNat ∧ ch.toNat ≤ 57 then some (ch.toNat - 48) else none

/-- The value of a text of decimal digits, `none` when a character is not a digit. -/
def decimalValue : GoString → Nat → Option Nat
  | [], acc => some acc
  | ch :: rest, acc =>
    match decimalDigit ch with
    | none => none
    | some d => decimalValue rest (acc * 10 + d)

/-- Go `strconv.ParseUint(s, 10, bitSize)`: `none` is a returned error (empty text, a
character that is not a decimal digit, or a value that does not fit `bitSize` bits). -/
def ParseUint (s : GoString) (bitSize : Nat) : Option Nat :=
  if s = [] then none
  else
    match decimalValue s 0 with
    | none => none
    | some n => if n < 2 ^ bitSize then some n else none

/-- The decimal digit values of a number, most significant first; `fuel` bounds the
number of digits. -/
def decimalDigitsOf : Nat → Nat → List Nat
  | 0, _ => []
  | fuel + 1, n => if n < 10 then [n] else decimalDigitsOf fuel (n / 10) ++ [n % 10]

/-- The verb `%d` of `fmt.Sprintf` for an unsigned number. -/
def formatDecimal (n : Nat) : GoString :=
  (decimalDigitsOf (n + 1) n).map (fun d => Char.ofNat (48 + d))

/-- The error every rejection of `parseCursorQueryParameter` returns. -/
def cursorFormatError : GoError :=
  WithMessage Sentinel.ErrInvalidParameter "query parameter cursor has wrong format"

/-- The method `IndexerServer.parseCursorQueryParameter`. -/
def parseCursorQueryParameter (s : IndexerServer) (c : Context) :
    Except GoError (GoString × Nat) :=
  let cursorWithPageSize := c.QueryParam QueryParameter.Cursor
  let components := Split cursorWithPageSize '.'
  if components.length ≠ 2 then Except.error cursorFormatError
  else if len (components.getD 0 []) ≠ CursorLength then Except.error cursorFormatError
  else
    match ParseUint (components.getD 1 []) 32 with
    | none => Except.error cursorFormatError
    | some size =>
      let pageSize := size % 2 ^ 32
      let pageSize :=
        if pageSize > uint32OfInt s.RestAPILimitsMaxResults then
          uint32OfInt s.RestAPILimitsMaxResults
        else pageSize
      Except.ok (components.getD 0 [], pageSize)

/-- The method `IndexerServer.pageSizeFromContext`. -/
def pageSizeFromContext (lib : HttpServer) (s : IndexerServer) (c : Context) : Nat :=
  let pageSize := uint32OfInt s.RestAPILimitsMaxResults
  if len (c.QueryParam QueryParameter.PageSize) > 0 then
    match lib.ParseUint32QueryParam c QueryParameter.PageSize pageSize with
    | Except.error _ => pageSize
    | Except.ok i => i
  else pageSize

/-- The response type `outputsResponse`. -/
structure outputsResponse where
  LedgerIndex : Nat
  PageSize : Nat
  Cursor : Option GoString
  Items : List GoString
  deriving DecidableEq, Repr

/-- The method `iotago.OutputIDs.ToHex`: the lower-case hexadecimal text of every
identifier after `0x`. -/
def ToHex (ids : List (List Nat)) : List GoString :=
  ids.map (fun id => '0' :: 'x' :: pgEncodeHex id)

/-- The function `outputsResponseFromResult`. -/
def outputsResponseFromResult (result : IndexerResult) : Except GoError outputsResponse :=
  match result.Error with
  | some err =>
    Except.error
      (WithMessage Sentinel.ErrInternalServerError ("reading outputIDs failed: " ++ err.msg))
  | none =>
    let cursor : Option GoString :=
      match result.Cursor with
      | some cur => some (cur ++ '.' :: formatDecimal result.PageSize)
      | none => none
    Except.ok
      { LedgerIndex := result.LedgerIndex
        PageSize := result.PageSize
        Cursor := cursor
        Items := ToHex result.OutputIDs }

/-- One parameter block of a filter handler: when the parameter is present
(`len(c.QueryParam(name)) > 0`) the parsed value is turned into filters appended to
the list, and a parse error is returned at once. -/
def paramBlock {α φ : Type} (c : Context) (name : QueryParameter) (parse : Except GoError α)
    (mk : α → List φ) (filters : List φ) : Except GoError (List φ) :=
  if len (c.QueryParam name) > 0 then
    match parse with
    | Except.error err => Except.error err
    | Except.ok value => Except.ok (filters ++ mk value)
  else Except.ok filters

/-- The last statement of a filter handler: the indexer query on the collected
filters, rendered by `outputsResponseFromResult`; an error of the parameter blocks
is returned without a query. -/
def respond {φ : Type} (filters : Except GoError (List φ))
    (indexerQuery : List φ → Run (Option IndexerResult)) :
    Run (Option (Except GoError outputsResponse)) :=
  match filters with
  | Except.error err => { ops := [], out := some (Except.error err) }
  | Except.ok fs =>
    let r := indexerQuery fs
    { ops := r.ops, out := r.out.map outputsResponseFromResult }

/-- The parameter blocks of `nftsWithFilter` that precede the cursor block. -/
def nftsFiltersBeforeCursor (lib : HttpServer) (s : IndexerServer) (c : Context) :
    Except GoError (List NFTFilterOption) :=
  Except.ok [NFTPageSize (pageSizeFromContext lib s c)]
  >>= paramBlock c QueryParameter.HasNativeTokens
        (lib.ParseBoolQueryParam c QueryParameter.HasNativeTokens)
        (fun value => [NFTHasNativeTokens value])
  >>= paramBlock c QueryParameter.MinNativeTokenCount
        (lib.ParseUint32QueryParam c QueryParameter.MinNativeTokenCount
          MaxNativeTokenCountPerOutput)
        (fun value => [NFTMinNativeTokenCount value])
  >>= paramBlock c QueryParameter.MaxNativeTokenCount
        (lib.ParseUint32QueryParam c QueryParameter.MaxNativeTokenCount
          MaxNativeTokenCountPerOutput)
        (fun value => [NFTMaxNativeTokenCount value])
  >>= paramBlock c QueryParameter.Address
        (lib.ParseBech32AddressQueryParam c s.Bech32HRP QueryParameter.Address)
        (fun addr => [NFTUnlockableByAddress addr])
  >>= paramBlock c QueryParameter.HasStorageDepositReturn
        (lib.ParseBoolQueryParam c QueryParameter.HasStorageDepositReturn)
        (fun value => [NFTHasStorageDepositReturnCondition value])
  >>= paramBlock c QueryParameter.StorageDepositReturnAddress
        (lib.ParseBech32AddressQueryParam c s.Bech32HRP
          QueryParameter.StorageDepositReturnAddress)
        (fun addr => [NFTStorageDepositReturnAddress addr])
  >>= paramBlock c QueryParameter.HasExpiration
        (lib.ParseBoolQueryParam c QueryParameter.HasExpiration)
        (fun value => [NFTHasExpirationCondition value])
  >>= paramBlock c QueryParameter.ExpirationReturnAddress
        (lib.ParseBech32AddressQueryParam c s.Bech32HRP QueryParameter.ExpirationReturnAddress)
        (fun addr => [NFTExpirationReturnAddress addr])
  >>= paramBlock c QueryParameter.ExpiresBefore
        (lib.ParseUnixTimestampQueryParam c QueryParameter.ExpiresBefore)
        (fun timestamp => [NFTExpiresBefore timestamp])
  >>= paramBlock c QueryParameter.ExpiresAfter
        (lib.ParseUnixTimestampQueryParam c QueryParameter.ExpiresAfter)
        (fun timestamp => [NFTExpiresAfter timestamp])
  >>= paramBlock c QueryParameter.HasTimelock
        (lib.ParseBoolQueryParam c QueryParameter.HasTimelock)
        (fun value => [NFTHasTimelockCondition value])
  >>= paramBlock c QueryParameter.TimelockedBefore
        (lib.ParseUnixTimestampQueryParam c QueryParameter.TimelockedBefore)
        (fun timestamp => [NFTTimelockedBefore timestamp])
  >>= paramBlock c QueryParameter.TimelockedAfter
        (lib.ParseUnixTimestampQueryParam c QueryParameter.TimelockedAfter)
        (fun timestamp => [NFTTimelockedAfter timestamp])
  >>= paramBlock c QueryParameter.Issuer
        (lib.ParseBech32AddressQueryParam c s.Bech32HRP QueryParameter.Issuer)
        (fun addr => [NFTIssuer addr])
  >>= paramBlock c QueryParameter.Sender
        (lib.ParseBech32AddressQueryParam c s.Bech32HRP QueryParameter.Sender)
        (fun addr => [NFTSender addr])
  >>= paramBlock c QueryParameter.Tag
        (lib.ParseHexQueryParam c QueryParameter.Tag MaxTagLength)
        (fun tagBytes => [NFTTag (some tagBytes)])

/-- The parameter blocks of `nftsWithFilter`, in source order. -/
def nftsFilters (lib : HttpServer) (s : IndexerServer) (c : Context) :
    Except GoError (List NFTFilterOption) :=
  nftsFiltersBeforeCursor lib s c
  >>= paramBlock c QueryParameter.Cursor (parseCursorQueryParameter s c)
        (fun parsed => [NFTCursor parsed.1, NFTPageSize parsed.2])
  >>= paramBlock c QueryParameter.CreatedBefore
        (lib.ParseUnixTimestampQueryParam c QueryParameter.CreatedBefore)
        (fun timestamp => [NFTCreatedBefore timestamp])
  >>= paramBlock c QueryParameter.CreatedAfter
        (lib.ParseUnixTimestampQueryParam c QueryParameter.CreatedAfter)
        (fun timestamp => [NFTCreatedAfter timestamp])

/-- The method `IndexerServer.nftsWithFilter`. -/
def nftsWithFilter (io : Iotago) (lib : HttpServer) (s : IndexerServer) (c : Context) :
    Run (Option (Except GoError outputsResponse)) :=
  respond (nftsFilters lib s c) (NFTOutputsWithFilters io s.Indexer)

/-- The parameter blocks of `basicOutputsWithFilter` that precede the cursor block. -/
def basicFiltersBeforeCursor (lib : HttpServer) (s : IndexerServer) (c : Context) :
    Except GoError (List BasicOutputFilterOption) :=
  Except.ok [BasicOutputFilterOption.BasicOutputPageSize (pageSizeFromContext lib s c)]
  >>= paramBlock c QueryParameter.HasNativeTokens
        (lib.ParseBoolQueryParam c QueryParameter.HasNativeTokens)
        (fun value => [BasicOutputFilterOption.BasicOutputHasNativeTokens value])
  >>= paramBlock c QueryParameter.MinNativeTokenCount
        (lib.ParseUint32QueryParam c QueryParameter.MinNativeTokenCount
          MaxNativeTokenCountPerOutput)
        (fun value => [BasicOutputFilterOption.BasicOutputMinNativeTokenCount value])
  >>= paramBlock c QueryParameter.MaxNativeTokenCount
        (lib.ParseUint32QueryParam c QueryParameter.MaxNativeTokenCount
          MaxNativeTokenCountPerOutput)
        (fun value => [BasicOutputFilterOption.BasicOutputMaxNativeTokenCount value])
  >>= paramBlock c QueryParameter.Address
        (lib.ParseBech32AddressQueryParam c s.Bech32HRP QueryParameter.Address)
        (fun addr => [BasicOutputFilterOption.BasicOutputUnlockableByAddress addr])
  >>= paramBlock c QueryParameter.HasStorageDepositReturn
        (lib.ParseBoolQueryParam c QueryParameter.HasStorageDepositReturn)
        (fun value => [BasicOutputFilterOption.BasicOutputHasStorageDepositReturnCondition value])
  >>= paramBlock c QueryParameter.StorageDepositReturnAddress
        (lib.ParseBech32AddressQueryParam c s.Bech32HRP
          QueryParameter.StorageDepositReturnAddress)
        (fun addr => [BasicOutputFilterOption.BasicOutputStorageDepositReturnAddress addr])
  >>= paramBlock c QueryParameter.HasExpiration
        (lib.ParseBoolQueryParam c QueryParameter.HasExpiration)
        (fun value => [BasicOutputFilterOption.BasicOutputHasExpirationCondition value])
  >>= paramBlock c QueryParameter.ExpirationReturnAddress
        (lib.ParseBech32AddressQueryParam c s.Bech32HRP QueryParameter.ExpirationReturnAddress)
        (fun addr => [BasicOutputFilterOption.BasicOutputExpirationReturnAddress addr])
  >>= paramBlock c QueryParameter.ExpiresBefore
        (lib.ParseUnixTimestampQueryParam c QueryParameter.ExpiresBefore)
        (fun timestamp => [BasicOutputFilterOption.BasicOutputExpiresBefore timestamp])
  >>= paramBlock c QueryParameter.ExpiresAfter
        (lib.ParseUnixTimestampQueryParam c QueryParameter.ExpiresAfter)
        (fun timestamp => [BasicOutputFilterOption.BasicOutputExpiresAfter timestamp])
  >>= paramBlock c QueryParameter.HasTimelock
        (lib.ParseBoolQueryParam c QueryParameter.HasTimelock)
        (fun value => [BasicOutputFilterOption.BasicOutputHasTimelockCondition value])
  >>= paramBlock c QueryParameter.TimelockedBefore
        (lib.ParseUnixTimestampQueryParam c QueryParameter.TimelockedBefore)
        (fun timestamp => [BasicOutputFilterOption.BasicOutputTimelockedBefore timestamp])
  >>= paramBlock c QueryParameter.TimelockedAfter
        (lib.ParseUnixTimestampQueryParam c QueryParameter.TimelockedAfter)
        (fun timestamp => [BasicOutputFilterOption.BasicOutputTimelockedAfter timestamp])
  >>= paramBlock c QueryParameter.Sender
        (lib.ParseBech32AddressQueryParam c s.Bech32HRP QueryParameter.Sender)
        (fun addr => [BasicOutputFilterOption.BasicOutputSender addr])
  >>= paramBlock c QueryParameter.Tag
        (lib.ParseHexQueryParam c QueryParameter.Tag MaxTagLength)
        (fun tagBytes => [BasicOutputFilterOption.BasicOutputTag tagBytes])

/-- The parameter blocks of `basicOutputsWithFilter`, in source order. -/
def basicFilters (lib : HttpServer) (s : IndexerServer) (c : Context) :
    Except GoError (List BasicOutputFilterOption) :=
  basicFiltersBeforeCursor lib s c
  >>= paramBlock c QueryParameter.Cursor (parseCursorQueryParameter s c)
        (fun parsed => [BasicOutputFilterOption.BasicOutputCursor parsed.1,
          BasicOutputFilterOption.BasicOutputPageSize parsed.2])
  >>= paramBlock c QueryParameter.CreatedBefore
        (lib.ParseUnixTimestampQueryParam c QueryParameter.CreatedBefore)
        (fun timestamp => [BasicOutputFilterOption.BasicOutputCreatedBefore timestamp])
  >>= paramBlock c QueryParameter.CreatedAfter
        (lib.ParseUnixTimestampQueryParam c QueryParameter.CreatedAfter)
        (fun timestamp => [BasicOutputFilterOption.BasicOutputCreatedAfter timestamp])

/-- The method `IndexerServer.basicOutputsWithFilter`. -/
def basicOutputsWithFilter (lib : HttpServer) (s : IndexerServer) (c : Context) :
    Run (Option (Except GoError outputsResponse)) :=
  respond (basicFilters lib s c) s.BasicOutputsWithFilters

/-- The parameter blocks of `aliasesWithFilter` that precede the cursor block. -/
def aliasFiltersBeforeCursor (lib : HttpServer) (s : IndexerServer) (c : Context) :
    Except GoError (List AliasFilterOption) :=
  Except.ok [AliasFilterOption.AliasPageSize (pageSizeFromContext lib s c)]
  >>= paramBlock c QueryParameter.HasNativeTokens
        (lib.ParseBoolQueryParam c QueryParameter.HasNativeTokens)
        (fun value => [AliasFilterOption.AliasHasNativeTokens value])
  >>= paramBlock c QueryParameter.MinNativeTokenCount
        (lib.ParseUint32QueryParam c QueryParameter.MinNativeTokenCount
          MaxNativeTokenCountPerOutput)
        (fun value => [AliasFilterOption.AliasMinNativeTokenCount value])
  >>= paramBlock c QueryParameter.MaxNativeTokenCount
        (lib.ParseUint32QueryParam c QueryParameter.MaxNativeTokenCount
          MaxNativeTokenCountPerOutput)
        (fun value => [AliasFilterOption.AliasMaxNativeTokenCount value])
  >>= paramBlock c QueryParameter.StateController
        (lib.ParseBech32AddressQueryParam c s.Bech32HRP QueryParameter.StateController)
        (fun stateController => [AliasFilterOption.AliasStateController stateController])
  >>= paramBlock c QueryParameter.Governor
        (lib.ParseBech32AddressQueryParam c s.Bech32HRP QueryParameter.Governor)
        (fun governor => [AliasFilterOption.AliasGovernor governor])
  >>= paramBlock c QueryParameter.Issuer
        (lib.ParseBech32AddressQueryParam c s.Bech32HRP QueryParameter.Issuer)
        (fun issuer => [AliasFilterOption.AliasIssuer issuer])
  >>= paramBlock c QueryParameter.Sender
        (lib.ParseBech32AddressQueryParam c s.Bech32HRP QueryParameter.Sender)
        (fun sender => [AliasFilterOption.AliasSender sender])

/-- The parameter blocks of `aliasesWithFilter`, in source order. -/
def aliasFilters (lib : HttpServer) (s : IndexerServer) (c : Context) :
    Except GoError (List AliasFilterOption) :=
  aliasFiltersBeforeCursor lib s c
  >>= paramBlock c QueryParameter.Cursor (parseCursorQueryParameter s c)
        (fun parsed => [AliasFilterOption.AliasCursor parsed.1,
          AliasFilterOption.AliasPageSize parsed.2])
  >>= paramBlock c QueryParameter.CreatedBefore
        (lib.ParseUnixTimestampQueryParam c QueryParameter.CreatedBefore)
        (fun timestamp => [AliasFilterOption.AliasCreatedBefore timestamp])
  >>= paramBlock c QueryParameter.CreatedAfter
        (lib.ParseUnixTimestampQueryParam c QueryParameter.CreatedAfter)
        (fun timestamp => [AliasFilterOption.AliasCreatedAfter timestamp])

/-- The method `IndexerServer.aliasesWithFilter`. -/
def aliasesWithFilter (lib : HttpServer) (s : IndexerServer) (c : Context) :
    Run (Option (Except GoError outputsResponse)) :=
  respond (aliasFilters lib s c) s.AliasOutputsWithFilters

/-- The error of the alias-address guard of `foundriesWithFilter`. -/
def notAliasAddressError (io : Iotago) (s : IndexerServer) (address : Address) : GoError :=
  WithMessage Sentinel.ErrInvalidParameter
    ("invalid address: " ++ io.Bech32 s.Bech32HRP address ++ ", not an alias address")

/-- The body of the `aliasAddress` block of `foundriesWithFilter`: the parsed
address, or the parse error, or the guard error for an address whose type is not
`AddressAlias`. -/
def parseAliasAddress (io : Iotago) (lib : HttpServer) (s : IndexerServer) (c : Context) :
    Except GoError Address :=
  match lib.ParseBech32AddressQueryParam c s.Bech32HRP QueryParameter.AliasAddress with
  | Except.error err => Except.error err
  | Except.ok address =>
    if address.AddrType ≠ AddressType.AddressAlias then
      Except.error (notAliasAddressError io s address)
    else Except.ok address

/-- The parameter blocks of `foundriesWithFilter` that precede the `aliasAddress`
block. -/
def foundryFiltersBeforeAlias (lib : HttpServer) (s : IndexerServer) (c : Context) :
    Except GoError (List FoundryFilterOption) :=
  Except.ok [FoundryFilterOption.FoundryPageSize (pageSizeFromContext lib s c)]
  >>= paramBlock c QueryParameter.HasNativeTokens
        (lib.ParseBoolQueryParam c QueryParameter.HasNativeTokens)
        (fun value => [FoundryFilterOption.FoundryHasNativeTokens value])
  >>= paramBlock c QueryParameter.MinNativeTokenCount
        (lib.ParseUint32QueryParam c QueryParameter.MinNativeTokenCount
          MaxNativeTokenCountPerOutput)
        (fun value => [FoundryFilterOption.FoundryMinNativeTokenCount value])
  >>= paramBlock c QueryParameter.MaxNativeTokenCount
        (lib.ParseUint32QueryParam c QueryParameter.MaxNativeTokenCount
          MaxNativeTokenCountPerOutput)
        (fun value => [FoundryFilterOption.FoundryMaxNativeTokenCount value])

/-- The `aliasAddress` block of `foundriesWithFilter`. -/
def foundryAliasBlock (io : Iotago) (lib : HttpServer) (s : IndexerServer) (c : Context)
    (filters : List FoundryFilterOption) : Except GoError (List FoundryFilterOption) :=
  paramBlock c QueryParameter.AliasAddress (parseAliasAddress io lib s c)
    (fun address => [FoundryFilterOption.FoundryWithAliasAddress address]) filters

/-- The parameter blocks of `foundriesWithFilter` up to and including the
`aliasAddress` block. -/
def foundryFiltersBeforeCursor (io : Iotago) (lib : HttpServer) (s : IndexerServer)
    (c : Context) : Except GoError (List FoundryFilterOption) :=
  foundryFiltersBeforeAlias lib s c >>= foundryAliasBlock io lib s c

/-- The parameter blocks of `foundriesWithFilter`, in source order. -/
def foundryFilters (io : Iotago) (lib : HttpServer) (s : IndexerServer) (c : Context) :
    Except GoError (List FoundryFilterOption) :=
  foundryFiltersBeforeCursor io lib s c
  >>= paramBlock c QueryParameter.Cursor (parseCursorQueryParameter s c)
        (fun parsed => [FoundryFilterOption.FoundryCursor parsed.1,
          FoundryFilterOption.FoundryPageSize parsed.2])
  >>= paramBlock c QueryParameter.CreatedBefore
        (lib.ParseUnixTimestampQueryParam c QueryParameter.CreatedBefore)
        (fun timestamp => [FoundryFilterOption.FoundryCreatedBefore timestamp])
  >>= paramBlock c QueryParameter.CreatedAfter
        (lib.ParseUnixTimestampQueryParam c QueryParameter.CreatedAfter)
        (fun timestamp => [FoundryFilterOption.FoundryCreatedAfter timestamp])

/-- The method `IndexerServer.foundriesWithFilter`. -/
def foundriesWithFilter (io : Iotago) (lib : HttpServer) (s : IndexerServer) (c : Context) :
    Run (Option (Except GoError outputsResponse)) :=
  respond (foundryFilters io lib s c) s.FoundryOutputsWithFilters

/-! ## Clients of the engine and reference predicates -/

/-- A table that has only the two ordering columns, its rows being
`(created_at, output_id)` pairs, and no composer predicate. -/
def keyTable (rows : List (Nat × List Nat)) : Table (Nat × List Nat) Empty :=
  { rows := rows
    created_at := fun r => r.1
    output_id := fun r => r.2
    holds := fun _ _ => true }

/-- A database of `(created_at, output_id)` rows with a status row. -/
def keyDatabase (rows : List (Nat × List Nat)) (status : Status) (z : ZeroLimit) :
    Database (Nat × List Nat) Empty :=
  { table := keyTable rows, status := some status, zeroLimit := z }

/-- The status row `ledger_index = 7` of the examples. -/
def statusSeven : Status :=
  { ID := 1, LedgerIndex := 7, ProtocolVersion := 2, NetworkName := "testnet",
    DatabaseVersion := 1 }

/-- The output identifier `A` of the examples: 34 bytes `0xAA`. -/
def idA : List Nat := List.replicate 34 170

/-- The output identifier `B` of the examples: 34 bytes `0xBB`. -/
def idB : List Nat := List.replicate 34 187

/-- The output identifier `C` of the examples: 34 bytes `0xCC`. -/
def idC : List Nat := List.replicate 34 204

/-- The store of the pagination scenario: `(1, A)`, `(1, B)`, `(2, C)`, inserted in
another order, with the status row at ledger index 7. -/
def scenarioB (z : ZeroLimit) : Database (Nat × List Nat) Empty :=
  keyDatabase [(2, idC), (1, idB), (1, idA)] statusSeven z

/-- The parsers of the library reject a parameter only with an error that wraps
`ErrInvalidParameter`. -/
def HttpServer.rejectsAsInvalidParameter (lib : HttpServer) : Prop :=
  (∀ c name err, lib.ParseBoolQueryParam c name = Except.error err →
    err.wraps = some Sentinel.ErrInvalidParameter) ∧
  (∀ c name max err, lib.ParseUint32QueryParam c name max = Except.error err →
    err.wraps = some Sentinel.ErrInvalidParameter) ∧
  (∀ c hrp name err, lib.ParseBech32AddressQueryParam c hrp name = Except.error err →
    err.wraps = some Sentinel.ErrInvalidParameter) ∧
  (∀ c name err, lib.ParseUnixTimestampQueryParam c name = Except.error err →
    err.wraps = some Sentinel.ErrInvalidParameter) ∧
  (∀ c name max err, lib.ParseHexQueryParam c name max = Except.error err →
    err.wraps = some Sentinel.ErrInvalidParameter)

/-- A request that carries only the `cursor` parameter. -/
def cursorRequest (cursor : GoString) : Context :=
  { QueryParam := fun name => if name = QueryParameter.Cursor then cursor else [] }

/-- A store that answers every joined read with the same rows. -/
def fixedStore (κ : Type) (rows : List queryResult) (status : Except GoError Status) : Store κ :=
  { Find := fun _ => Except.ok rows, Status := status }

/-- A server with the given page-size maximum over an empty SQLite database; its
basic, alias and foundry queries read the store once and return nothing. -/
def exampleServer (maxResults : Int) : IndexerServer :=
  { RestAPILimitsMaxResults := maxResults
    Bech32HRP := "rms"
    Indexer := { engine := Engine.EngineSQLite, db := fixedStore NFTCond [] (Except.ok statusSeven) }
    BasicOutputsWithFilters := fun _ => { ops := [StoreOp.joinedFind], out := some {} }
    AliasOutputsWithFilters := fun _ => { ops := [StoreOp.joinedFind], out := some {} }
    FoundryOutputsWithFilters := fun _ => { ops := [StoreOp.joinedFind], out := some {} } }

/-- Whether a character is a hexadecimal digit. -/
def isHexChar (ch : Char) : Bool :=
  (48 ≤ ch.toNat && ch.toNat ≤ 57) || (97 ≤ ch.toNat && ch.toNat ≤ 102) ||
    (65 ≤ ch.toNat && ch.toNat ≤ 70)

/-- The two components of a text split at its final `.`, if it has one. -/
def splitAtFinalDot (v : GoString) : Option (GoString × GoString) :=
  match v.reverse.span (fun ch => decide (ch ≠ '.')) with
  | (after, _ :: before) => some (before.reverse, after.reverse)
  | (_, []) => none

/-- The acceptance rule of the cursor parameter in the words of the interface
description: split at the final `.`, the first component is 76 hexadecimal
characters and the second parses as an unsigned 32-bit decimal. -/
def acceptedByFormat (v : GoString) : Bool :=
  match splitAtFinalDot v with
  | some (first, second) =>
    first.length == CursorLength && first.all isHexChar && (ParseUint second 32).isSome
  | none => false

/-- A request that carries only the `aliasAddress` parameter. -/
def aliasAddressRequest (value : GoString) : Context :=
  { QueryParam := fun name => if name = QueryParameter.AliasAddress then value else [] }

/-- Example parsers: every address parameter parses to the given address, every
other parameter is rejected. -/
def exampleParsers (address : Address) : HttpServer :=
  { ParseBoolQueryParam := fun _ _ =>
      Except.error (WithMessage Sentinel.ErrInvalidParameter "invalid value")
    ParseUint32QueryParam := fun _ _ _ =>
      Except.error (WithMessage Sentinel.ErrInvalidParameter "invalid value")
    ParseBech32AddressQueryParam := fun _ _ _ => Except.ok address
    ParseUnixTimestampQueryParam := fun _ _ =>
      Except.error (WithMessage Sentinel.ErrInvalidParameter "invalid value")
    ParseHexQueryParam := fun _ _ _ =>
      Except.error (WithMessage Sentinel.ErrInvalidParameter "invalid value") }

/-- Example serialization of an address: a kind byte followed by the identifier. -/
def exampleBytes (a : Address) : List Nat :=
  (match a.AddrType with
    | AddressType.AddressEd25519 => 0
    | AddressType.AddressAlias => 8
    | AddressType.AddressNFT => 16) :: a.id

/-- Example address library: the serialization never fails, and the bech32 text is
left abstract. -/
def exampleIotago : Iotago :=
  { Serialize := fun a => Except.ok (exampleBytes a)
    Bech32 := fun hrp _ => hrp ++ "1..." }

/-- An Ed25519 address. -/
def ed25519Example : Address :=
  { AddrType := AddressType.AddressEd25519, id := List.replicate 32 17 }

/-- An alias address. -/
def aliasExample : Address :=
  { AddrType := AddressType.AddressAlias, id := List.replicate 32 34 }

/-- Three result rows as a joined read returns them for a page of two. -/
def threeResults : List queryResult :=
  [ { OutputID := idA, Cursor := sqliteCursorExpr 1 idA, LedgerIndex := 7 },
    { OutputID := idB, Cursor := sqliteCursorExpr 1 idB, LedgerIndex := 7 },
    { OutputID := idC, Cursor := sqliteCursorExpr 2 idC, LedgerIndex := 7 } ]

/-- An SQLite indexer over a store that answers `threeResults`. -/
def threeResultsIndexer : Indexer Empty :=
  { engine := Engine.EngineSQLite, db := fixedStore Empty threeResults (Except.ok statusSeven) }

/-- The entry of the semantics table for a yes/no filter: one predicate for `true`,
another for `false`, no predicate when the filter is absent. -/
def flagPredicate (flag : Option Bool) (yes no : NFTCond) : List NFTCond :=
  match flag with
  | some true => [yes]
  | some false => [no]
  | none => []

/-- The entry of the semantics table for a value filter: one predicate when the
filter is present, no predicate when it is absent. -/
def valuePredicate {α : Type} (value : Option α) (clause : α → NFTCond) : List NFTCond :=
  match value with
  | some v => [clause v]
  | none => []

/-- The semantics table of the NFT filters in the words of the specification: the
predicates of the present filters, to be conjoined; `bytes` is the serialized form
of an address. -/
def semanticsTable (bytes : Address → List Nat) (opts : NFTFilterOptions) : List NFTCond :=
  flagPredicate opts.hasNativeTokens NFTCond.nativeTokenCountPositive
      NFTCond.nativeTokenCountZero ++
    valuePredicate opts.minNativeTokenCount NFTCond.nativeTokenCountGE ++
    valuePredicate opts.maxNativeTokenCount NFTCond.nativeTokenCountLE ++
    valuePredicate opts.unlockableByAddress (fun a => NFTCond.addressEq (bytes a)) ++
    flagPredicate opts.hasStorageDepositReturnCondition NFTCond.storageDepositReturnNotNull
      NFTCond.storageDepositReturnNull ++
    valuePredicate opts.storageDepositReturnAddress
      (fun a => NFTCond.storageDepositReturnAddressEq (bytes a)) ++
    flagPredicate opts.hasExpirationCondition NFTCond.expirationReturnAddressNotNull
      NFTCond.expirationReturnAddressNull ++
    valuePredicate opts.expirationReturnAddress
      (fun a => NFTCond.expirationReturnAddressEq (bytes a)) ++
    valuePredicate opts.expiresBefore NFTCond.expirationTimeLT ++
    valuePredicate opts.expiresAfter NFTCond.expirationTimeGT ++
    flagPredicate opts.hasTimelockCondition NFTCond.timelockTimeNotNull
      NFTCond.timelockTimeNull ++
    valuePredicate opts.timelockedBefore NFTCond.timelockTimeLT ++
    valuePredicate opts.timelockedAfter NFTCond.timelockTimeGT ++
    valuePredicate opts.issuer (fun a => NFTCond.issuerEq (bytes a)) ++
    valuePredicate opts.sender (fun a => NFTCond.senderEq (bytes a)) ++
    valuePredicate opts.tag NFTCond.tagEq ++
    valuePredicate opts.createdBefore NFTCond.createdAtLT ++
    valuePredicate opts.createdAfter NFTCond.createdAtGT

/-- The options with an empty tag taken as no tag filter. -/
def emptyTagAbsent (opts : NFTFilterOptions) : NFTFilterOptions :=
  { opts with tag := opts.tag.filter (fun t => decide (t.length > 0)) }

/-- The addresses among the filters. -/
def addressFilters (opts : NFTFilterOptions) : List Address :=
  [opts.unlockableByAddress, opts.storageDepositReturnAddress, opts.expirationReturnAddress,
    opts.issuer, opts.sender].reduceOption

/-- A query with further table predicates conjoined. -/
def Query.withPredicates (q : Query NFTCond) (ks : List NFTCond) : Query NFTCond :=
  { q with wheres := q.wheres ++ ks.map Cond.table }

/-- An NFT row without tag, sender, issuer or unlock conditions. -/
def plainNFT : nft :=
  { NFTID := List.replicate 32 1
    OutputID := idA
    NativeTokenCount := 0
    Issuer := none
    Sender := none
    Tag := none
    Address := 0 :: List.replicate 32 17
    StorageDepositReturn := none
    StorageDepositReturnAddress := none
    TimelockTime := none
    ExpirationTime := none
    ExpirationReturnAddress := none
    CreatedAt := 1700000000 }

/-- A database holding `plainNFT` at ledger index 7. -/
def plainNFTDatabase : Database nft NFTCond :=
  { table := nftTable [plainNFT], status := some statusSeven, zeroLimit := ZeroLimit.literal }

/-- The filter set `{has_expiration = true, issuer = X, expires_after = 1000}`. -/
def scenarioC (X : Address) : NFTFilterOptions :=
  { hasExpirationCondition := some true, issuer := some X, expiresAfter := some 1000 }

/-- The eight hexadecimal digit values of an unsigned 32-bit number, most
significant first. -/
def fixedHex8 (v : Nat) : List Nat :=
  [v / 268435456 % 16, v / 16777216 % 16, v / 1048576 % 16, v / 65536 % 16,
    v / 4096 % 16, v / 256 % 16, v / 16 % 16, v % 16]

/-- The external cursor of a `(created_at, output_id)` pair: eight lower-case
hexadecimal digits of `created_at` as an unsigned 32-bit number, big-endian and
zero-padded, followed by the lower-case hexadecimal text of `output_id`. -/
def encodeCursor (created_at : Nat) (output_id : List Nat) : GoString :=
  (fixedHex8 created_at ++ nibbles output_id).map hexDigitLower

/-- The `w` least significant hexadecimal digit values of a number, most significant
first. -/
def fixedHex : Nat → Nat → List Nat
  | 0, _ => []
  | w + 1, v => fixedHex w (v / 16) ++ [v % 16]

/-- The exclusive upper bound of the `created_at` values whose cursor the engine's
expression encodes in eight digits: SQLite prints any unsigned 32-bit value,
PostgreSQL casts to a signed 32-bit `integer`. -/
def Engine.createdAtBound : Engine → Nat
  | Engine.EngineSQLite => 2 ^ 32
  | Engine.EnginePostgreSQL => 2 ^ 31
  | Engine.EngineOther => 0

/-- Every row has a `created_at` in the encodable range of the engine and an
`output_id` of 34 bytes. -/
def Table.encodable {ρ κ : Type} (engine : Engine) (T : Table ρ κ) : Prop :=
  ∀ r ∈ T.rows, T.created_at r < engine.createdAtBound ∧
    (T.output_id r).length = OutputIDLength ∧ ∀ b ∈ T.output_id r, b < 256

/-- The rows have pairwise distinct `(created_at, output_id)` pairs. -/
def Table.distinctKeys {ρ κ : Type} (T : Table ρ κ) : Prop :=
  (T.rows.map (fun r => (T.created_at r, T.output_id r))).Nodup

/-- The query of a filter set: only table predicates and no limit of its own. -/
def Query.isFilterSet {κ : Type} (q : Query κ) : Prop :=
  q.limit = none ∧ ∀ c ∈ q.wheres, Cond.isTable c = true

/-- The rows matching the clauses of a query in `(created_at, output_id)` order. -/
def orderedMatches {ρ κ : Type} (db : Database ρ κ) (query : Query κ) : List ρ :=
  List.insertionSort (fun a b => rowLE db.table a b = true)
    (db.table.rows.filter (fun r => query.wheres.all (fun c => Cond.holds db.table c r)))

/-- A client that pages through a filter set: it calls the engine without a cursor
and then with the cursor of the previous page until no cursor is returned, and
concatenates the output ids of the pages. `fuel` bounds the number of calls; `none`
means the fuel ran out, the engine returned an error, or the process exited. -/
def collectPages {κ : Type} (i : Indexer κ) (query : Query κ) (pageSize : Nat) :
    Nat → Option GoString → Option (List (List Nat))
  | 0, _ => none
  | fuel + 1, cursor =>
    match (combineOutputIDFilteredQuery i query pageSize cursor).out with
    | none => none
    | some r =>
      match r.Error with
      | some _ => none
      | none =>
        match r.Cursor with
        | none => some r.OutputIDs
        | some next =>
          match collectPages i query pageSize fuel (some next) with
          | none => none
          | some rest => some (r.OutputIDs ++ rest)

/-- The cursor column in the dialect of the engine. -/
def engineCursor (engine : Engine) (created_at : Nat) (output_id : List Nat) : GoString :=
  match engine with
  | Engine.EngineSQLite => sqliteCursorExpr created_at output_id
  | Engine.EnginePostgreSQL => pgCursorText created_at output_id
  | Engine.EngineOther => []

/-- A 34-byte output identifier. -/
def isOutputID (o : List Nat) : Prop :=
  o.length = OutputIDLength ∧ ∀ b ∈ o, b < 256

/-! ## The by-id response of `routes.go` -/

/-- The function `singleOutputResponseFromResult`. -/
def singleOutputResponseFromResult (result : IndexerResult) :
    Except GoError outputsResponse :=
  match result.Error with
  | some err =>
    Except.error
      (WithMessage Sentinel.ErrInternalServerError ("reading outputIDs failed: " ++ err.msg))
  | none =>
    if result.OutputIDs.length = 0 then
      Except.error (WithMessage Sentinel.ErrNotFound "record not found")
    else outputsResponseFromResult result

/-- The handler `nftByID`: the identifier parsed from the path parameter
(`httpserver.ParseNFTIDParam`, taken as its outcome), then the single-row lookup
rendered by `singleOutputResponseFromResult`. -/
def nftByID (parsedNFTID : Except GoError (List Nat)) (s : IndexerServer) :
    Run (Option (Except GoError outputsResponse)) :=
  match parsedNFTID with
  | Except.error err => { ops := [], out := some (Except.error err) }
  | Except.ok nftID =>
    let r := NFTOutput s.Indexer nftID
    { ops := r.ops, out := r.out.map singleOutputResponseFromResult }

/-! ## The import pipeline of `import.go` -/

/-- The constant `batchSize`. -/
def batchSize : Nat := 1000

/-- The constant `perBatcherWorkers`. -/
def perBatcherWorkers : Nat := 2

/-- The constant `perImporterWorkers`. -/
def perImporterWorkers : Nat := 2

/-- The local variables of one worker goroutine of `batcher.Run`, with the batches
it has sent on `b.output` so far, oldest first. -/
structure batcherWorker (T : Type) where
  batch : List T
  count : Nat
  sent : List (List T)

/-- The state a worker goroutine of `batcher.Run` starts in. -/
def batcherWorker.start {T : Type} : batcherWorker T :=
  { batch := [], count := 0, sent := [] }

/-- The body of one worker goroutine of `batcher.Run`, on the items the worker
receives from `b.input` in order, each paired with whether `ctx.Err() != nil` is
observed when it is received; the end of the list is the closing of `b.input`. The
value is the sequence of batches the worker sends on `b.output`. The counter is a Go
`int`, which no receivable sequence overflows. -/
def batcherWorker.Run {T : Type} : List (T × Bool) → batcherWorker T → List (List T)
  | [], w => if w.batch.length > 0 then w.sent ++ [w.batch] else w.sent
  | (item, cancelled) :: rest, w =>
    if cancelled then w.sent
    else
      let batch := w.batch ++ [item]
      let count := w.count + 1
      if count % batchSize = 0 then
        batcherWorker.Run rest { batch := [], count := count, sent := w.sent ++ [batch] }
      else batcherWorker.Run rest { batch := batch, count := count, sent := w.sent }

/-- The four per-kind pipelines of an `ImportTransaction`. -/
inductive Pipeline
  | basic
  | nft
  | alias
  | foundry
  deriving DecidableEq, Repr

/-- The fields of `iotago.ProtocolParameters` that `Finalize` reads. -/
structure ProtocolParameters where
  Version : Nat
  NetworkName : String
  deriving DecidableEq, Repr

/-- The effects of `Finalize` on the pipelines, the log and the store. -/
inductive ImportEffect
  | closeInput (p : Pipeline)
  | waitBatchers (p : Pipeline)
  | closeOutput (p : Pipeline)
  | waitInserters (p : Pipeline)
  | logInfo (msg : String)
  | upsertStatus (row : Status)
  deriving DecidableEq, Repr

/-- The method `batcher.closeAndWait`. -/
def batcher.closeAndWait (p : Pipeline) : List ImportEffect :=
  [ImportEffect.closeInput p, ImportEffect.waitBatchers p, ImportEffect.closeOutput p]

/-- The method `inserter.closeAndWait`. -/
def inserter.closeAndWait (p : Pipeline) : List ImportEffect :=
  [ImportEffect.waitInserters p]

/-- The method `processor.closeAndWait`. -/
def processor.closeAndWait (p : Pipeline) : List ImportEffect :=
  batcher.closeAndWait p ++ inserter.closeAndWait p

/-- The store handle `i.db` of an `ImportTransaction` as `Finalize` sees it: its
`Error` field, and the outcome of the `Create` of the status row, which is recorded
on the handle that `Create` returns. -/
structure ImportDB where
  Error : Option GoError
  Create : Status → Option GoError

/-- The method `ImportTransaction.Finalize`: the effects in the order of the
statements, and the returned error `i.db.Error`. -/
def ImportTransaction.Finalize (db : ImportDB) (ledgerIndex : Nat)
    (protoParams : ProtocolParameters) (databaseVersion : Nat) :
    List ImportEffect × Option GoError :=
  let drains :=
    processor.closeAndWait Pipeline.basic ++ processor.closeAndWait Pipeline.nft ++
      processor.closeAndWait Pipeline.alias ++ processor.closeAndWait Pipeline.foundry
  let status : Status :=
    { ID := 1
      LedgerIndex := ledgerIndex
      ProtocolVersion := protoParams.Version
      NetworkName := protoParams.NetworkName
      DatabaseVersion := databaseVersion }
  let _created := db.Create status
  (drains ++ [ImportEffect.logInfo "Finished insertion, update ledger index",
      ImportEffect.upsertStatus status], db.Error)

/-! ## Reference decoding of cursors and further scenarios -/

/-- The value of a hexadecimal digit character of either case. -/
def hexValue (ch : Char) : Option Nat :=
  if 48 ≤ ch.toNat ∧ ch.toNat ≤ 57 then some (ch.toNat - 48)
  else if 97 ≤ ch.toNat ∧ ch.toNat ≤ 102 then some (ch.toNat - 87)
  else if 65 ≤ ch.toNat ∧ ch.toNat ≤ 70 then some (ch.toNat - 55)
  else none

/-- The digit values of a hexadecimal text, `none` when a character is not a
hexadecimal digit. -/
def hexValues : GoString → Option (List Nat)
  | [] => some []
  | ch :: rest =>
    match hexValue ch, hexValues rest with
    | some d, some ds => some (d :: ds)
    | _, _ => none

/-- The bytes of a list of hexadecimal digit values, two digits a byte, high nibble
first; `none` for an odd number of digits. -/
def bytesOfNibbles : List Nat → Option (List Nat)
  | [] => some []
  | [_] => none
  | hi :: lo :: rest => (bytesOfNibbles rest).map (fun bs => (hi * 16 + lo) :: bs)

/-- The number a list of hexadecimal digit values denotes, most significant first. -/
def valueOfDigits (ds : List Nat) : Nat := ds.foldl (fun acc d => acc * 16 + d) 0

/-- The decoding of an external cursor in the words of the interface description:
76 hexadecimal characters, of which the first eight are `created_at` as a
big-endian number and the remaining 68 the 34 bytes of `output_id`. -/
def decodeCursor (c : GoString) : Option (Nat × List Nat) :=
  if c.length ≠ CursorLength then none
  else
    match hexValues c with
    | none => none
    | some ds =>
      match bytesOfNibbles (ds.drop 8) with
      | none => none
      | some output_id => some (valueOfDigits (ds.take 8), output_id)

/-- The lexicographic order `(created_at, output_id)` on pairs, as `a <= b`. -/
def pairLE (a b : Nat × List Nat) : Bool :=
  decide (a.1 < b.1) || (a.1 == b.1 && bytesLE a.2 b.2)

/-- The status row `ledger_index = 42` of Scenario A. -/
def statusFortyTwo : Status :=
  { ID := 1, LedgerIndex := 42, ProtocolVersion := 2, NetworkName := "testnet",
    DatabaseVersion := 1 }

/-- The store of Scenario A: the single NFT row `plainNFT` (`nft_id` 32 bytes `0x01`,
`output_id` 34 bytes `0xAA`, `created_at = 1700000000`) with the status row at ledger
index 42. -/
def scenarioA (z : ZeroLimit) : Database nft NFTCond :=
  { table := nftTable [plainNFT], status := some statusFortyTwo, zeroLimit := z }

/-- A store with two rows booked from `2^31` seconds on: `(2147483648, A)` and
`(2147483649, B)`, with the status row at ledger index 7. -/
def lateRows (z : ZeroLimit) : Database (Nat × List Nat) Empty :=
  keyDatabase [(2147483648, idA), (2147483649, idB)] statusSeven z

/-- Whether an effect is an upsert of the status row. -/
def ImportEffect.isUpsert : ImportEffect → Bool
  | ImportEffect.upsertStatus _ => true
  | _ => false

/-- The drains of `Finalize` in the words of the interface description: per kind,
in the order basic, NFT, alias, foundry, close the input channel, join all batcher
workers, close the batches channel, join all inserter workers. -/
def finalizeOrder : List ImportEffect :=
  [Pipeline.basic, Pipeline.nft, Pipeline.alias, Pipeline.foundry].flatMap
    (fun p => [ImportEffect.closeInput p, ImportEffect.waitBatchers p,
      ImportEffect.closeOutput p, ImportEffect.waitInserters p])

/-- An import session handle without error whose upsert of the status row fails. -/
def failingUpsert : ImportDB :=
  { Error := none, Create := fun _ => some (Errorf "database is locked") }

/-- The protocol parameters of the examples. -/
def exampleProtocolParameters : ProtocolParameters :=
  { Version := 2, NetworkName := "testnet" }

/-! ## Theorems -/

/-! ### The engine on an arbitrary store -/

theorem pagedQuery_zero {κ : Type} (engine : Engine) (query : Query κ)
    (cursor : Option GoString) :
    pagedQuery engine query 0 cursor = some (Except.ok ((query.Select [Column.output_id]).Order)) := by
  simp [pagedQuery]

/-- C5. Engine cursor validation: with `pageSize > 0` on a supported engine, a supplied
cursor whose length is not 76 makes the engine return a result that carries the length
error, no output ids, no cursor and ledger index 0, having issued no read; a supplied
cursor of length 76 passes the length check, so the joined read is issued and any error
of the result is the error of that read. -/
theorem cursor_length_validation {κ : Type} (i : Indexer κ) (query : Query κ)
    (pageSize : Nat) (c : GoString)
    (hp : 0 < pageSize) (heng : i.engine ≠ Engine.EngineOther) :
    (len c ≠ CursorLength →
      ∃ r, combineOutputIDFilteredQuery i query pageSize (some c) =
          { ops := [], out := some r } ∧
        r.Error = some (Errorf ("Invalid cursor length: " ++ toString (len c))) ∧
        r.OutputIDs = [] ∧ r.Cursor = none ∧ r.LedgerIndex = 0) ∧
    (len c = CursorLength →
      ∃ q, pagedQuery i.engine query pageSize (some c) = some (Except.ok q) ∧
        (combineOutputIDFilteredQuery i query pageSize (some c)).ops.head? =
          some StoreOp.joinedFind ∧
        ∀ r err, (combineOutputIDFilteredQuery i query pageSize (some c)).out = some r →
          r.Error = some err → i.db.Find q = Except.error err) := by
  have hp2 : pageSize > 0 := hp
  refine ⟨?_, ?_⟩
  · intro hlen
    refine ⟨errorResult (Errorf ("Invalid cursor length: " ++ toString (len c))), ?_,
      rfl, rfl, rfl, rfl⟩
    cases he : i.engine with
    | EngineOther => exact absurd he heng
    | EngineSQLite => simp [combineOutputIDFilteredQuery, pagedQuery, paginationQuery, he, hp2, hlen]
    | EnginePostgreSQL =>
      simp [combineOutputIDFilteredQuery, pagedQuery, paginationQuery, he, hp2, hlen]
  · intro hlen
    have key : ∀ q, pagedQuery i.engine query pageSize (some c) = some (Except.ok q) →
        (combineOutputIDFilteredQuery i query pageSize (some c)).ops.head? =
          some StoreOp.joinedFind ∧
        ∀ r err, (combineOutputIDFilteredQuery i query pageSize (some c)).out = some r →
          r.Error = some err → i.db.Find q = Except.error err := by
      intro q hq
      simp only [combineOutputIDFilteredQuery, hq]
      cases hf : i.db.Find q with
      | error e =>
        refine ⟨rfl, ?_⟩
        intro r err hr herr
        simp only [Option.some.injEq] at hr
        subst hr
        simp only [errorResult, Option.some.injEq] at herr
        rw [herr]
      | ok rs =>
        refine ⟨rfl, ?_⟩
        intro r err hr herr
        simp only [Option.some.injEq] at hr
        subst hr
        simp at herr
    cases he : i.engine with
    | EngineOther => exact absurd he heng
    | EngineSQLite =>
      have hq : pagedQuery i.engine query pageSize (some c) = some (Except.ok
          ((((query.Select [Column.output_id]).Order.Select
            [Column.output_id, Column.cursorSQLite]).Limit
              (((pageSize + 1) % 2 ^ 32 : Nat) : Int)).Where (Cond.cursorGE (ToUpper c)))) := by
        simp [pagedQuery, paginationQuery, he, hp2, hlen]
      rw [he] at hq key
      exact ⟨_, hq, key _ hq⟩
    | EnginePostgreSQL =>
      have hq : pagedQuery i.engine query pageSize (some c) = some (Except.ok
          ((((query.Select [Column.output_id]).Order.Select
            [Column.output_id, Column.cursorPostgreSQL]).Limit
              (((pageSize + 1) % 2 ^ 32 : Nat) : Int)).Where (Cond.pgCursorGE c))) := by
        simp [pagedQuery, paginationQuery, he, hp2, hlen]
      rw [he] at hq key
      exact ⟨_, hq, key _ hq⟩

/-- C6. Ledger-index selection: after a successful joined read the result carries no
error; with a non-empty row list its ledger index is the one carried by the first row
and no further read is issued; with an empty row list the output ids are empty, the
fallback status read is issued, and the ledger index is the one that read returns, or
0 when it fails. -/
theorem ledger_index_selection {κ : Type} (i : Indexer κ) (query q : Query κ)
    (pageSize : Nat) (cursor : Option GoString) (results : List queryResult)
    (hq : pagedQuery i.engine query pageSize cursor = some (Except.ok q))
    (hfind : i.db.Find q = Except.ok results) :
    ∃ r, (combineOutputIDFilteredQuery i query pageSize cursor).out = some r ∧
      r.Error = none ∧
      (∀ first rest, results = first :: rest →
        r.LedgerIndex = first.LedgerIndex ∧
        (combineOutputIDFilteredQuery i query pageSize cursor).ops = [StoreOp.joinedFind]) ∧
      (results = [] →
        r.OutputIDs = [] ∧ r.Cursor = none ∧
        (combineOutputIDFilteredQuery i query pageSize cursor).ops =
          [StoreOp.joinedFind, StoreOp.statusRead] ∧
        (∀ status, i.db.Status = Except.ok status → r.LedgerIndex = status.LedgerIndex) ∧
        (∀ err, i.db.Status = Except.error err → r.LedgerIndex = 0)) := by
  simp only [combineOutputIDFilteredQuery, hq, hfind]
  refine ⟨_, rfl, rfl, ?_, ?_⟩
  · intro first rest h
    subst h
    exact ⟨rfl, rfl⟩
  · intro h
    subst h
    cases hs : i.db.Status with
    | error e => simp [queryResults.IDs]
    | ok st => simp [queryResults.IDs]

/-! ### Text splitting and number parsing -/

theorem Split_ne_nil (s : GoString) (sep : Char) : Split s sep ≠ [] := by
  induction s with
  | nil => simp [Split]
  | cons ch rest ih =>
    unfold Split
    split_ifs
    · simp
    · cases h : Split rest sep with
      | nil => simp
      | cons p ps => simp

theorem Split_of_not_mem (s : GoString) (sep : Char) (h : sep ∉ s) : Split s sep = [s] := by
  induction s with
  | nil => simp [Split]
  | cons ch rest ih =>
    have h1 : ¬ ch = sep := fun e => h (by simp [e])
    have h2 : sep ∉ rest := fun e => h (List.mem_cons_of_mem _ e)
    unfold Split
    simp [h1, ih h2]

theorem Split_append_sep (a b : GoString) (sep : Char) (h : sep ∉ a) :
    Split (a ++ sep :: b) sep = a :: Split b sep := by
  induction a with
  | nil => simp [Split]
  | cons ch rest ih =>
    have h1 : ¬ ch = sep := fun e => h (by simp [e])
    have h2 : sep ∉ rest := fun e => h (List.mem_cons_of_mem _ e)
    rw [List.cons_append, Split]
    simp [h1, ih h2]

theorem Split_single (v : GoString) (sep : Char) :
    ∀ p, Split v sep = [p] → sep ∉ v ∧ p = v := by
  induction v with
  | nil =>
    intro p h
    simp [Split] at h
    simp [h]
  | cons ch rest ih =>
    intro p h
    unfold Split at h
    by_cases hc : ch = sep
    · simp only [hc, if_true, List.cons.injEq] at h
      exact absurd h.2 (Split_ne_nil rest sep)
    · simp only [hc, if_false] at h
      cases hs : Split rest sep with
      | nil => exact absurd hs (Split_ne_nil rest sep)
      | cons q qs =>
        rw [hs] at h
        simp only [List.cons.injEq] at h
        obtain ⟨h0, h1⟩ := h
        subst h1
        obtain ⟨hn, hq⟩ := ih q hs
        subst hq
        refine ⟨?_, h0.symm⟩
        intro hm
        rcases List.mem_cons.mp hm with e | e
        · exact hc e.symm
        · exact hn e

theorem Split_two (v : GoString) (sep : Char) :
    ∀ c0 c1, Split v sep = [c0, c1] → v = c0 ++ sep :: c1 ∧ sep ∉ c0 ∧ sep ∉ c1 := by
  induction v with
  | nil => intro c0 c1 h; simp [Split] at h
  | cons ch rest ih =>
    intro c0 c1 h
    unfold Split at h
    by_cases hc : ch = sep
    · simp only [hc, if_true, List.cons.injEq] at h
      obtain ⟨h0, h1⟩ := h
      subst h0
      obtain ⟨hn, hq⟩ := Split_single rest sep c1 h1
      subst hq
      simp [hc, hn]
    · simp only [hc, if_false] at h
      cases hs : Split rest sep with
      | nil => exact absurd hs (Split_ne_nil rest sep)
      | cons q qs =>
        rw [hs] at h
        simp only [List.cons.injEq] at h
        obtain ⟨h0, h1⟩ := h
        subst h1
        obtain ⟨hv, hn0, hn1⟩ := ih q c1 hs
        subst h0
        refine ⟨by simp [hv], ?_, hn1⟩
        intro hm
        rcases List.mem_cons.mp hm with e | e
        · exact hc e.symm
        · exact hn0 e

theorem uint32OfInt_of_range (M : Int) (h0 : 0 ≤ M) (h1 : M < 2 ^ 32) :
    uint32OfInt M = M.toNat := by
  unfold uint32OfInt
  rw [Int.emod_eq_of_lt h0 h1]

/-- What `parseCursorQueryParameter` returns on a parameter with exactly two
components. -/
theorem parseCursor_of_split (s : IndexerServer) (c : Context) (c0 c1 : GoString)
    (h : Split (c.QueryParam QueryParameter.Cursor) '.' = [c0, c1]) :
    parseCursorQueryParameter s c =
      if len c0 ≠ CursorLength then Except.error cursorFormatError
      else
        match ParseUint c1 32 with
        | none => Except.error cursorFormatError
        | some size =>
          Except.ok (c0, if size % 2 ^ 32 > uint32OfInt s.RestAPILimitsMaxResults then
            uint32OfInt s.RestAPILimitsMaxResults else size % 2 ^ 32) := by
  simp [parseCursorQueryParameter, h]

theorem ParseUint_lt (t : GoString) (b n : Nat) (h : ParseUint t b = some n) : n < 2 ^ b := by
  unfold ParseUint at h
  split_ifs at h
  cases hd : decimalValue t 0 with
  | none => simp [hd] at h
  | some m =>
    simp only [hd] at h
    split_ifs at h with hlt
    simp only [Option.some.injEq] at h
    omega

/-- C9. Page-size clamp: when the configured maximum `M` is representable as
`uint32` and `parseCursorQueryParameter` accepts a parameter, the parameter is
`<c>.<n>` with a decimal `n`, the returned cursor is the first component `c`
unchanged, the returned page size is `min n M`, and it does not exceed `M`. -/
theorem page_size_clamp (s : IndexerServer) (c : Context) (cur : GoString) (ps : Nat)
    (hM0 : 0 ≤ s.RestAPILimitsMaxResults) (hM1 : s.RestAPILimitsMaxResults < 2 ^ 32)
    (hacc : parseCursorQueryParameter s c = Except.ok (cur, ps)) :
    ∃ c1 n, c.QueryParam QueryParameter.Cursor = cur ++ '.' :: c1 ∧
      ParseUint c1 32 = some n ∧
      ps = min n s.RestAPILimitsMaxResults.toNat ∧
      ps ≤ s.RestAPILimitsMaxResults.toNat := by
  have hu := uint32OfInt_of_range _ hM0 hM1
  have hlen : (Split (c.QueryParam QueryParameter.Cursor) '.').length = 2 := by
    by_contra hne
    simp [parseCursorQueryParameter, hne] at hacc
  obtain ⟨c0, c1, hsplit⟩ : ∃ c0 c1, Split (c.QueryParam QueryParameter.Cursor) '.' = [c0, c1] := by
    match hS : Split (c.QueryParam QueryParameter.Cursor) '.', hlen with
    | [a, b], _ => exact ⟨a, b, rfl⟩
  rw [parseCursor_of_split s c c0 c1 hsplit] at hacc
  split_ifs at hacc with hl
  cases hp : ParseUint c1 32 with
  | none => simp [hp] at hacc
  | some n =>
    have hn := ParseUint_lt _ _ _ hp
    simp only [hp, Except.ok.injEq, Prod.mk.injEq] at hacc
    obtain ⟨h0, h1⟩ := hacc
    subst h0
    refine ⟨c1, n, (Split_two _ _ _ _ hsplit).1, hp, ?_, ?_⟩
    · rw [← h1, hu, Nat.mod_eq_of_lt hn]
      split_ifs with hgt <;> omega
    · rw [← h1, hu, Nat.mod_eq_of_lt hn]
      split_ifs with hgt <;> omega


/-- The acceptance rule of `parseCursorQueryParameter`: exactly one `.`, a first
component of 76 bytes and a second component that parses as `uint32`. -/
theorem parseCursor_accepts_iff (s : IndexerServer) (c : Context) :
    (∃ r, parseCursorQueryParameter s c = Except.ok r) ↔
      ∃ c0 c1, c.QueryParam QueryParameter.Cursor = c0 ++ '.' :: c1 ∧ '.' ∉ c0 ∧ '.' ∉ c1 ∧
        len c0 = CursorLength ∧ (ParseUint c1 32).isSome = true := by
  constructor
  · rintro ⟨r, hacc⟩
    have hlen : (Split (c.QueryParam QueryParameter.Cursor) '.').length = 2 := by
      by_contra hne
      simp [parseCursorQueryParameter, hne] at hacc
    obtain ⟨c0, c1, hsplit⟩ :
        ∃ c0 c1, Split (c.QueryParam QueryParameter.Cursor) '.' = [c0, c1] := by
      match hS : Split (c.QueryParam QueryParameter.Cursor) '.', hlen with
      | [a, b], _ => exact ⟨a, b, rfl⟩
    rw [parseCursor_of_split s c c0 c1 hsplit] at hacc
    obtain ⟨hv, h0, h1⟩ := Split_two _ _ _ _ hsplit
    split_ifs at hacc with hl
    refine ⟨c0, c1, hv, h0, h1, not_not.mp hl, ?_⟩
    cases hp : ParseUint c1 32 with
    | none => simp [hp] at hacc
    | some n => rfl
  · rintro ⟨c0, c1, hv, h0, h1, hl, hp⟩
    have hsplit : Split (c.QueryParam QueryParameter.Cursor) '.' = [c0, c1] := by
      rw [hv, Split_append_sep _ _ _ h0, Split_of_not_mem _ _ h1]
    rw [parseCursor_of_split s c c0 c1 hsplit]
    obtain ⟨n, hn⟩ := Option.isSome_iff_exists.mp hp
    simp [hl, hn]

/-- Every rejection of `parseCursorQueryParameter` is the invalid-parameter error. -/
theorem parseCursor_rejects (s : IndexerServer) (c : Context)
    (h : ¬ ∃ r, parseCursorQueryParameter s c = Except.ok r) :
    parseCursorQueryParameter s c = Except.error cursorFormatError := by
  unfold parseCursorQueryParameter at h ⊢
  simp only
  simp only at h
  split_ifs with h1 h2
  · rfl
  · rfl
  · rw [if_neg h1, if_neg h2] at h
    cases hp : ParseUint ((Split (c.QueryParam QueryParameter.Cursor) '.').getD 1 []) 32 with
    | none => rfl
    | some n =>
      exfalso
      apply h
      rw [hp]
      exact ⟨_, rfl⟩

/-- C8 (amended). Cursor parameter acceptance: `parseCursorQueryParameter` accepts a
parameter if and only if it contains exactly one `.`, the component before it is
exactly 76 bytes long (no check that they are hexadecimal digits) and the component
after it parses as an unsigned 32-bit decimal; every other value is rejected with the
invalid-parameter error. -/
theorem cursor_parameter_acceptance (s : IndexerServer) (c : Context) :
    ((∃ r, parseCursorQueryParameter s c = Except.ok r) ↔
      ∃ c0 c1, c.QueryParam QueryParameter.Cursor = c0 ++ '.' :: c1 ∧ '.' ∉ c0 ∧ '.' ∉ c1 ∧
        len c0 = CursorLength ∧ (ParseUint c1 32).isSome = true) ∧
    ((¬ ∃ r, parseCursorQueryParameter s c = Except.ok r) →
      parseCursorQueryParameter s c = Except.error cursorFormatError) ∧
    cursorFormatError.wraps = some Sentinel.ErrInvalidParameter :=
  ⟨parseCursor_accepts_iff s c, parseCursor_rejects s c, rfl⟩

/-- C8 (as stated) fails: a parameter whose first component is 76 characters `z`,
none of them a hexadecimal digit, is accepted by `parseCursorQueryParameter`, although
the stated rule rejects it. -/
theorem cursor_parameter_acceptance_counterexample :
    parseCursorQueryParameter (exampleServer 1000)
        (cursorRequest (List.replicate 76 'z' ++ ['.', '1', '0'])) =
      Except.ok (List.replicate 76 'z', 10) ∧
    acceptedByFormat (List.replicate 76 'z' ++ ['.', '1', '0']) = false :=
  ⟨by rfl, by rfl⟩

/-! ### The parameter guards of the handlers -/

theorem paramBlock_error {α φ : Type} (c : Context) (name : QueryParameter)
    (parse : Except GoError α) (mk : α → List φ) (err : GoError)
    (hpresent : 0 < len (c.QueryParam name)) (hparse : parse = Except.error err)
    (filters : List φ) : paramBlock c name parse mk filters = Except.error err := by
  have h : len (c.QueryParam name) > 0 := hpresent
  simp [paramBlock, h, hparse]

theorem paramBlock_ok {α φ : Type} (c : Context) (name : QueryParameter)
    (parse : Except GoError α) (mk : α → List φ) (value : α)
    (hpresent : 0 < len (c.QueryParam name)) (hparse : parse = Except.ok value)
    (filters : List φ) : paramBlock c name parse mk filters = Except.ok (filters ++ mk value) := by
  have h : len (c.QueryParam name) > 0 := hpresent
  simp [paramBlock, h, hparse]

/-- A chain of parameter blocks in which one block rejects every filter list returns
an error, and it is the error of that block unless an earlier block returned one. -/
theorem blocks_reject {φ : Type} (pre : Except GoError (List φ))
    (blk b1 b2 : List φ → Except GoError (List φ)) (e : GoError)
    (h : ∀ fs, blk fs = Except.error e) :
    (∃ err, (pre >>= blk >>= b1 >>= b2) = Except.error err) ∧
    (∀ fs, pre = Except.ok fs → (pre >>= blk >>= b1 >>= b2) = Except.error e) := by
  cases pre with
  | error e0 => exact ⟨⟨e0, rfl⟩, fun fs hfs => by cases hfs⟩
  | ok fs0 =>
    have : (Except.ok fs0 >>= blk >>= b1 >>= b2) = Except.error e := by
      show (blk fs0 >>= b1 >>= b2) = Except.error e
      rw [h fs0]
      rfl
    exact ⟨⟨e, this⟩, fun fs _ => this⟩

theorem respond_error {φ : Type} (err : GoError)
    (indexerQuery : List φ → Run (Option IndexerResult)) :
    respond (Except.error err) indexerQuery = { ops := [], out := some (Except.error err) } :=
  rfl

theorem err_prop_ok {α : Type} (P : GoError → Prop) (a : α) :
    ∀ err, (Except.ok a : Except GoError α) = Except.error err → P err := by
  intro err h
  cases h

theorem err_prop_bind {α β : Type} (P : GoError → Prop) (x : Except GoError α)
    (f : α → Except GoError β)
    (hx : ∀ err, x = Except.error err → P err)
    (hf : ∀ a err, f a = Except.error err → P err) :
    ∀ err, (x >>= f) = Except.error err → P err := by
  intro err h
  cases x with
  | error e0 =>
    have : e0 = err := by
      have h2 : (Except.error e0 : Except GoError β) = Except.error err := h
      simpa using h2
    exact this ▸ hx e0 rfl
  | ok a => exact hf a err h

theorem err_prop_paramBlock {α φ : Type} (P : GoError → Prop) (c : Context)
    (name : QueryParameter) (parse : Except GoError α) (mk : α → List φ)
    (hparse : ∀ err, parse = Except.error err → P err) :
    ∀ fs err, paramBlock c name parse mk fs = Except.error err → P err := by
  intro fs err h
  unfold paramBlock at h
  split_ifs at h
  cases parse with
  | error e0 =>
    have : e0 = err := by simpa using h
    exact this ▸ hparse e0 rfl
  | ok v => cases h

theorem err_prop_parseCursor (s : IndexerServer) (c : Context) :
    ∀ err, parseCursorQueryParameter s c = Except.error err →
      err.wraps = some Sentinel.ErrInvalidParameter := by
  intro err h
  by_cases hacc : ∃ r, parseCursorQueryParameter s c = Except.ok r
  · obtain ⟨r, hr⟩ := hacc
    rw [hr] at h
    cases h
  · rw [parseCursor_rejects s c hacc] at h
    have : cursorFormatError = err := by simpa using h
    rw [← this]
    rfl

theorem err_prop_parseAliasAddress (io : Iotago) (lib : HttpServer) (s : IndexerServer)
    (c : Context) (hlib : lib.rejectsAsInvalidParameter) :
    ∀ err, parseAliasAddress io lib s c = Except.error err →
      err.wraps = some Sentinel.ErrInvalidParameter := by
  intro err h
  unfold parseAliasAddress at h
  cases hp : lib.ParseBech32AddressQueryParam c s.Bech32HRP QueryParameter.AliasAddress with
  | error e0 =>
    rw [hp] at h
    have : e0 = err := by simpa using h
    exact this ▸ hlib.2.2.1 _ _ _ _ hp
  | ok address =>
    rw [hp] at h
    simp only at h
    split_ifs at h
    have : notAliasAddressError io s address = err := by simpa using h
    rw [← this]
    rfl

/-- Every error of the parameter blocks of `nftsWithFilter` wraps
`ErrInvalidParameter` when the errors of the library parsers do. -/
theorem nftsFilters_error_kind (lib : HttpServer) (s : IndexerServer) (c : Context)
    (hlib : lib.rejectsAsInvalidParameter) :
    ∀ err, nftsFilters lib s c = Except.error err →
      err.wraps = some Sentinel.ErrInvalidParameter := by
  obtain ⟨h1, h2, h3, h4, h5⟩ := hlib
  unfold nftsFilters nftsFiltersBeforeCursor
  repeat' first
    | exact err_prop_ok _ _
    | exact err_prop_paramBlock _ _ _ _ _ (h1 _ _)
    | exact err_prop_paramBlock _ _ _ _ _ (h2 _ _ _)
    | exact err_prop_paramBlock _ _ _ _ _ (h3 _ _ _)
    | exact err_prop_paramBlock _ _ _ _ _ (h4 _ _)
    | exact err_prop_paramBlock _ _ _ _ _ (h5 _ _ _)
    | exact err_prop_paramBlock _ _ _ _ _ (err_prop_parseCursor s c)
    | apply err_prop_bind

theorem basicFilters_error_kind (lib : HttpServer) (s : IndexerServer) (c : Context)
    (hlib : lib.rejectsAsInvalidParameter) :
    ∀ err, basicFilters lib s c = Except.error err →
      err.wraps = some Sentinel.ErrInvalidParameter := by
  obtain ⟨h1, h2, h3, h4, h5⟩ := hlib
  unfold basicFilters basicFiltersBeforeCursor
  repeat' first
    | exact err_prop_ok _ _
    | exact err_prop_paramBlock _ _ _ _ _ (h1 _ _)
    | exact err_prop_paramBlock _ _ _ _ _ (h2 _ _ _)
    | exact err_prop_paramBlock _ _ _ _ _ (h3 _ _ _)
    | exact err_prop_paramBlock _ _ _ _ _ (h4 _ _)
    | exact err_prop_paramBlock _ _ _ _ _ (h5 _ _ _)
    | exact err_prop_paramBlock _ _ _ _ _ (err_prop_parseCursor s c)
    | apply err_prop_bind

theorem aliasFilters_error_kind (lib : HttpServer) (s : IndexerServer) (c : Context)
    (hlib : lib.rejectsAsInvalidParameter) :
    ∀ err, aliasFilters lib s c = Except.error err →
      err.wraps = some Sentinel.ErrInvalidParameter := by
  obtain ⟨h1, h2, h3, h4, h5⟩ := hlib
  unfold aliasFilters aliasFiltersBeforeCursor
  repeat' first
    | exact err_prop_ok _ _
    | exact err_prop_paramBlock _ _ _ _ _ (h1 _ _)
    | exact err_prop_paramBlock _ _ _ _ _ (h2 _ _ _)
    | exact err_prop_paramBlock _ _ _ _ _ (h3 _ _ _)
    | exact err_prop_paramBlock _ _ _ _ _ (h4 _ _)
    | exact err_prop_paramBlock _ _ _ _ _ (h5 _ _ _)
    | exact err_prop_paramBlock _ _ _ _ _ (err_prop_parseCursor s c)
    | apply err_prop_bind

theorem foundryFilters_error_kind (io : Iotago) (lib : HttpServer) (s : IndexerServer)
    (c : Context) (hlib : lib.rejectsAsInvalidParameter) :
    ∀ err, foundryFilters io lib s c = Except.error err →
      err.wraps = some Sentinel.ErrInvalidParameter := by
  have hg := err_prop_parseAliasAddress io lib s c hlib
  obtain ⟨h1, h2, h3, h4, h5⟩ := hlib
  unfold foundryFilters foundryFiltersBeforeCursor foundryFiltersBeforeAlias foundryAliasBlock
  repeat' first
    | exact err_prop_ok _ _
    | exact err_prop_paramBlock _ _ _ _ _ (h1 _ _)
    | exact err_prop_paramBlock _ _ _ _ _ (h2 _ _ _)
    | exact err_prop_paramBlock _ _ _ _ _ (h3 _ _ _)
    | exact err_prop_paramBlock _ _ _ _ _ (h4 _ _)
    | exact err_prop_paramBlock _ _ _ _ _ (h5 _ _ _)
    | exact err_prop_paramBlock _ _ _ _ _ (err_prop_parseCursor s c)
    | exact err_prop_paramBlock _ _ _ _ _ hg
    | apply err_prop_bind

/-- C7. Scenario F: a cursor parameter whose first component is not 76 bytes long, or
whose page-size component does not parse as an unsigned 32-bit decimal, makes
`parseCursorQueryParameter` return the invalid-parameter error; each of the four
filter handlers that receives it fails in its parameter blocks, so it returns an error
without reaching the statement that queries the indexer and without any read; the
error is that of `parseCursorQueryParameter` whenever the blocks before the cursor
block succeeded, and it wraps `ErrInvalidParameter` in every case when the errors of
the library parsers do. -/
theorem cursor_parameter_rejected (io : Iotago) (lib : HttpServer) (s : IndexerServer)
    (c : Context)
    (hpresent : 0 < len (c.QueryParam QueryParameter.Cursor))
    (hbad : len ((Split (c.QueryParam QueryParameter.Cursor) '.').getD 0 []) ≠ CursorLength ∨
      ParseUint ((Split (c.QueryParam QueryParameter.Cursor) '.').getD 1 []) 32 = none) :
    parseCursorQueryParameter s c = Except.error cursorFormatError ∧
    cursorFormatError.wraps = some Sentinel.ErrInvalidParameter ∧
    ((∃ err, nftsFilters lib s c = Except.error err ∧
        nftsWithFilter io lib s c = { ops := [], out := some (Except.error err) }) ∧
      (∃ err, basicFilters lib s c = Except.error err ∧
        basicOutputsWithFilter lib s c = { ops := [], out := some (Except.error err) }) ∧
      (∃ err, aliasFilters lib s c = Except.error err ∧
        aliasesWithFilter lib s c = { ops := [], out := some (Except.error err) }) ∧
      (∃ err, foundryFilters io lib s c = Except.error err ∧
        foundriesWithFilter io lib s c = { ops := [], out := some (Except.error err) })) ∧
    ((∀ fs, nftsFiltersBeforeCursor lib s c = Except.ok fs →
        nftsWithFilter io lib s c = { ops := [], out := some (Except.error cursorFormatError) }) ∧
      (∀ fs, basicFiltersBeforeCursor lib s c = Except.ok fs →
        basicOutputsWithFilter lib s c =
          { ops := [], out := some (Except.error cursorFormatError) }) ∧
      (∀ fs, aliasFiltersBeforeCursor lib s c = Except.ok fs →
        aliasesWithFilter lib s c =
          { ops := [], out := some (Except.error cursorFormatError) }) ∧
      (∀ fs, foundryFiltersBeforeCursor io lib s c = Except.ok fs →
        foundriesWithFilter io lib s c =
          { ops := [], out := some (Except.error cursorFormatError) })) ∧
    (lib.rejectsAsInvalidParameter →
      ∀ err, (nftsFilters lib s c = Except.error err ∨ basicFilters lib s c = Except.error err ∨
          aliasFilters lib s c = Except.error err ∨
          foundryFilters io lib s c = Except.error err) →
        err.wraps = some Sentinel.ErrInvalidParameter) := by
  have hparse : parseCursorQueryParameter s c = Except.error cursorFormatError := by
    apply parseCursor_rejects
    rintro ⟨r, hr⟩
    unfold parseCursorQueryParameter at hr
    simp only at hr
    split_ifs at hr with h1 h2
    rcases hbad with hb | hb
    · exact h2 hb
    · rw [hb] at hr
      cases hr
  have hblk : ∀ {φ : Type} (mk : GoString × Nat → List φ) (fs : List φ),
      paramBlock c QueryParameter.Cursor (parseCursorQueryParameter s c) mk fs =
        Except.error cursorFormatError :=
    fun mk fs => paramBlock_error c _ _ mk _ hpresent hparse fs
  refine ⟨hparse, rfl, ⟨?_, ?_, ?_, ?_⟩, ⟨?_, ?_, ?_, ?_⟩, ?_⟩
  · obtain ⟨err, he⟩ := (blocks_reject (nftsFiltersBeforeCursor lib s c) _ _ _ _ (hblk _)).1
    have he2 : nftsFilters lib s c = Except.error err := he
    exact ⟨err, he2, by rw [nftsWithFilter, he2]; rfl⟩
  · obtain ⟨err, he⟩ := (blocks_reject (basicFiltersBeforeCursor lib s c) _ _ _ _ (hblk _)).1
    have he2 : basicFilters lib s c = Except.error err := he
    exact ⟨err, he2, by rw [basicOutputsWithFilter, he2]; rfl⟩
  · obtain ⟨err, he⟩ := (blocks_reject (aliasFiltersBeforeCursor lib s c) _ _ _ _ (hblk _)).1
    have he2 : aliasFilters lib s c = Except.error err := he
    exact ⟨err, he2, by rw [aliasesWithFilter, he2]; rfl⟩
  · obtain ⟨err, he⟩ :=
      (blocks_reject (foundryFiltersBeforeCursor io lib s c) _ _ _ _ (hblk _)).1
    have he2 : foundryFilters io lib s c = Except.error err := he
    exact ⟨err, he2, by rw [foundriesWithFilter, he2]; rfl⟩
  · intro fs hfs
    have he2 : nftsFilters lib s c = Except.error cursorFormatError :=
      (blocks_reject (nftsFiltersBeforeCursor lib s c) _ _ _ _ (hblk _)).2 fs hfs
    rw [nftsWithFilter, he2]; rfl
  · intro fs hfs
    have he2 : basicFilters lib s c = Except.error cursorFormatError :=
      (blocks_reject (basicFiltersBeforeCursor lib s c) _ _ _ _ (hblk _)).2 fs hfs
    rw [basicOutputsWithFilter, he2]; rfl
  · intro fs hfs
    have he2 : aliasFilters lib s c = Except.error cursorFormatError :=
      (blocks_reject (aliasFiltersBeforeCursor lib s c) _ _ _ _ (hblk _)).2 fs hfs
    rw [aliasesWithFilter, he2]; rfl
  · intro fs hfs
    have he2 : foundryFilters io lib s c = Except.error cursorFormatError :=
      (blocks_reject (foundryFiltersBeforeCursor io lib s c) _ _ _ _ (hblk _)).2 fs hfs
    rw [foundriesWithFilter, he2]; rfl
  · intro hlib err h
    rcases h with h | h | h | h
    · exact nftsFilters_error_kind lib s c hlib err h
    · exact basicFilters_error_kind lib s c hlib err h
    · exact aliasFilters_error_kind lib s c hlib err h
    · exact foundryFilters_error_kind io lib s c hlib err h

theorem reject_bind {φ : Type} (pre : Except GoError (List φ))
    (blk : List φ → Except GoError (List φ)) (e : GoError)
    (h : ∀ fs, blk fs = Except.error e) :
    (∃ err, (pre >>= blk) = Except.error err) ∧
    (∀ fs, pre = Except.ok fs → (pre >>= blk) = Except.error e) := by
  cases pre with
  | error e0 => exact ⟨⟨e0, rfl⟩, fun fs hfs => by cases hfs⟩
  | ok fs0 => exact ⟨⟨e, h fs0⟩, fun fs _ => h fs0⟩

theorem error_bind {φ : Type} (x : Except GoError (List φ))
    (f : List φ → Except GoError (List φ)) (e : GoError) (h : x = Except.error e) :
    (x >>= f) = Except.error e := by
  subst h
  rfl

/-- C10. Foundry guard: when the `aliasAddress` parameter is present and parses to
an address whose type is not the alias type, `foundriesWithFilter` fails in its
parameter blocks, so it returns an error without reaching the statement that calls
`FoundryOutputsWithFilters` and without any read; the error is the invalid-parameter
error of the guard whenever the blocks before it succeeded, and it wraps
`ErrInvalidParameter` in every case when the errors of the library parsers do. For an
address of the alias type the block appends the alias filter and returns no error. -/
theorem foundry_alias_guard (io : Iotago) (lib : HttpServer) (s : IndexerServer)
    (c : Context) (address : Address)
    (hpresent : 0 < len (c.QueryParam QueryParameter.AliasAddress))
    (hparse : lib.ParseBech32AddressQueryParam c s.Bech32HRP QueryParameter.AliasAddress =
      Except.ok address) :
    (address.AddrType ≠ AddressType.AddressAlias →
      (notAliasAddressError io s address).wraps = some Sentinel.ErrInvalidParameter ∧
      (∃ err, foundryFilters io lib s c = Except.error err ∧
        foundriesWithFilter io lib s c = { ops := [], out := some (Except.error err) }) ∧
      (∀ fs, foundryFiltersBeforeAlias lib s c = Except.ok fs →
        foundriesWithFilter io lib s c =
          { ops := [], out := some (Except.error (notAliasAddressError io s address)) }) ∧
      (lib.rejectsAsInvalidParameter →
        ∀ err, foundryFilters io lib s c = Except.error err →
          err.wraps = some Sentinel.ErrInvalidParameter)) ∧
    (address.AddrType = AddressType.AddressAlias →
      ∀ fs, foundryAliasBlock io lib s c fs =
        Except.ok (fs ++ [FoundryFilterOption.FoundryWithAliasAddress address])) := by
  refine ⟨?_, ?_⟩
  · intro hty
    have hguard : parseAliasAddress io lib s c =
        Except.error (notAliasAddressError io s address) := by
      simp [parseAliasAddress, hparse, hty]
    have hblk : ∀ fs, foundryAliasBlock io lib s c fs =
        Except.error (notAliasAddressError io s address) :=
      fun fs => paramBlock_error c _ _ _ _ hpresent hguard fs
    have hpre := reject_bind (foundryFiltersBeforeAlias lib s c) _ _ hblk
    refine ⟨rfl, ?_, ?_, fun hlib => foundryFilters_error_kind io lib s c hlib⟩
    · obtain ⟨err, he⟩ := hpre.1
      have he2 : foundryFilters io lib s c = Except.error err :=
        error_bind _ _ _ (error_bind _ _ _ (error_bind _ _ _ he))
      exact ⟨err, he2, by rw [foundriesWithFilter, he2]; rfl⟩
    · intro fs hfs
      have he2 : foundryFilters io lib s c =
          Except.error (notAliasAddressError io s address) :=
        error_bind _ _ _ (error_bind _ _ _ (error_bind _ _ _ (hpre.2 fs hfs)))
      rw [foundriesWithFilter, he2]; rfl
  · intro hty fs
    have hguard : parseAliasAddress io lib s c = Except.ok address := by
      simp [parseAliasAddress, hparse, hty]
    exact paramBlock_ok c _ _ _ _ hpresent hguard fs

/-! ### Instances on concrete requests and stores -/

/-- Witness of `cursor_length_validation`: a three-character cursor is rejected
without a read. -/
theorem cursor_length_validation_witness :
    len ['a', 'b', 'c'] ≠ CursorLength ∧
    ∃ r, combineOutputIDFilteredQuery threeResultsIndexer Query.Model 2 (some ['a', 'b', 'c']) =
        { ops := [], out := some r } ∧
      r.Error = some (Errorf ("Invalid cursor length: " ++ toString (len ['a', 'b', 'c']))) ∧
      r.OutputIDs = [] ∧ r.Cursor = none ∧ r.LedgerIndex = 0 :=
  ⟨by decide,
    (cursor_length_validation threeResultsIndexer Query.Model 2 ['a', 'b', 'c']
      (by decide) (by decide)).1 (by decide)⟩

/-- Witness of `ledger_index_selection`: the first row of three carries ledger
index 7. -/
theorem ledger_index_selection_witness :
    ∃ r, (combineOutputIDFilteredQuery threeResultsIndexer Query.Model 0 none).out = some r ∧
      r.Error = none ∧
      (∀ first rest, threeResults = first :: rest →
        r.LedgerIndex = first.LedgerIndex ∧
        (combineOutputIDFilteredQuery threeResultsIndexer Query.Model 0 none).ops =
          [StoreOp.joinedFind]) ∧
      (threeResults = [] →
        r.OutputIDs = [] ∧ r.Cursor = none ∧
        (combineOutputIDFilteredQuery threeResultsIndexer Query.Model 0 none).ops =
          [StoreOp.joinedFind, StoreOp.statusRead] ∧
        (∀ status, threeResultsIndexer.db.Status = Except.ok status →
          r.LedgerIndex = status.LedgerIndex) ∧
        (∀ err, threeResultsIndexer.db.Status = Except.error err → r.LedgerIndex = 0)) :=
  ledger_index_selection threeResultsIndexer Query.Model
    ((Query.Model.Select [Column.output_id]).Order) 0 none threeResults rfl rfl

/-- Witness of `page_size_clamp`: the page size 5000 is clamped to the maximum 1000. -/
theorem page_size_clamp_witness :
    ((0 : Int) ≤ (exampleServer 1000).RestAPILimitsMaxResults ∧
      (exampleServer 1000).RestAPILimitsMaxResults < 2 ^ 32) ∧
    ∃ c1 n,
      (cursorRequest (List.replicate 76 'a' ++ ['.', '5', '0', '0', '0'])).QueryParam
          QueryParameter.Cursor = List.replicate 76 'a' ++ '.' :: c1 ∧
      ParseUint c1 32 = some n ∧
      1000 = min n (exampleServer 1000).RestAPILimitsMaxResults.toNat ∧
      1000 ≤ (exampleServer 1000).RestAPILimitsMaxResults.toNat :=
  ⟨⟨by decide, by decide⟩,
    page_size_clamp (exampleServer 1000)
      (cursorRequest (List.replicate 76 'a' ++ ['.', '5', '0', '0', '0']))
      (List.replicate 76 'a') 1000 (by decide) (by decide) (by rfl)⟩

/-- Witness of `cursor_parameter_rejected`: a cursor whose first component has three
characters. -/
theorem cursor_parameter_rejected_witness :
    0 < len ((cursorRequest ['a', 'b', 'c', '.', '1', '0']).QueryParam QueryParameter.Cursor) ∧
    parseCursorQueryParameter (exampleServer 1000) (cursorRequest ['a', 'b', 'c', '.', '1', '0']) =
      Except.error cursorFormatError ∧
    nftsWithFilter exampleIotago (exampleParsers ed25519Example) (exampleServer 1000)
        (cursorRequest ['a', 'b', 'c', '.', '1', '0']) =
      { ops := [], out := some (Except.error cursorFormatError) } :=
  ⟨by decide,
    (cursor_parameter_rejected exampleIotago (exampleParsers ed25519Example) (exampleServer 1000)
      (cursorRequest ['a', 'b', 'c', '.', '1', '0']) (by decide) (Or.inl (by decide))).1,
    (cursor_parameter_rejected exampleIotago (exampleParsers ed25519Example) (exampleServer 1000)
      (cursorRequest ['a', 'b', 'c', '.', '1', '0']) (by decide)
      (Or.inl (by decide))).2.2.2.1.1 _ rfl⟩

/-- Witness of `foundry_alias_guard`: an Ed25519 address in the `aliasAddress`
parameter. -/
theorem foundry_alias_guard_witness :
    0 < len ((aliasAddressRequest ['r', 'm', 's']).QueryParam QueryParameter.AliasAddress) ∧
    ed25519Example.AddrType ≠ AddressType.AddressAlias ∧
    foundriesWithFilter exampleIotago (exampleParsers ed25519Example) (exampleServer 1000)
        (aliasAddressRequest ['r', 'm', 's']) =
      { ops := []
        out := some (Except.error
          (notAliasAddressError exampleIotago (exampleServer 1000) ed25519Example)) } :=
  ⟨by decide, by decide,
    ((foundry_alias_guard exampleIotago (exampleParsers ed25519Example) (exampleServer 1000)
      (aliasAddressRequest ['r', 'm', 's']) ed25519Example (by decide) rfl).1
        (by decide)).2.2.1 _ rfl⟩

/-! ### The NFT filter composer -/

theorem withPredicates_nil (q : Query NFTCond) : q.withPredicates [] = q := by
  simp [Query.withPredicates]

theorem withPredicates_append (q : Query NFTCond) (ks ls : List NFTCond) :
    (q.withPredicates ks).withPredicates ls = q.withPredicates (ks ++ ls) := by
  simp [Query.withPredicates]

theorem whereFlag_eq (flag : Option Bool) (yes no : NFTCond) (q : Query NFTCond) :
    whereFlag flag yes no q = q.withPredicates (flagPredicate flag yes no) := by
  rcases flag with _ | _ | _ <;>
    simp [whereFlag, flagPredicate, whereNFT, Query.Where, Query.withPredicates]

theorem whereValue_eq {α : Type} (value : Option α) (clause : α → NFTCond)
    (q : Query NFTCond) :
    whereValue value clause q = q.withPredicates (valuePredicate value clause) := by
  cases value <;> simp [whereValue, valuePredicate, whereNFT, Query.Where, Query.withPredicates]

theorem whereTag_eq (tag : Option (List Nat)) (q : Query NFTCond) :
    whereTag tag q =
      q.withPredicates
        (valuePredicate (tag.filter (fun t => decide (t.length > 0))) NFTCond.tagEq) := by
  cases tag with
  | none => simp [whereTag, valuePredicate, Query.withPredicates]
  | some t =>
    by_cases h : t.length > 0
    · simp [whereTag, valuePredicate, whereNFT, Query.Where, Query.withPredicates, h,
        Option.filter]
    · simp [whereTag, valuePredicate, Query.withPredicates, h, Option.filter]

theorem whereAddress_eq (io : Iotago) (bytes : Address → List Nat) (address : Option Address)
    (clause : List Nat → NFTCond) (q : Query NFTCond)
    (h : ∀ a, address = some a → io.Serialize a = Except.ok (bytes a)) :
    whereAddress io address clause q =
      Except.ok (q.withPredicates (valuePredicate address (fun a => clause (bytes a)))) := by
  cases address with
  | none => simp [whereAddress, valuePredicate, Query.withPredicates]
  | some a =>
    simp [whereAddress, addressBytesForAddress, h a rfl, valuePredicate, whereNFT, Query.Where,
      Query.withPredicates]

theorem ok_bind {α β : Type} (a : α) (f : α → Except GoError β) :
    (Except.ok a >>= f) = f a := rfl

/-- The query the composer builds is the unrestricted query with the predicates of
the semantics table conjoined, an empty tag counting as no tag filter. -/
theorem nftFilterQuery_eq (io : Iotago) (bytes : Address → List Nat) (opts : NFTFilterOptions)
    (hser : ∀ a ∈ addressFilters opts, io.Serialize a = Except.ok (bytes a)) :
    nftFilterQuery io opts =
      Except.ok (Query.Model.withPredicates (semanticsTable bytes (emptyTagAbsent opts))) := by
  have h1 : ∀ a, opts.unlockableByAddress = some a → io.Serialize a = Except.ok (bytes a) :=
    fun a ha => hser a (by simp [addressFilters, List.reduceOption, ha])
  have h2 : ∀ a, opts.storageDepositReturnAddress = some a →
      io.Serialize a = Except.ok (bytes a) :=
    fun a ha => hser a (by simp [addressFilters, List.reduceOption, ha])
  have h3 : ∀ a, opts.expirationReturnAddress = some a → io.Serialize a = Except.ok (bytes a) :=
    fun a ha => hser a (by simp [addressFilters, List.reduceOption, ha])
  have h4 : ∀ a, opts.issuer = some a → io.Serialize a = Except.ok (bytes a) :=
    fun a ha => hser a (by simp [addressFilters, List.reduceOption, ha])
  have h5 : ∀ a, opts.sender = some a → io.Serialize a = Except.ok (bytes a) :=
    fun a ha => hser a (by simp [addressFilters, List.reduceOption, ha])
  unfold nftFilterQuery
  simp only [ok_bind, whereFlag_eq, whereValue_eq, whereTag_eq,
    whereAddress_eq io bytes _ _ _ h1, whereAddress_eq io bytes _ _ _ h2,
    whereAddress_eq io bytes _ _ _ h3, whereAddress_eq io bytes _ _ _ h4,
    whereAddress_eq io bytes _ _ _ h5, withPredicates_append]
  simp only [semanticsTable, emptyTagAbsent, List.append_assoc]

theorem all_map_table (rows : List nft) (ks : List NFTCond) (r : nft) :
    (ks.map Cond.table).all (fun c => Cond.holds (nftTable rows) c r) =
      ks.all (fun k => k.holds r) := by
  induction ks with
  | nil => rfl
  | cons k ks ih =>
    rw [List.map_cons, List.all_cons, List.all_cons, ih]
    rfl

/-- C4 (amended). Filter conjunction for NFTs: when the address filters serialize, the
query `NFTOutputsWithFilters` hands to the engine carries exactly the conjunction of
the predicates the semantics table gives for the present filters, where a tag
contributes `tag = ?` only if it is not empty (an empty tag, like an absent filter,
contributes nothing); the unpaginated read selects exactly the rows satisfying all of
them, in `(created_at, output_id)` order; and `{has_expiration = true, issuer = X,
expires_after = 1000}` selects exactly the rows with a non-null
`expiration_return_address`, `issuer = X` and `expiration_time > 1000`. -/
theorem nft_filter_conjunction (io : Iotago) (bytes : Address → List Nat)
    (opts : NFTFilterOptions)
    (hser : ∀ a ∈ addressFilters opts, io.Serialize a = Except.ok (bytes a)) :
    ∃ q, nftFilterQuery io opts = Except.ok q ∧
      q.wheres = (semanticsTable bytes (emptyTagAbsent opts)).map Cond.table ∧
      q.limit = none ∧
      (∀ (i : Indexer NFTCond) (filters : List NFTFilterOption),
        nftFilterOptions filters = opts →
        NFTOutputsWithFilters io i filters =
          combineOutputIDFilteredQuery i q opts.pageSize opts.cursor) ∧
      (∀ (rows : List nft) (status : Option Status) (z : ZeroLimit),
        selectRows { table := nftTable rows, status := status, zeroLimit := z }
            ((q.Select [Column.output_id]).Order) =
          List.insertionSort (fun a b => rowLE (nftTable rows) a b = true)
            (rows.filter (fun r =>
              (semanticsTable bytes (emptyTagAbsent opts)).all (fun k => k.holds r)))) ∧
      (∀ X : Address, opts = scenarioC X → ∀ r : nft,
        ((semanticsTable bytes (emptyTagAbsent opts)).all (fun k => k.holds r) = true ↔
          r.ExpirationReturnAddress ≠ none ∧ r.Issuer = some (bytes X) ∧
            ∃ t, r.ExpirationTime = some t ∧ 1000 < t)) := by
  have hq := nftFilterQuery_eq io bytes opts hser
  have hscen : ∀ X : Address, opts = scenarioC X → ∀ r : nft,
      ((semanticsTable bytes (emptyTagAbsent opts)).all (fun k => k.holds r) = true ↔
        r.ExpirationReturnAddress ≠ none ∧ r.Issuer = some (bytes X) ∧
          ∃ t, r.ExpirationTime = some t ∧ 1000 < t) := by
    intro X hX r
    have hS : semanticsTable bytes (emptyTagAbsent opts) =
        [NFTCond.expirationReturnAddressNotNull, NFTCond.expirationTimeGT 1000,
          NFTCond.issuerEq (bytes X)] := by
      rw [hX]
      simp [semanticsTable, emptyTagAbsent, scenarioC, flagPredicate, valuePredicate]
    rw [hS]
    cases hr : r.ExpirationReturnAddress <;> cases ht : r.ExpirationTime <;>
      cases hi : r.Issuer <;>
      simp [NFTCond.holds, nullable, hr, ht, hi, and_comm]
  revert hq hscen
  generalize semanticsTable bytes (emptyTagAbsent opts) = S
  intro hq hscen
  refine ⟨Query.Model.withPredicates S, hq, ?_, rfl, ?_, ?_, hscen⟩
  · simp [Query.withPredicates, Query.Model]
  · intro i filters hf
    unfold NFTOutputsWithFilters
    simp only [hf, hq]
  · intro rows status z
    simp only [selectRows, Query.Select, Query.Order, Query.withPredicates, Query.Model,
      applyLimit, List.nil_append, all_map_table, if_true]
    rfl

/-- Witness of `nft_filter_conjunction`: the filter set of Scenario C with an Ed25519
issuer. -/
theorem nft_filter_conjunction_witness :
    (∀ a ∈ addressFilters (scenarioC ed25519Example),
      exampleIotago.Serialize a = Except.ok (exampleBytes a)) ∧
    ∃ q, nftFilterQuery exampleIotago (scenarioC ed25519Example) = Except.ok q ∧
      q.wheres =
        [Cond.table NFTCond.expirationReturnAddressNotNull,
          Cond.table (NFTCond.expirationTimeGT 1000),
          Cond.table (NFTCond.issuerEq (exampleBytes ed25519Example))] := by
  have hser : ∀ a ∈ addressFilters (scenarioC ed25519Example),
      exampleIotago.Serialize a = Except.ok (exampleBytes a) := fun a _ => rfl
  obtain ⟨q, hq, hw, _⟩ :=
    nft_filter_conjunction exampleIotago exampleBytes (scenarioC ed25519Example) hser
  exact ⟨hser, q, hq, by rw [hw]; rfl⟩

/-- C4 (as stated) fails: for the options whose tag is present and empty, the
semantics table gives the predicate `tag = ?`, which the row `plainNFT` (its tag is
NULL) does not satisfy, while the composer hands the engine a query without any
predicate and the row is returned. -/
theorem nft_filter_conjunction_counterexample :
    (∀ a ∈ addressFilters { tag := some [] },
      exampleIotago.Serialize a = Except.ok (exampleBytes a)) ∧
    semanticsTable exampleBytes { tag := some [] } = [NFTCond.tagEq []] ∧
    NFTCond.holds (NFTCond.tagEq []) plainNFT = false ∧
    nftFilterQuery exampleIotago { tag := some [] } = Except.ok Query.Model ∧
    nftFilterOptions [NFTTag (some [])] = { tag := some [] } ∧
    (NFTOutputsWithFilters exampleIotago
        (sqlIndexer Engine.EngineSQLite plainNFTDatabase) [NFTTag (some [])]).out =
      some { OutputIDs := [idA], LedgerIndex := 7, PageSize := 0, Cursor := none,
             Error := none } :=
  ⟨fun a _ => rfl, by rfl, by rfl, by rfl, by rfl, by rfl⟩

/-! ### Hexadecimal text of the cursor -/

theorem hexDigitsOf_succ (fuel v : Nat) :
    hexDigitsOf (fuel + 1) v =
      if v < 16 then [v] else hexDigitsOf fuel (v / 16) ++ [v % 16] := rfl

theorem hexDigitsOf_length_le (fuel v : Nat) : (hexDigitsOf fuel v).length ≤ fuel := by
  induction fuel generalizing v with
  | zero => simp [hexDigitsOf]
  | succ n ih =>
    rw [hexDigitsOf_succ]
    split_ifs
    · simp
    · have := ih (v / 16)
      simp
      omega

theorem fixedHex_zero (w : Nat) : fixedHex w 0 = List.replicate w 0 := by
  induction w with
  | zero => rfl
  | succ n ih =>
    rw [fixedHex, Nat.zero_div, ih, Nat.zero_mod, ← List.replicate_succ']

theorem fixedHex_length (w v : Nat) : (fixedHex w v).length = w := by
  induction w generalizing v with
  | zero => rfl
  | succ n ih => simp [fixedHex, ih]

theorem zeroPad_hexDigitsOf (w : Nat) :
    ∀ fuel v, 1 ≤ w → w ≤ fuel → v < 16 ^ w →
      zeroPad w (hexDigitsOf fuel v) = fixedHex w v := by
  induction w with
  | zero => intro fuel v h; omega
  | succ n ih =>
    intro fuel v _ hf hv
    obtain ⟨m, rfl⟩ : ∃ m, fuel = m + 1 := ⟨fuel - 1, by omega⟩
    rw [hexDigitsOf_succ, fixedHex]
    by_cases h : v < 16
    · have hz : v / 16 = 0 := Nat.div_eq_of_lt h
      simp only [h, if_true, zeroPad, List.length_singleton, Nat.add_sub_cancel, hz,
        fixedHex_zero, Nat.mod_eq_of_lt h]
    · have hn : 1 ≤ n := by
        rcases n with _ | n
        · simp at hv
          omega
        · omega
      have hv2 : v / 16 < 16 ^ n := by
        rw [Nat.div_lt_iff_lt_mul (by norm_num)]
        rw [pow_succ] at hv
        exact hv
      have := ih m (v / 16) hn (by omega) hv2
      simp only [h, if_false]
      rw [← this]
      simp only [zeroPad, List.length_append, List.length_singleton, List.append_assoc]
      congr 2
      omega

theorem fixedHex_eight (v : Nat) : fixedHex 8 v = fixedHex8 v := by
  simp only [fixedHex, fixedHex8, List.nil_append, List.cons_append, List.cons.injEq,
    and_true, Nat.div_div_eq_div_mul]

theorem sqlitePrintf08X_eq (v : Nat) (h : v < 2 ^ 32) :
    sqlitePrintf08X v = (fixedHex8 v).map hexDigitUpper := by
  have h64 : v % 2 ^ 64 = v := Nat.mod_eq_of_lt (by omega)
  rw [sqlitePrintf08X, h64, zeroPad_hexDigitsOf 8 16 v (by norm_num) (by norm_num) (by omega),
    fixedHex_eight]

theorem pgLpad0_map (w : Nat) (ds : List Nat) (h : ds.length ≤ w) :
    pgLpad0 w (ds.map hexDigitLower) = (zeroPad w ds).map hexDigitLower := by
  simp [pgLpad0, zeroPad, h, hexDigitLower]

theorem pgCursorHead_eq (v : Nat) (h : v < 2 ^ 32) :
    pgLpad0 8 (pgToHex v) = (fixedHex8 v).map hexDigitLower := by
  have h32 : v % 2 ^ 32 = v := Nat.mod_eq_of_lt h
  rw [pgToHex, h32, pgLpad0_map 8 _ (hexDigitsOf_length_le 8 v),
    zeroPad_hexDigitsOf 8 8 v (by norm_num) (by norm_num) (by omega), fixedHex_eight]

theorem sqliteCursorExpr_eq (t : Nat) (o : List Nat) (h : t < 2 ^ 32) :
    sqliteCursorExpr t o = (fixedHex8 t ++ nibbles o).map hexDigitUpper := by
  rw [sqliteCursorExpr, sqlitePrintf08X_eq t h, sqliteHex, List.map_append]

theorem pgCursorText_eq (t : Nat) (o : List Nat) (h : t < 2 ^ 32) :
    pgCursorText t o = encodeCursor t o := by
  rw [pgCursorText, pgCursorHead_eq t h, pgEncodeHex, encodeCursor, List.map_append]

theorem toLower_hexDigitUpper (d : Nat) : (hexDigitUpper d).toLower = hexDigitLower d := by
  unfold hexDigitUpper hexDigitLower
  split <;> rfl

theorem toUpper_hexDigitLower (d : Nat) : (hexDigitLower d).toUpper = hexDigitUpper d := by
  unfold hexDigitUpper hexDigitLower
  split <;> rfl

theorem toLower_hexDigitLower (d : Nat) : (hexDigitLower d).toLower = hexDigitLower d := by
  unfold hexDigitLower
  split <;> rfl

theorem utf8Size_hexDigitLower (d : Nat) : (hexDigitLower d).utf8Size = 1 := by
  unfold hexDigitLower
  split <;> rfl

theorem ToLower_upperHex (ds : List Nat) :
    ToLower (ds.map hexDigitUpper) = ds.map hexDigitLower := by
  simp [ToLower, toLower_hexDigitUpper]

theorem ToLower_lowerHex (ds : List Nat) :
    ToLower (ds.map hexDigitLower) = ds.map hexDigitLower := by
  simp [ToLower, toLower_hexDigitLower]

theorem ToUpper_lowerHex (ds : List Nat) :
    ToUpper (ds.map hexDigitLower) = ds.map hexDigitUpper := by
  simp [ToUpper, toUpper_hexDigitLower]

theorem len_lowerHex (ds : List Nat) : len (ds.map hexDigitLower) = ds.length := by
  induction ds with
  | nil => rfl
  | cons d ds ih =>
    simp only [len, List.map_cons, List.sum_cons, List.length_cons] at ih ⊢
    rw [ih, utf8Size_hexDigitLower]
    omega

theorem nibbles_length (o : List Nat) : (nibbles o).length = 2 * o.length := by
  induction o with
  | nil => rfl
  | cons b bs ih => simp [nibbles, ih]; omega

theorem len_encodeCursor (t : Nat) (o : List Nat) (ho : o.length = OutputIDLength) :
    len (encodeCursor t o) = CursorLength := by
  rw [encodeCursor, len_lowerHex, List.length_append, nibbles_length, ho]
  rfl
/-! ### The cursor text orders like the `(created_at, output_id)` pair -/

theorem bytesLE_cons_cons (a b : Nat) (as bs : List Nat) :
    bytesLE (a :: as) (b :: bs) = true ↔ a < b ∨ (a = b ∧ bytesLE as bs = true) := by
  simp [bytesLE]

theorem strLE_cons_cons (a b : Char) (as bs : GoString) :
    strLE (a :: as) (b :: bs) = true ↔
      a.toNat < b.toNat ∨ (a.toNat = b.toNat ∧ strLE as bs = true) := by
  simp [strLE]

theorem toNat_hexDigitUpper (d : Nat) (h : d < 16) :
    (hexDigitUpper d).toNat = if d < 10 then 48 + d else 55 + d := by
  interval_cases d <;> rfl

theorem toNat_hexDigitLower (d : Nat) (h : d < 16) :
    (hexDigitLower d).toNat = if d < 10 then 48 + d else 87 + d := by
  interval_cases d <;> rfl

theorem strLE_upperHex (xs ys : List Nat) (hx : ∀ d ∈ xs, d < 16) (hy : ∀ d ∈ ys, d < 16) :
    strLE (xs.map hexDigitUpper) (ys.map hexDigitUpper) = bytesLE xs ys := by
  induction xs generalizing ys with
  | nil => simp [strLE, bytesLE]
  | cons a as ih =>
    cases ys with
    | nil => simp [strLE, bytesLE]
    | cons b bs =>
      have ha : a < 16 := hx a (by simp)
      have hb : b < 16 := hy b (by simp)
      have ih2 := ih bs (fun d hd => hx d (List.mem_cons_of_mem _ hd))
        (fun d hd => hy d (List.mem_cons_of_mem _ hd))
      have hlt : (hexDigitUpper a).toNat < (hexDigitUpper b).toNat ↔ a < b := by
        rw [toNat_hexDigitUpper a ha, toNat_hexDigitUpper b hb]
        split_ifs <;> omega
      have heq : (hexDigitUpper a).toNat = (hexDigitUpper b).toNat ↔ a = b := by
        rw [toNat_hexDigitUpper a ha, toNat_hexDigitUpper b hb]
        split_ifs <;> omega
      rw [Bool.eq_iff_iff, List.map_cons, List.map_cons, strLE_cons_cons, bytesLE_cons_cons,
        hlt, heq, ih2]

theorem strLE_lowerHex (xs ys : List Nat) (hx : ∀ d ∈ xs, d < 16) (hy : ∀ d ∈ ys, d < 16) :
    strLE (xs.map hexDigitLower) (ys.map hexDigitLower) = bytesLE xs ys := by
  induction xs generalizing ys with
  | nil => simp [strLE, bytesLE]
  | cons a as ih =>
    cases ys with
    | nil => simp [strLE, bytesLE]
    | cons b bs =>
      have ha : a < 16 := hx a (by simp)
      have hb : b < 16 := hy b (by simp)
      have ih2 := ih bs (fun d hd => hx d (List.mem_cons_of_mem _ hd))
        (fun d hd => hy d (List.mem_cons_of_mem _ hd))
      have hlt : (hexDigitLower a).toNat < (hexDigitLower b).toNat ↔ a < b := by
        rw [toNat_hexDigitLower a ha, toNat_hexDigitLower b hb]
        split_ifs <;> omega
      have heq : (hexDigitLower a).toNat = (hexDigitLower b).toNat ↔ a = b := by
        rw [toNat_hexDigitLower a ha, toNat_hexDigitLower b hb]
        split_ifs <;> omega
      rw [Bool.eq_iff_iff, List.map_cons, List.map_cons, strLE_cons_cons, bytesLE_cons_cons,
        hlt, heq, ih2]

theorem nibbles_lt (o : List Nat) : ∀ d ∈ nibbles o, d < 16 := by
  induction o with
  | nil => simp [nibbles]
  | cons b bs ih =>
    intro d hd
    simp only [nibbles, List.mem_cons] at hd
    rcases hd with h | h | h
    · omega
    · omega
    · exact ih d h

theorem fixedHex8_lt (v : Nat) : ∀ d ∈ fixedHex8 v, d < 16 := by
  intro d hd
  simp only [fixedHex8, List.mem_cons, List.mem_singleton, List.not_mem_nil, or_false] at hd
  omega

theorem bytesLE_nibbles (xs ys : List Nat) (hx : ∀ b ∈ xs, b < 256) (hy : ∀ b ∈ ys, b < 256) :
    bytesLE (nibbles xs) (nibbles ys) = bytesLE xs ys := by
  induction xs generalizing ys with
  | nil => simp [nibbles, bytesLE]
  | cons a as ih =>
    cases ys with
    | nil => simp [nibbles, bytesLE]
    | cons b bs =>
      have ha : a < 256 := hx a (by simp)
      have hb : b < 256 := hy b (by simp)
      have ih2 := ih bs (fun d hd => hx d (List.mem_cons_of_mem _ hd))
        (fun d hd => hy d (List.mem_cons_of_mem _ hd))
      rw [Bool.eq_iff_iff, nibbles, nibbles, bytesLE_cons_cons, bytesLE_cons_cons,
        bytesLE_cons_cons, ih2]
      constructor
      · rintro (h | ⟨h, h2 | ⟨h2, h3⟩⟩)
        · left; omega
        · left; omega
        · right; exact ⟨by omega, h3⟩
      · rintro (h | ⟨h, h3⟩)
        · by_cases h2 : a / 16 % 16 < b / 16 % 16
          · left; exact h2
          · right; exact ⟨by omega, Or.inl (by omega)⟩
        · right; exact ⟨by omega, Or.inr ⟨by omega, h3⟩⟩

theorem bytesLE_refl (a : List Nat) : bytesLE a a = true := by
  induction a with
  | nil => rfl
  | cons c cs ih => rw [bytesLE_cons_cons]; exact Or.inr ⟨rfl, ih⟩

theorem bytesLE_append (a b x y : List Nat) (hl : a.length = b.length) :
    bytesLE (a ++ x) (b ++ y) = if a = b then bytesLE x y else bytesLE a b := by
  induction a generalizing b with
  | nil =>
    cases b with
    | nil => simp
    | cons c cs => simp at hl
  | cons c cs ih =>
    cases b with
    | nil => simp at hl
    | cons d ds =>
      have hl2 : cs.length = ds.length := by simpa using hl
      have ih2 := ih ds hl2
      rw [Bool.eq_iff_iff, List.cons_append, List.cons_append, bytesLE_cons_cons, ih2]
      by_cases h1 : c = d
      · subst h1
        by_cases h2 : cs = ds
        · subst h2
          simp
        · simp [h2, bytesLE_cons_cons]
      · have h3 : ¬ (c :: cs = d :: ds) := by simp [h1]
        simp [h1, h3, bytesLE_cons_cons]

theorem fixedHex_inj (w : Nat) :
    ∀ s t, s < 16 ^ w → t < 16 ^ w → (fixedHex w s = fixedHex w t ↔ s = t) := by
  induction w with
  | zero =>
    intro s t hs ht
    simp at hs ht
    simp [fixedHex, hs, ht]
  | succ n ih =>
    intro s t hs ht
    rw [pow_succ] at hs ht
    have h1 := ih (s / 16) (t / 16) (by omega) (by omega)
    rw [fixedHex, fixedHex]
    constructor
    · intro h
      have h2 := List.append_inj h (by rw [fixedHex_length, fixedHex_length])
      have h3 := h1.mp h2.1
      have h4 : s % 16 = t % 16 := by simpa using h2.2
      omega
    · intro h
      rw [h]

theorem bytesLE_fixedHex (w : Nat) :
    ∀ s t, s < 16 ^ w → t < 16 ^ w →
      bytesLE (fixedHex w s) (fixedHex w t) = decide (s ≤ t) := by
  induction w with
  | zero =>
    intro s t hs ht
    simp at hs ht
    simp [fixedHex, hs, ht, bytesLE]
  | succ n ih =>
    intro s t hs ht
    rw [pow_succ] at hs ht
    have h1 := ih (s / 16) (t / 16) (by omega) (by omega)
    have h2 := fixedHex_inj n (s / 16) (t / 16) (by omega) (by omega)
    rw [fixedHex, fixedHex, bytesLE_append _ _ _ _ (by rw [fixedHex_length, fixedHex_length]),
      h1]
    by_cases h3 : s / 16 = t / 16
    · rw [if_pos (h2.mpr h3), Bool.eq_iff_iff, bytesLE_cons_cons]
      have : bytesLE [] [] = true := rfl
      simp only [this, and_true, decide_eq_true_eq]
      omega
    · rw [if_neg (fun h => h3 (h2.mp h))]
      simp only [decide_eq_decide]
      omega

theorem fixedHex8_inj (s t : Nat) (hs : s < 2 ^ 32) (ht : t < 2 ^ 32) :
    fixedHex8 s = fixedHex8 t ↔ s = t := by
  rw [← fixedHex_eight, ← fixedHex_eight]
  exact fixedHex_inj 8 s t (by omega) (by omega)

theorem bytesLE_fixedHex8 (s t : Nat) (hs : s < 2 ^ 32) (ht : t < 2 ^ 32) :
    bytesLE (fixedHex8 s) (fixedHex8 t) = decide (s ≤ t) := by
  rw [← fixedHex_eight, ← fixedHex_eight]
  exact bytesLE_fixedHex 8 s t (by omega) (by omega)

/-- The digit values of a cursor order like the `(created_at, output_id)` pair. -/
theorem bytesLE_cursorDigits (s t : Nat) (x y : List Nat) (hs : s < 2 ^ 32) (ht : t < 2 ^ 32)
    (hx : ∀ b ∈ x, b < 256) (hy : ∀ b ∈ y, b < 256) :
    bytesLE (fixedHex8 s ++ nibbles x) (fixedHex8 t ++ nibbles y) =
      (decide (s < t) || (s == t && bytesLE x y)) := by
  rw [bytesLE_append _ _ _ _ (by simp [fixedHex8]), bytesLE_nibbles x y hx hy,
    bytesLE_fixedHex8 s t hs ht]
  by_cases h : s = t
  · subst h
    simp
  · rw [if_neg (fun e => h ((fixedHex8_inj s t hs ht).mp e))]
    have h2 : (s == t) = false := by simpa using h
    rw [h2]
    simp only [Bool.false_and, Bool.or_false, decide_eq_decide]
    omega

/-! ### The order of the rows -/

theorem bytesLE_total (a b : List Nat) : bytesLE a b = true ∨ bytesLE b a = true := by
  induction a generalizing b with
  | nil => left; rfl
  | cons c cs ih =>
    cases b with
    | nil => right; rfl
    | cons d ds =>
      rw [bytesLE_cons_cons, bytesLE_cons_cons]
      rcases Nat.lt_trichotomy c d with h | h | h
      · left; left; exact h
      · rcases ih ds with h2 | h2
        · left; right; exact ⟨h, h2⟩
        · right; right; exact ⟨h.symm, h2⟩
      · right; left; exact h

theorem bytesLE_trans (a b c : List Nat) (h1 : bytesLE a b = true) (h2 : bytesLE b c = true) :
    bytesLE a c = true := by
  induction a generalizing b c with
  | nil => rfl
  | cons x xs ih =>
    cases b with
    | nil => simp [bytesLE] at h1
    | cons y ys =>
      cases c with
      | nil => simp [bytesLE] at h2
      | cons z zs =>
        rw [bytesLE_cons_cons] at h1 h2 ⊢
        rcases h1 with h1 | ⟨h1, h1r⟩ <;> rcases h2 with h2 | ⟨h2, h2r⟩
        · left; omega
        · left; omega
        · left; omega
        · right; exact ⟨by omega, ih ys zs h1r h2r⟩

theorem bytesLE_antisymm (a b : List Nat) (h1 : bytesLE a b = true) (h2 : bytesLE b a = true) :
    a = b := by
  induction a generalizing b with
  | nil =>
    cases b with
    | nil => rfl
    | cons y ys => simp [bytesLE] at h2
  | cons x xs ih =>
    cases b with
    | nil => simp [bytesLE] at h1
    | cons y ys =>
      rw [bytesLE_cons_cons] at h1 h2
      rcases h1 with h1 | ⟨h1, h1r⟩ <;> rcases h2 with h2 | ⟨h2, h2r⟩
      · omega
      · omega
      · omega
      · rw [h1, ih ys h1r h2r]

theorem rowLE_iff {ρ κ : Type} (T : Table ρ κ) (a b : ρ) :
    rowLE T a b = true ↔
      T.created_at a < T.created_at b ∨
        (T.created_at a = T.created_at b ∧ bytesLE (T.output_id a) (T.output_id b) = true) := by
  simp [rowLE]

theorem rowLE_refl {ρ κ : Type} (T : Table ρ κ) (a : ρ) : rowLE T a a = true := by
  rw [rowLE_iff]
  exact Or.inr ⟨rfl, bytesLE_refl _⟩

theorem rowLE_total {ρ κ : Type} (T : Table ρ κ) (a b : ρ) :
    rowLE T a b = true ∨ rowLE T b a = true := by
  rw [rowLE_iff, rowLE_iff]
  rcases Nat.lt_trichotomy (T.created_at a) (T.created_at b) with h | h | h
  · left; left; exact h
  · rcases bytesLE_total (T.output_id a) (T.output_id b) with h2 | h2
    · left; right; exact ⟨h, h2⟩
    · right; right; exact ⟨h.symm, h2⟩
  · right; left; exact h

theorem rowLE_trans {ρ κ : Type} (T : Table ρ κ) (a b c : ρ) (h1 : rowLE T a b = true)
    (h2 : rowLE T b c = true) : rowLE T a c = true := by
  rw [rowLE_iff] at h1 h2 ⊢
  rcases h1 with h1 | ⟨h1, h1r⟩ <;> rcases h2 with h2 | ⟨h2, h2r⟩
  · left; omega
  · left; omega
  · left; omega
  · right; exact ⟨by omega, bytesLE_trans _ _ _ h1r h2r⟩

theorem rowLE_antisymm {ρ κ : Type} (T : Table ρ κ) (a b : ρ) (h1 : rowLE T a b = true)
    (h2 : rowLE T b a = true) :
    (T.created_at a, T.output_id a) = (T.created_at b, T.output_id b) := by
  rw [rowLE_iff] at h1 h2
  rcases h1 with h1 | ⟨h1, h1r⟩ <;> rcases h2 with h2 | ⟨h2, h2r⟩
  · omega
  · omega
  · omega
  · rw [h1, bytesLE_antisymm _ _ h1r h2r]

/-- The strict order of the rows: `a` before `b` and not `b` before `a`. -/
theorem sorted_strict {ρ κ : Type} (T : Table ρ κ) (l : List ρ)
    (hd : (l.map (fun r => (T.created_at r, T.output_id r))).Nodup) :
    (List.insertionSort (fun a b => rowLE T a b = true) l).Pairwise
      (fun a b => rowLE T a b = true ∧ rowLE T b a = false) := by
  haveI : IsTotal ρ (fun a b => rowLE T a b = true) := ⟨rowLE_total T⟩
  haveI : IsTrans ρ (fun a b => rowLE T a b = true) := ⟨rowLE_trans T⟩
  have hs := List.sorted_insertionSort (fun a b => rowLE T a b = true) l
  have hp := List.perm_insertionSort (fun a b => rowLE T a b = true) l
  have hn : ((List.insertionSort (fun a b => rowLE T a b = true) l).map
      (fun r => (T.created_at r, T.output_id r))).Nodup :=
    (hp.map _).nodup_iff.mpr hd
  have hn2 := List.pairwise_map.mp hn
  refine (List.Pairwise.and hs hn2).imp ?_
  rintro a b ⟨h1, h2⟩
  refine ⟨h1, ?_⟩
  cases h3 : rowLE T b a with
  | false => rfl
  | true => exact absurd (rowLE_antisymm T a b h1 h3) h2

theorem sort_filter {ρ κ : Type} (T : Table ρ κ) (l : List ρ) (f : ρ → Bool)
    (hd : (l.map (fun r => (T.created_at r, T.output_id r))).Nodup) :
    List.insertionSort (fun a b => rowLE T a b = true) (l.filter f) =
      (List.insertionSort (fun a b => rowLE T a b = true) l).filter f := by
  haveI : IsAntisymm ρ (fun a b => rowLE T a b = true ∧ rowLE T b a = false) :=
    ⟨fun a b h1 h2 => by
      have := h1.2
      rw [h2.1] at this
      cases this⟩
  have hd2 : ((l.filter f).map (fun r => (T.created_at r, T.output_id r))).Nodup :=
    hd.sublist ((List.filter_sublist l).map _)
  refine List.eq_of_perm_of_sorted ?_ (sorted_strict T _ hd2)
    ((sorted_strict T l hd).filter f)
  exact (List.perm_insertionSort _ _).trans ((List.perm_insertionSort _ l).filter f).symm

theorem filter_ge_eq_drop {ρ κ : Type} (T : Table ρ κ) (S : List ρ)
    (hS : S.Pairwise (fun a b => rowLE T a b = true ∧ rowLE T b a = false)) :
    ∀ k x, S[k]? = some x → S.filter (fun r => rowLE T x r) = S.drop k := by
  induction S with
  | nil => intro k x h; simp at h
  | cons a S ih =>
    intro k x h
    rw [List.pairwise_cons] at hS
    cases k with
    | zero =>
      simp only [List.getElem?_cons_zero, Option.some.injEq] at h
      subst h
      rw [List.drop_zero, List.filter_cons, if_pos (rowLE_refl T a)]
      congr 1
      rw [List.filter_eq_self]
      intro r hr
      exact (hS.1 r hr).1
    | succ k =>
      simp only [List.getElem?_cons_succ] at h
      have hx : x ∈ S := List.getElem?_mem h
      have hax := (hS.1 x hx).2
      rw [List.filter_cons, hax]
      simp only [Bool.false_eq_true, if_false, List.drop_succ_cons]
      exact ih hS.2 k x h

/-! ### The engine on a relational store -/

theorem paging_eq {β : Type} (results : List queryResult) (p : Nat) (f : queryResult → β)
    (hp : 0 < p) (hl : results.length ≤ p + 1) (h32 : p + 1 < 2 ^ 32) :
    (if p > 0 ∧ results.length % 2 ^ 32 > p then
        (results.dropLast, (results.getLast?).map f)
      else (results, none)) = (results.take p, (results[p]?).map f) := by
  have hmod : results.length % 2 ^ 32 = results.length := Nat.mod_eq_of_lt (by omega)
  rw [hmod]
  by_cases h : results.length > p
  · have hlen : results.length = p + 1 := by omega
    rw [if_pos ⟨hp, h⟩]
    congr 1
    · rw [List.dropLast_eq_take, hlen, Nat.add_sub_cancel]
    · rw [List.getLast?_eq_getElem?, hlen, Nat.add_sub_cancel]
  · rw [if_neg (fun hh => h hh.2)]
    congr 1
    · rw [List.take_of_length_le (by omega)]
    · rw [List.getElem?_eq_none (by omega)]
      rfl

theorem ID_of_length (o : List Nat) (h : o.length = OutputIDLength) : outputIDBytes.ID o = o := by
  rw [outputIDBytes.ID, List.take_append_of_le_length (by omega), List.take_of_length_le (by omega)]

/-- The cursor column of a row, lower-cased, is the external cursor of its pair. -/
theorem ToLower_engineCursor (e : Engine) (t : Nat) (o : List Nat) (he : e ≠ Engine.EngineOther)
    (ht : t < e.createdAtBound) :
    ToLower (engineCursor e t o) = encodeCursor t o := by
  cases e with
  | EngineOther => exact absurd rfl he
  | EngineSQLite =>
    have h32 : t < 2 ^ 32 := ht
    rw [engineCursor, sqliteCursorExpr_eq t o h32, ToLower_upperHex, encodeCursor]
  | EnginePostgreSQL =>
    have h31 : t < 2 ^ 31 := ht
    rw [engineCursor, pgCursorText_eq t o (by omega), encodeCursor, ToLower_lowerHex]

theorem cursorDigits_lt (t : Nat) (o : List Nat) : ∀ d ∈ fixedHex8 t ++ nibbles o, d < 16 := by
  intro d hd
  rcases List.mem_append.mp hd with h | h
  · exact fixedHex8_lt t d h
  · exact nibbles_lt o d h

/-- On SQLite the clause `cursor >= ?` with the upper-cased external cursor of a pair
selects the rows at or after that pair. -/
theorem sqlite_bound_holds (s t : Nat) (x y : List Nat) (hs : s < 2 ^ 32) (ht : t < 2 ^ 32)
    (hx : ∀ b ∈ x, b < 256) (hy : ∀ b ∈ y, b < 256) :
    strLE (ToUpper (encodeCursor s x)) (sqliteCursorExpr t y) =
      (decide (s < t) || (s == t && bytesLE x y)) := by
  rw [encodeCursor, ToUpper_lowerHex, sqliteCursorExpr_eq t y ht,
    strLE_upperHex _ _ (cursorDigits_lt s x) (cursorDigits_lt t y),
    bytesLE_cursorDigits s t x y hs ht hx hy]

/-- On PostgreSQL the cursor clause with the external cursor of a pair selects the
rows at or after that pair. -/
theorem pg_bound_holds (s t : Nat) (x y : List Nat) (hs : s < 2 ^ 32) (ht : t < 2 ^ 32)
    (hx : ∀ b ∈ x, b < 256) (hy : ∀ b ∈ y, b < 256) :
    strLE (encodeCursor s x) (pgCursorText t y) =
      (decide (s < t) || (s == t && bytesLE x y)) := by
  rw [pgCursorText_eq t y ht, encodeCursor, encodeCursor,
    strLE_lowerHex _ _ (cursorDigits_lt s x) (cursorDigits_lt t y),
    bytesLE_cursorDigits s t x y hs ht hx hy]

theorem createdAtBound_le (e : Engine) : e.createdAtBound ≤ 2 ^ 32 := by
  cases e <;> simp [Engine.createdAtBound]

theorem all_isTable_any_usesAlias {κ : Type} (ws : List (Cond κ))
    (h : ∀ c ∈ ws, Cond.isTable c = true) : ws.any Cond.usesAlias = false := by
  rw [List.any_eq_false]
  intro c hc
  have := h c hc
  cases c <;> simp_all [Cond.isTable, Cond.usesAlias]

theorem all_isTable_any_usesPostgres {κ : Type} (ws : List (Cond κ))
    (h : ∀ c ∈ ws, Cond.isTable c = true) : ws.any Cond.usesPostgres = false := by
  rw [List.any_eq_false]
  intro c hc
  have := h c hc
  cases c <;> simp_all [Cond.isTable, Cond.usesPostgres]

theorem filter_isTable_of_all {κ : Type} (ws : List (Cond κ))
    (h : ∀ c ∈ ws, Cond.isTable c = true) : ws.filter Cond.isTable = ws :=
  List.filter_eq_self.mpr h

theorem orderedMatches_sublist_keys {ρ κ : Type} (db : Database ρ κ) (f : ρ → Bool)
    (hdk : db.table.distinctKeys) :
    ((db.table.rows.filter f).map
      (fun r => (db.table.created_at r, db.table.output_id r))).Nodup :=
  List.Nodup.sublist ((List.filter_sublist db.table.rows).map _) hdk

theorem mem_orderedMatches {ρ κ : Type} (db : Database ρ κ) (query : Query κ) (r : ρ)
    (h : r ∈ orderedMatches db query) : r ∈ db.table.rows := by
  have h1 := (List.perm_insertionSort _ _).mem_iff.mp h
  exact (List.mem_filter.mp h1).1

/-- The rows at or after the row at position `k` of the ordered matches are the
ordered matches from position `k` on. -/
theorem orderedMatches_from {ρ κ : Type} (db : Database ρ κ) (query : Query κ) (k : Nat)
    (x : ρ) (hdk : db.table.distinctKeys) (hx : (orderedMatches db query)[k]? = some x) :
    List.insertionSort (fun a b => rowLE db.table a b = true)
        (db.table.rows.filter (fun r =>
          query.wheres.all (fun c => Cond.holds db.table c r) && rowLE db.table x r)) =
      (orderedMatches db query).drop k := by
  have h1 : db.table.rows.filter (fun r =>
        query.wheres.all (fun c => Cond.holds db.table c r) && rowLE db.table x r) =
      (db.table.rows.filter
        (fun r => query.wheres.all (fun c => Cond.holds db.table c r))).filter
          (fun r => rowLE db.table x r) := by
    rw [List.filter_filter]
    congr 1
    funext r
    rw [Bool.and_comm]
  rw [h1, sort_filter db.table _ _ (orderedMatches_sublist_keys db _ hdk)]
  exact filter_ge_eq_drop db.table _
    (sorted_strict db.table _ (orderedMatches_sublist_keys db _ hdk)) k x hx

/-- On encodable rows the cursor clause the engine adds for the external cursor of
the row `x` holds exactly for the rows at or after `x`. -/
theorem cursor_clause_holds {ρ κ : Type} (e : Engine) (db : Database ρ κ) (x r : ρ)
    (hwf : db.table.encodable e) (hx : x ∈ db.table.rows) (hr : r ∈ db.table.rows) :
    (e = Engine.EngineSQLite →
      Cond.holds db.table
        (Cond.cursorGE (ToUpper (encodeCursor (db.table.created_at x) (db.table.output_id x))))
        r = rowLE db.table x r) ∧
    (e = Engine.EnginePostgreSQL →
      Cond.holds db.table
        (Cond.pgCursorGE (encodeCursor (db.table.created_at x) (db.table.output_id x)))
        r = rowLE db.table x r) := by
  obtain ⟨hx1, _, hx3⟩ := hwf x hx
  obtain ⟨hr1, _, hr3⟩ := hwf r hr
  have hb := createdAtBound_le e
  constructor
  · intro _
    rw [Cond.holds, sqlite_bound_holds _ _ _ _ (by omega) (by omega) hx3 hr3, rowLE]
  · intro _
    rw [Cond.holds, pg_bound_holds _ _ _ _ (by omega) (by omega) hx3 hr3, rowLE]

theorem all_append_single {κ ρ : Type} (ws : List (Cond κ)) (c : Cond κ) (g : Cond κ → ρ → Bool)
    (r : ρ) : (ws ++ [c]).all (fun d => g d r) = (ws.all (fun d => g d r) && g c r) := by
  simp [List.all_append]

theorem sqlFind_ok {ρ κ : Type} (db : Database ρ κ) (q : Query κ)
    (h1 : q.aliasResolved = true)
    (h2 : q.usesPostgres = false ∨ ∀ r ∈ db.table.rows, db.table.created_at r < 2 ^ 31) :
    sqlFind db q =
      match db.status with
      | none => Except.ok []
      | some status =>
        Except.ok ((selectRows db q).map (resultRow db.table q status.LedgerIndex)) := by
  have h3 : ¬ (q.usesPostgres = true ∧
      (db.table.rows.filter (fun r =>
        (q.wheres.filter Cond.isTable).all (fun c => Cond.holds db.table c r))).any
        (fun r => decide (2 ^ 31 ≤ db.table.created_at r)) = true) := by
    rintro ⟨ha, hb⟩
    rcases h2 with h2 | h2
    · rw [h2] at ha
      cases ha
    · obtain ⟨r, hr, hr2⟩ := List.any_eq_true.mp hb
      have := h2 r (List.mem_filter.mp hr).1
      simp only [decide_eq_true_eq] at hr2
      omega
  unfold sqlFind
  rw [h1]
  simp only [Bool.not_true, Bool.false_eq_true, if_false]
  rw [if_neg h3]

theorem selectRows_limited {ρ κ : Type} (db : Database ρ κ) (q : Query κ) (n : Nat)
    (ho : q.order = true) (hl : q.limit = some ((n + 1 : Nat) : Int)) :
    selectRows db q =
      (List.insertionSort (fun a b => rowLE db.table a b = true)
        (db.table.rows.filter
          (fun r => q.wheres.all (fun c => Cond.holds db.table c r)))).take (n + 1) := by
  have hpos : (0 : Int) < ((n + 1 : Nat) : Int) := by omega
  simp only [selectRows, ho, hl, applyLimit, if_true, if_pos hpos, Int.toNat_ofNat]

theorem selectRows_unlimited {ρ κ : Type} (db : Database ρ κ) (q : Query κ)
    (ho : q.order = true)
    (hl : q.limit = none ∨ (q.limit = some 0 ∧ db.zeroLimit = ZeroLimit.omitted)) :
    selectRows db q =
      List.insertionSort (fun a b => rowLE db.table a b = true)
        (db.table.rows.filter
          (fun r => q.wheres.all (fun c => Cond.holds db.table c r))) := by
  rcases hl with hl | ⟨hl, hz⟩
  · simp only [selectRows, ho, hl, applyLimit, if_true]
  · simp [selectRows, ho, hl, applyLimit, hz]

theorem resultRow_engine {ρ κ : Type} (e : Engine) (T : Table ρ κ) (q : Query κ) (li : Nat)
    (r : ρ)
    (hs : (e = Engine.EngineSQLite ∧ q.selects = [Column.output_id, Column.cursorSQLite]) ∨
      (e = Engine.EnginePostgreSQL ∧ q.selects = [Column.output_id, Column.cursorPostgreSQL])) :
    resultRow T q li r =
      { OutputID := T.output_id r
        Cursor := engineCursor e (T.created_at r) (T.output_id r)
        LedgerIndex := li } := by
  rcases hs with ⟨he, hs⟩ | ⟨he, hs⟩
  · subst he
    simp [resultRow, hs, engineCursor]
  · subst he
    simp [resultRow, hs, engineCursor]

/-- The joined read of a page: for a filter set over encodable rows with distinct
pairs, the query the engine builds for no cursor (`k = 0`) or for the external
cursor of the row at position `k` of the ordered matches returns the next
`pageSize + 1` ordered matches from position `k`, each with its cursor column and
the ledger index of the status row. -/
theorem sqlFind_paged {ρ κ : Type} (e : Engine) (db : Database ρ κ) (query : Query κ)
    (p k : Nat) (cursor : Option GoString)
    (he : e ≠ Engine.EngineOther) (hwf : db.table.encodable e) (hdk : db.table.distinctKeys)
    (hfs : query.isFilterSet) (hp : 0 < p) (h32 : p + 1 < 2 ^ 32)
    (hc : (cursor = none ∧ k = 0) ∨
      ∃ x, (orderedMatches db query)[k]? = some x ∧
        cursor = some (encodeCursor (db.table.created_at x) (db.table.output_id x))) :
    ∃ q, pagedQuery e query p cursor = some (Except.ok q) ∧
      sqlFind db q =
        match db.status with
        | none => Except.ok []
        | some status =>
          Except.ok ((((orderedMatches db query).drop k).take (p + 1)).map (fun r =>
            { OutputID := db.table.output_id r
              Cursor := engineCursor e (db.table.created_at r) (db.table.output_id r)
              LedgerIndex := status.LedgerIndex })) := by
  obtain ⟨hlim, htab⟩ := hfs
  have hp2 : p > 0 := hp
  have hmod : (p + 1) % 2 ^ 32 = p + 1 := Nat.mod_eq_of_lt h32
  have hal := all_isTable_any_usesAlias query.wheres htab
  have hpg := all_isTable_any_usesPostgres query.wheres htab
  -- the shape of the result, given the query and the rows it selects
  have shape : ∀ q : Query κ,
      q.aliasResolved = true →
      (q.usesPostgres = false ∨ ∀ r ∈ db.table.rows, db.table.created_at r < 2 ^ 31) →
      q.order = true → q.limit = some ((p + 1 : Nat) : Int) →
      ((e = Engine.EngineSQLite ∧ q.selects = [Column.output_id, Column.cursorSQLite]) ∨
        (e = Engine.EnginePostgreSQL ∧
          q.selects = [Column.output_id, Column.cursorPostgreSQL])) →
      List.insertionSort (fun a b => rowLE db.table a b = true)
          (db.table.rows.filter (fun r => q.wheres.all (fun c => Cond.holds db.table c r))) =
        (orderedMatches db query).drop k →
      sqlFind db q =
        match db.status with
        | none => Except.ok []
        | some status =>
          Except.ok ((((orderedMatches db query).drop k).take (p + 1)).map (fun r =>
            { OutputID := db.table.output_id r
              Cursor := engineCursor e (db.table.created_at r) (db.table.output_id r)
              LedgerIndex := status.LedgerIndex })) := by
    intro q h1 h2 h3 h4 h5 h6
    rw [sqlFind_ok db q h1 h2, selectRows_limited db q p h3 h4, h6]
    cases db.status with
    | none => rfl
    | some status =>
      simp only
      congr 1
      apply List.map_congr_left
      intro r _
      exact resultRow_engine e db.table q status.LedgerIndex r h5
  have hpgrange : e = Engine.EnginePostgreSQL →
      ∀ r ∈ db.table.rows, db.table.created_at r < 2 ^ 31 := by
    intro h r hr
    have := (hwf r hr).1
    rw [h] at this
    exact this
  rcases hc with ⟨hcur, hk⟩ | ⟨x, hx, hcur⟩
  · subst hcur
    subst hk
    cases e with
    | EngineOther => exact absurd rfl he
    | EngineSQLite =>
      refine ⟨{ wheres := query.wheres, selects := [Column.output_id, Column.cursorSQLite],
                order := true, limit := some ((p + 1 : Nat) : Int) }, ?_, ?_⟩
      · simp [pagedQuery, paginationQuery, hp2, Query.Select, Query.Order, Query.Limit, hmod]
        omega
      · exact shape _ (by simp [Query.aliasResolved]) (Or.inl (by simp [Query.usesPostgres, hpg]))
          rfl rfl (Or.inl ⟨rfl, rfl⟩) rfl
    | EnginePostgreSQL =>
      refine ⟨{ wheres := query.wheres, selects := [Column.output_id, Column.cursorPostgreSQL],
                order := true, limit := some ((p + 1 : Nat) : Int) }, ?_, ?_⟩
      · simp [pagedQuery, paginationQuery, hp2, Query.Select, Query.Order, Query.Limit, hmod]
        omega
      · exact shape _ (by simp [Query.aliasResolved, hal]) (Or.inr (hpgrange rfl))
          rfl rfl (Or.inr ⟨rfl, rfl⟩) rfl
  · subst hcur
    have hxm : x ∈ db.table.rows := mem_orderedMatches db query x (List.getElem?_mem hx)
    have hlen : len (encodeCursor (db.table.created_at x) (db.table.output_id x)) =
        CursorLength := len_encodeCursor _ _ (hwf x hxm).2.1
    have hfrom := orderedMatches_from db query k x hdk hx
    cases e with
    | EngineOther => exact absurd rfl he
    | EngineSQLite =>
      refine ⟨{ wheres := query.wheres ++ [Cond.cursorGE (ToUpper
                  (encodeCursor (db.table.created_at x) (db.table.output_id x)))],
                selects := [Column.output_id, Column.cursorSQLite],
                order := true, limit := some ((p + 1 : Nat) : Int) }, ?_, ?_⟩
      · simp [pagedQuery, paginationQuery, hp2, Query.Select, Query.Order, Query.Limit, hmod,
          hlen, Query.Where]
        omega
      · refine shape _ (by simp [Query.aliasResolved])
          (Or.inl (by simp [Query.usesPostgres, hpg, Cond.usesPostgres]))
          rfl rfl (Or.inl ⟨rfl, rfl⟩) ?_
        rw [← hfrom]
        congr 1
        apply List.filter_congr
        intro r hr
        rw [all_append_single, (cursor_clause_holds _ db x r hwf hxm hr).1 rfl]
    | EnginePostgreSQL =>
      refine ⟨{ wheres := query.wheres ++ [Cond.pgCursorGE
                  (encodeCursor (db.table.created_at x) (db.table.output_id x))],
                selects := [Column.output_id, Column.cursorPostgreSQL],
                order := true, limit := some ((p + 1 : Nat) : Int) }, ?_, ?_⟩
      · simp [pagedQuery, paginationQuery, hp2, Query.Select, Query.Order, Query.Limit, hmod,
          hlen, Query.Where]
        omega
      · refine shape _ (by simp [Query.aliasResolved, hal, Cond.usesAlias])
          (Or.inr (hpgrange rfl))
          rfl rfl (Or.inr ⟨rfl, rfl⟩) ?_
        rw [← hfrom]
        congr 1
        apply List.filter_congr
        intro r hr
        rw [all_append_single, (cursor_clause_holds _ db x r hwf hxm hr).2 rfl]

/-- One page of the engine over a relational store: for a filter set over encodable
rows with distinct pairs and a status row, a call without cursor (`k = 0`) or with
the external cursor of the row at position `k` of the ordered matches returns the
output ids of the next `pageSize` ordered matches and, when there is a row at position
`k + pageSize`, the external cursor of that row. -/
theorem combine_sql_page {ρ κ : Type} (e : Engine) (db : Database ρ κ) (query : Query κ)
    (p k : Nat) (cursor : Option GoString) (status : Status)
    (he : e ≠ Engine.EngineOther) (hwf : db.table.encodable e) (hdk : db.table.distinctKeys)
    (hfs : query.isFilterSet) (hp : 0 < p) (h32 : p + 1 < 2 ^ 32)
    (hst : db.status = some status)
    (hc : (cursor = none ∧ k = 0) ∨
      ∃ x, (orderedMatches db query)[k]? = some x ∧
        cursor = some (encodeCursor (db.table.created_at x) (db.table.output_id x))) :
    (combineOutputIDFilteredQuery (sqlIndexer e db) query p cursor).out =
      some
        { OutputIDs := (((orderedMatches db query).drop k).take p).map db.table.output_id
          LedgerIndex := status.LedgerIndex
          PageSize := p
          Cursor := ((orderedMatches db query)[k + p]?).map
            (fun r => encodeCursor (db.table.created_at r) (db.table.output_id r))
          Error := none } := by
  obtain ⟨q, hq, hfind⟩ := sqlFind_paged e db query p k cursor he hwf hdk hfs hp h32 hc
  rw [hst] at hfind
  have hq2 : pagedQuery (sqlIndexer e db).engine query p cursor = some (Except.ok q) := hq
  have hfind2 : (sqlIndexer e db).db.Find q = _ := hfind
  have hstat : (sqlIndexer e db).db.Status = Except.ok status := by
    simp [sqlIndexer, sqlStore, sqlStatus, hst]
  generalize hR : ((orderedMatches db query).drop k).take (p + 1) = R at hfind2
  have hRlen : R.length ≤ p + 1 := by
    rw [← hR]
    exact List.length_take_le _ _
  have hRmem : ∀ r ∈ R, r ∈ db.table.rows := by
    intro r hr
    rw [← hR] at hr
    exact mem_orderedMatches db query r (List.mem_of_mem_drop (List.mem_of_mem_take hr))
  simp only [combineOutputIDFilteredQuery, hq2, hfind2]
  rw [paging_eq _ p _ hp (by simpa using hRlen) h32]
  simp only [Option.some.injEq]
  have hids : queryResults.IDs (List.take p (List.map (fun r =>
        ({ OutputID := db.table.output_id r
           Cursor := engineCursor e (db.table.created_at r) (db.table.output_id r)
           LedgerIndex := status.LedgerIndex } : queryResult)) R)) =
      (((orderedMatches db query).drop k).take p).map db.table.output_id := by
    rw [queryResults.IDs, ← List.map_take, List.map_map]
    have htake : R.take p = ((orderedMatches db query).drop k).take p := by
      rw [← hR, List.take_take, Nat.min_eq_left (by omega)]
    rw [← htake]
    apply List.map_congr_left
    intro r hr
    exact ID_of_length _ (hwf r (hRmem r (List.mem_of_mem_take hr))).2.1
  have hcur : Option.map (fun lastResult : queryResult => ToLower lastResult.Cursor)
        ((List.map (fun r =>
          ({ OutputID := db.table.output_id r
             Cursor := engineCursor e (db.table.created_at r) (db.table.output_id r)
             LedgerIndex := status.LedgerIndex } : queryResult)) R)[p]?) =
      ((orderedMatches db query)[k + p]?).map
        (fun r => encodeCursor (db.table.created_at r) (db.table.output_id r)) := by
    have hget : R[p]? = (orderedMatches db query)[k + p]? := by
      rw [← hR, List.getElem?_take_of_lt (by omega), List.getElem?_drop]
    rw [List.getElem?_map, hget]
    cases hx : (orderedMatches db query)[k + p]? with
    | none => rfl
    | some r =>
      have hr : r ∈ db.table.rows := mem_orderedMatches db query r (List.getElem?_mem hx)
      simp only [Option.map_some']
      rw [ToLower_engineCursor e _ _ he (hwf r hr).1]
  rw [hids, hcur]
  clear hids hcur hR hRlen hRmem hfind2
  cases R with
  | nil => simp [hstat]
  | cons a as => rfl

/-- A page on which the engine finds no further row: every returned row is in the
result and there is no cursor. -/
theorem combine_last_page {κ : Type} (i : Indexer κ) (query q : Query κ) (p : Nat)
    (cursor : Option GoString) (results : List queryResult)
    (hq : pagedQuery i.engine query p cursor = some (Except.ok q))
    (hfind : i.db.Find q = Except.ok results)
    (hno : ¬ (p > 0 ∧ results.length % 2 ^ 32 > p)) :
    ∃ r, (combineOutputIDFilteredQuery i query p cursor).out = some r ∧
      r.OutputIDs = queryResults.IDs results ∧ r.Cursor = none ∧ r.Error = none := by
  simp only [combineOutputIDFilteredQuery, hq, hfind, if_neg hno]
  exact ⟨_, rfl, rfl, rfl, rfl⟩

/-- The rows of an ordered read whose select list has `output_id`, as output ids. -/
theorem IDs_resultRows {ρ κ : Type} (e : Engine) (db : Database ρ κ) (q : Query κ) (li : Nat)
    (rows : List ρ) (hwf : db.table.encodable e) (hrows : ∀ r ∈ rows, r ∈ db.table.rows)
    (hsel : q.selects.contains Column.output_id = true) :
    queryResults.IDs (rows.map (resultRow db.table q li)) = rows.map db.table.output_id := by
  rw [queryResults.IDs, List.map_map]
  apply List.map_congr_left
  intro r hr
  simp only [Function.comp, resultRow, hsel, true_or, if_true]
  exact ID_of_length _ (hwf r (hrows r hr)).2.1

/-- The unpaginated read of a filter set returns the output ids of all ordered
matches (none when the status table is empty). -/
theorem combine_sql_all {ρ κ : Type} (e : Engine) (db : Database ρ κ) (query : Query κ)
    (cursor : Option GoString)
    (hwf : db.table.encodable e) (hfs : query.isFilterSet) :
    ∃ r, (combineOutputIDFilteredQuery (sqlIndexer e db) query 0 cursor).out = some r ∧
      r.Error = none ∧ r.Cursor = none ∧
      r.OutputIDs =
        match db.status with
        | none => []
        | some _ => (orderedMatches db query).map db.table.output_id := by
  obtain ⟨hlim, htab⟩ := hfs
  have hal := all_isTable_any_usesAlias query.wheres htab
  have hpg := all_isTable_any_usesPostgres query.wheres htab
  have hq := pagedQuery_zero e query cursor
  have hfind := sqlFind_ok db ((query.Select [Column.output_id]).Order)
    (by simp [Query.aliasResolved, Query.Select, Query.Order, hal])
    (Or.inl (by simp [Query.usesPostgres, Query.Select, Query.Order, hpg]))
  have hsel := selectRows_unlimited db ((query.Select [Column.output_id]).Order) rfl
    (Or.inl hlim)
  cases hst : db.status with
  | none =>
    rw [hst] at hfind
    obtain ⟨r, hr, hids, hcur, herr⟩ := combine_last_page (sqlIndexer e db) query _ 0 cursor []
      hq hfind (by simp)
    exact ⟨r, hr, herr, hcur, hids⟩
  | some status =>
    rw [hst] at hfind
    obtain ⟨r, hr, hids, hcur, herr⟩ := combine_last_page (sqlIndexer e db) query _ 0 cursor _
      hq hfind (by simp)
    refine ⟨r, hr, herr, hcur, ?_⟩
    rw [hids, hsel]
    exact IDs_resultRows e db _ _ _ hwf (fun r hr => mem_orderedMatches db query r hr) rfl

/-- With an empty status table every page is empty and has no cursor. -/
theorem combine_sql_nostatus {ρ κ : Type} (e : Engine) (db : Database ρ κ) (query : Query κ)
    (p : Nat)
    (he : e ≠ Engine.EngineOther) (hwf : db.table.encodable e) (hdk : db.table.distinctKeys)
    (hfs : query.isFilterSet) (hp : 0 < p) (h32 : p + 1 < 2 ^ 32)
    (hst : db.status = none) :
    ∃ r, (combineOutputIDFilteredQuery (sqlIndexer e db) query p none).out = some r ∧
      r.OutputIDs = [] ∧ r.Cursor = none ∧ r.Error = none := by
  obtain ⟨q, hq, hfind⟩ :=
    sqlFind_paged e db query p 0 none he hwf hdk hfs hp h32 (Or.inl ⟨rfl, rfl⟩)
  rw [hst] at hfind
  exact combine_last_page (sqlIndexer e db) query q p none [] hq hfind (by simp)

/-- At the largest page size the limit `pageSize + 1` wraps to 0; a data layer that
leaves a zero limit out reads every ordered match, all of which are returned without
a cursor. -/
theorem combine_sql_wrapped {ρ κ : Type} (e : Engine) (db : Database ρ κ) (query : Query κ)
    (p : Nat)
    (he : e ≠ Engine.EngineOther) (hwf : db.table.encodable e)
    (hfs : query.isFilterSet) (hp : p + 1 = 2 ^ 32) (hz : db.zeroLimit = ZeroLimit.omitted) :
    ∃ r, (combineOutputIDFilteredQuery (sqlIndexer e db) query p none).out = some r ∧
      r.Error = none ∧ r.Cursor = none ∧
      r.OutputIDs =
        match db.status with
        | none => []
        | some _ => (orderedMatches db query).map db.table.output_id := by
  obtain ⟨hlim, htab⟩ := hfs
  have hal := all_isTable_any_usesAlias query.wheres htab
  have hpg := all_isTable_any_usesPostgres query.wheres htab
  have hp2 : p > 0 := by omega
  have hmod : (p + 1) % 2 ^ 32 = 0 := by rw [hp]; rfl
  have hno : ∀ n : Nat, ¬ (p > 0 ∧ n % 2 ^ 32 > p) := by
    intro n hh
    have := Nat.mod_lt n (show 0 < 2 ^ 32 by norm_num)
    omega
  have hpgrange : e = Engine.EnginePostgreSQL →
      ∀ r ∈ db.table.rows, db.table.created_at r < 2 ^ 31 := by
    intro h r hr
    have := (hwf r hr).1
    rw [h] at this
    exact this
  have main : ∀ q : Query κ, pagedQuery e query p none = some (Except.ok q) →
      q.aliasResolved = true →
      (q.usesPostgres = false ∨ ∀ r ∈ db.table.rows, db.table.created_at r < 2 ^ 31) →
      q.order = true → q.limit = some 0 → q.wheres = query.wheres →
      q.selects.contains Column.output_id = true →
      ∃ r, (combineOutputIDFilteredQuery (sqlIndexer e db) query p none).out = some r ∧
        r.Error = none ∧ r.Cursor = none ∧
        r.OutputIDs =
          match db.status with
          | none => []
          | some _ => (orderedMatches db query).map db.table.output_id := by
    intro q hq h1 h2 h3 h4 h5 h6
    have hfind := sqlFind_ok db q h1 h2
    have hsel := selectRows_unlimited db q h3 (Or.inr ⟨h4, hz⟩)
    rw [h5] at hsel
    cases hst : db.status with
    | none =>
      rw [hst] at hfind
      obtain ⟨r, hr, hids, hcur, herr⟩ :=
        combine_last_page (sqlIndexer e db) query q p none [] hq hfind (hno _)
      exact ⟨r, hr, herr, hcur, hids⟩
    | some status =>
      rw [hst] at hfind
      obtain ⟨r, hr, hids, hcur, herr⟩ :=
        combine_last_page (sqlIndexer e db) query q p none _ hq hfind (hno _)
      refine ⟨r, hr, herr, hcur, ?_⟩
      rw [hids, hsel]
      exact IDs_resultRows e db _ _ _ hwf (fun r hr => mem_orderedMatches db query r hr) h6
  cases e with
  | EngineOther => exact absurd rfl he
  | EngineSQLite =>
    refine main { wheres := query.wheres, selects := [Column.output_id, Column.cursorSQLite],
                  order := true, limit := some 0 } ?_ (by simp [Query.aliasResolved])
      (Or.inl (by simp [Query.usesPostgres, hpg])) rfl rfl rfl rfl
    simp [pagedQuery, paginationQuery, hp2, Query.Select, Query.Order, Query.Limit, hmod]
    omega
  | EnginePostgreSQL =>
    refine main { wheres := query.wheres, selects := [Column.output_id, Column.cursorPostgreSQL],
                  order := true, limit := some 0 } ?_ (by simp [Query.aliasResolved, hal])
      (Or.inr (hpgrange rfl)) rfl rfl rfl rfl
    simp [pagedQuery, paginationQuery, hp2, Query.Select, Query.Order, Query.Limit, hmod]
    omega

/-- Paging from position `k`: with enough fuel the client collects the output ids of
the ordered matches from position `k` on. -/
theorem collectPages_from {ρ κ : Type} (e : Engine) (db : Database ρ κ) (query : Query κ)
    (p : Nat) (status : Status)
    (he : e ≠ Engine.EngineOther) (hwf : db.table.encodable e) (hdk : db.table.distinctKeys)
    (hfs : query.isFilterSet) (hp : 0 < p) (h32 : p + 1 < 2 ^ 32)
    (hst : db.status = some status) :
    ∀ fuel k cursor,
      ((cursor = none ∧ k = 0) ∨
        ∃ x, (orderedMatches db query)[k]? = some x ∧
          cursor = some (encodeCursor (db.table.created_at x) (db.table.output_id x))) →
      (orderedMatches db query).length < fuel + k →
      collectPages (sqlIndexer e db) query p fuel cursor =
        some (((orderedMatches db query).drop k).map db.table.output_id) := by
  intro fuel
  induction fuel with
  | zero =>
    intro k cursor hc hlen
    exfalso
    rcases hc with ⟨_, hk⟩ | ⟨x, hx, _⟩
    · omega
    · have := (List.getElem?_eq_some.mp hx).1
      omega
  | succ n ih =>
    intro k cursor hc hlen
    have hpage := combine_sql_page e db query p k cursor status he hwf hdk hfs hp h32 hst hc
    rw [collectPages, hpage]
    simp only
    cases hx : (orderedMatches db query)[k + p]? with
    | none =>
      simp only [Option.map_none']
      have hle : ((orderedMatches db query).drop k).length ≤ p := by
        have := List.getElem?_eq_none_iff.mp hx
        rw [List.length_drop]
        omega
      rw [List.take_of_length_le hle]
    | some x =>
      simp only [Option.map_some']
      have hk : k + p < (orderedMatches db query).length := (List.getElem?_eq_some.mp hx).1
      rw [ih (k + p) _ (Or.inr ⟨x, hx, rfl⟩) (by omega)]
      simp only
      rw [← List.map_append]
      congr 2
      rw [← List.drop_drop]
      exact List.take_append_drop p _

theorem orderedMatches_length_le {ρ κ : Type} (db : Database ρ κ) (query : Query κ) :
    (orderedMatches db query).length ≤ db.table.rows.length := by
  rw [orderedMatches, List.length_insertionSort]
  exact List.length_filter_le _ _

/-- C1, below the wrap of the limit. Ordering stability: for a relational store whose
rows have distinct `(created_at, output_id)` pairs with `created_at` in the encodable
range of the engine and 34-byte output ids, every filter set and every `pageSize > 0`
whose limit `pageSize + 1` fits `uint32` (or that wraps to a zero limit the data layer
leaves out), a client that starts without cursor and follows the returned cursors
terminates, and the concatenated output ids of its pages are exactly the output ids of
the same filter set read with `pageSize = 0`, in the same order. -/
theorem pagination_stable {ρ κ : Type} (e : Engine) (db : Database ρ κ) (query : Query κ)
    (p fuel : Nat)
    (he : e ≠ Engine.EngineOther) (hwf : db.table.encodable e) (hdk : db.table.distinctKeys)
    (hfs : query.isFilterSet) (hp : 0 < p)
    (hlimit : p + 1 < 2 ^ 32 ∨ (p + 1 = 2 ^ 32 ∧ db.zeroLimit = ZeroLimit.omitted))
    (hfuel : db.table.rows.length < fuel) :
    ∃ all, (combineOutputIDFilteredQuery (sqlIndexer e db) query 0 none).out = some all ∧
      all.Error = none ∧ all.Cursor = none ∧
      collectPages (sqlIndexer e db) query p fuel none = some all.OutputIDs := by
  obtain ⟨r0, hr0, herr0, hcur0, hids0⟩ := combine_sql_all e db query none hwf hfs
  refine ⟨r0, hr0, herr0, hcur0, ?_⟩
  obtain ⟨n, rfl⟩ : ∃ n, fuel = n + 1 := ⟨fuel - 1, by omega⟩
  rcases hlimit with h32 | ⟨hwrap, hz⟩
  · cases hst : db.status with
    | none =>
      obtain ⟨r, hr, hids, hcur, herr⟩ :=
        combine_sql_nostatus e db query p he hwf hdk hfs hp h32 hst
      rw [hst] at hids0
      rw [collectPages, hr]
      simp only [herr, hcur, hids, hids0]
    | some status =>
      rw [hst] at hids0
      have hlen := orderedMatches_length_le db query
      rw [collectPages_from e db query p status he hwf hdk hfs hp h32 hst (n + 1) 0 none
        (Or.inl ⟨rfl, rfl⟩) (by omega), hids0, List.drop_zero]
  · obtain ⟨r, hr, herr, hcur, hids⟩ := combine_sql_wrapped e db query p he hwf hfs hwrap hz
    rw [collectPages, hr]
    simp only [herr, hcur, hids, hids0]

/-- C1 (failing input). Ordering stability breaks where the limit wraps: with
`pageSize = 4294967295` the engine asks for `LIMIT 0`; on a data layer that emits it
the first page of the three-row store is empty and carries no cursor, so the client
collects nothing, while the same filter set read with `pageSize = 0` returns the three
output ids. -/
theorem pagination_breaks_at_max_page_size :
    collectPages (sqlIndexer Engine.EngineSQLite (scenarioB ZeroLimit.literal))
        Query.Model 4294967295 4 none = some [] ∧
    (combineOutputIDFilteredQuery (sqlIndexer Engine.EngineSQLite (scenarioB ZeroLimit.literal))
        Query.Model 0 none).out =
      some { OutputIDs := [idA, idB, idC], LedgerIndex := 7, PageSize := 0, Cursor := none,
             Error := none } ∧
    (pagedQuery Engine.EngineSQLite (Query.Model : Query Empty) 4294967295 none).map
        (fun q => q.map (fun q => q.limit)) = some (Except.ok (some 0)) := by
  refine ⟨by rfl, by rfl, by rfl⟩

/-- The ordered matches of the unfiltered query over the three rows of Scenario B. -/
theorem scenarioB_ordered (A B C : List Nat) (rows : List (Nat × List Nat)) (status : Status)
    (z : ZeroLimit) (hAB : bytesLE A B = true ∧ A ≠ B)
    (hrows : rows.Perm [(1, A), (1, B), (2, C)]) :
    orderedMatches (keyDatabase rows status z) Query.Model = [(1, A), (1, B), (2, C)] := by
  have hBA : bytesLE B A = false := by
    cases h : bytesLE B A with
    | false => rfl
    | true => exact absurd (bytesLE_antisymm A B hAB.1 h) hAB.2
  have hnd : ([(1, A), (1, B), (2, C)] : List (Nat × List Nat)).Nodup := by
    simp [hAB.2]
  have hkeys : ((keyTable rows).rows.map
      (fun r => ((keyTable rows).created_at r, (keyTable rows).output_id r))).Nodup := by
    have : (keyTable rows).rows.map
        (fun r => ((keyTable rows).created_at r, (keyTable rows).output_id r)) = rows := by
      simp [keyTable]
    rw [this]
    exact hrows.nodup_iff.mpr hnd
  haveI : IsAntisymm (Nat × List Nat)
      (fun a b => rowLE (keyTable rows) a b = true ∧ rowLE (keyTable rows) b a = false) :=
    ⟨fun a b h1 h2 => by
      have := h1.2
      rw [h2.1] at this
      cases this⟩
  have hfilter : (keyDatabase rows status z).table.rows.filter
      (fun r => (Query.Model : Query Empty).wheres.all
        (fun c => Cond.holds (keyDatabase rows status z).table c r)) = rows := by
    simp [keyDatabase, keyTable, Query.Model]
  rw [orderedMatches, hfilter]
  refine List.eq_of_perm_of_sorted ((List.perm_insertionSort _ _).trans hrows)
    (sorted_strict (keyTable rows) rows hkeys) ?_
  simp [List.Sorted, rowLE, keyTable, hAB.1, hBA, bytesLE_refl]

/-- C3 (amended). Scenario B: with exactly the three rows `(1, A)`, `(1, B)`, `(2, C)`
stored, `A < B`, a query with page size 2 and no cursor returns `[A, B]` together with
the cursor that encodes `(2, C)`, the dropped third row; a second query with that
cursor and page size 2 returns `[C]` and no next cursor. (A query with the cursor that
encodes `(1, B)` returns `[B, C]` and no next cursor.) -/
theorem scenario_B (e : Engine) (z : ZeroLimit) (A B C : List Nat)
    (rows : List (Nat × List Nat)) (status : Status)
    (he : e ≠ Engine.EngineOther)
    (hA : isOutputID A) (hB : isOutputID B) (hC : isOutputID C)
    (hAB : bytesLE A B = true ∧ A ≠ B)
    (hrows : rows.Perm [(1, A), (1, B), (2, C)]) :
    (combineOutputIDFilteredQuery (sqlIndexer e (keyDatabase rows status z))
        Query.Model 2 none).out =
      some { OutputIDs := [A, B], LedgerIndex := status.LedgerIndex, PageSize := 2,
             Cursor := some (encodeCursor 2 C), Error := none } ∧
    (combineOutputIDFilteredQuery (sqlIndexer e (keyDatabase rows status z))
        Query.Model 2 (some (encodeCursor 2 C))).out =
      some { OutputIDs := [C], LedgerIndex := status.LedgerIndex, PageSize := 2,
             Cursor := none, Error := none } ∧
    (combineOutputIDFilteredQuery (sqlIndexer e (keyDatabase rows status z))
        Query.Model 2 (some (encodeCursor 1 B))).out =
      some { OutputIDs := [B, C], LedgerIndex := status.LedgerIndex, PageSize := 2,
             Cursor := none, Error := none } := by
  have hL := scenarioB_ordered A B C rows status z hAB hrows
  have hbound : 2 < e.createdAtBound := by
    cases e with
    | EngineOther => exact absurd rfl he
    | EngineSQLite => simp [Engine.createdAtBound]
    | EnginePostgreSQL => simp [Engine.createdAtBound]
  have hwf : (keyDatabase rows status z).table.encodable e := by
    intro r hr
    have hr2 : r ∈ [(1, A), (1, B), (2, C)] := hrows.mem_iff.mp hr
    simp only [List.mem_cons, List.mem_singleton, List.not_mem_nil, or_false] at hr2
    rcases hr2 with h | h | h <;> subst h
    · exact ⟨by simp only [keyDatabase, keyTable]; omega, hA.1, hA.2⟩
    · exact ⟨by simp only [keyDatabase, keyTable]; omega, hB.1, hB.2⟩
    · exact ⟨by simp only [keyDatabase, keyTable]; omega, hC.1, hC.2⟩
  have hdk : (keyDatabase rows status z).table.distinctKeys := by
    have : (keyTable rows).rows.map
        (fun r => ((keyTable rows).created_at r, (keyTable rows).output_id r)) = rows := by
      simp [keyTable]
    have hnd : rows.Nodup := hrows.nodup_iff.mpr (by simp [hAB.2])
    rw [← this] at hnd
    exact hnd
  have hfs : (Query.Model : Query Empty).isFilterSet := ⟨rfl, by simp [Query.Model]⟩
  have page := fun k cursor hc =>
    combine_sql_page e (keyDatabase rows status z) Query.Model 2 k cursor status he hwf hdk hfs
      (by norm_num) (by norm_num) rfl hc
  refine ⟨?_, ?_, ?_⟩
  · rw [page 0 none (Or.inl ⟨rfl, rfl⟩), hL]
    rfl
  · rw [page 2 (some (encodeCursor 2 C)) (Or.inr ⟨(2, C), by rw [hL]; rfl, rfl⟩), hL]
    rfl
  · rw [page 1 (some (encodeCursor 1 B)) (Or.inr ⟨(1, B), by rw [hL]; rfl, rfl⟩), hL]
    rfl

/-- C3 (as stated) fails: on the three-row store the first page `[A, B]` comes with
the cursor that encodes `(2, C)`, which is not the cursor that encodes `(1, B)`, and
the second query with the returned cursor yields `[C]`, not `[B, C]`. -/
theorem scenario_B_counterexample :
    (combineOutputIDFilteredQuery (sqlIndexer Engine.EngineSQLite (scenarioB ZeroLimit.literal))
        Query.Model 2 none).out =
      some { OutputIDs := [idA, idB], LedgerIndex := 7, PageSize := 2,
             Cursor := some (encodeCursor 2 idC), Error := none } ∧
    encodeCursor 2 idC ≠ encodeCursor 1 idB ∧
    (combineOutputIDFilteredQuery (sqlIndexer Engine.EngineSQLite (scenarioB ZeroLimit.literal))
        Query.Model 2 (some (encodeCursor 2 idC))).out =
      some { OutputIDs := [idC], LedgerIndex := 7, PageSize := 2, Cursor := none,
             Error := none } ∧
    [idC] ≠ [idB, idC] :=
  ⟨by rfl, by decide, by rfl, by decide⟩

theorem isOutputID_replicate (b : Nat) (h : b < 256) : isOutputID (List.replicate 34 b) := by
  refine ⟨by simp [OutputIDLength], ?_⟩
  intro x hx
  rw [List.eq_of_mem_replicate hx]
  exact h

/-- Witness of `scenario_B`: the identifiers `0xAA..`, `0xBB..`, `0xCC..` stored in
reverse order on PostgreSQL. -/
theorem scenario_B_witness :
    (isOutputID idA ∧ isOutputID idB ∧ isOutputID idC) ∧
    (bytesLE idA idB = true ∧ idA ≠ idB) ∧
    (combineOutputIDFilteredQuery
        (sqlIndexer Engine.EnginePostgreSQL (scenarioB ZeroLimit.omitted))
        Query.Model 2 none).out =
      some { OutputIDs := [idA, idB], LedgerIndex := statusSeven.LedgerIndex, PageSize := 2,
             Cursor := some (encodeCursor 2 idC), Error := none } :=
  ⟨⟨isOutputID_replicate 170 (by decide), isOutputID_replicate 187 (by decide),
      isOutputID_replicate 204 (by decide)⟩,
    ⟨by rfl, by decide⟩,
    (scenario_B Engine.EnginePostgreSQL ZeroLimit.omitted idA idB idC
      [(2, idC), (1, idB), (1, idA)] statusSeven (by decide)
      (isOutputID_replicate 170 (by decide)) (isOutputID_replicate 187 (by decide))
      (isOutputID_replicate 204 (by decide)) ⟨by rfl, by decide⟩
      (List.reverse_perm [(1, idA), (1, idB), (2, idC)])).1⟩

theorem scenarioB_encodable (e : Engine) (z : ZeroLimit) (he : e ≠ Engine.EngineOther) :
    (scenarioB z).table.encodable e := by
  have hbound : 2 < e.createdAtBound := by
    cases e with
    | EngineOther => exact absurd rfl he
    | EngineSQLite => simp [Engine.createdAtBound]
    | EnginePostgreSQL => simp [Engine.createdAtBound]
  intro r hr
  simp only [scenarioB, keyDatabase, keyTable, List.mem_cons, List.mem_singleton,
    List.not_mem_nil, or_false] at hr
  rcases hr with h | h | h <;> subst h
  · exact ⟨by simp only [scenarioB, keyDatabase, keyTable]; omega,
      (isOutputID_replicate 204 (by decide)).1, (isOutputID_replicate 204 (by decide)).2⟩
  · exact ⟨by simp only [scenarioB, keyDatabase, keyTable]; omega,
      (isOutputID_replicate 187 (by decide)).1, (isOutputID_replicate 187 (by decide)).2⟩
  · exact ⟨by simp only [scenarioB, keyDatabase, keyTable]; omega,
      (isOutputID_replicate 170 (by decide)).1, (isOutputID_replicate 170 (by decide)).2⟩

/-- Witness of `pagination_stable`: pages of one over the three-row store. -/
theorem pagination_stable_witness :
    ∃ all, (combineOutputIDFilteredQuery
        (sqlIndexer Engine.EngineSQLite (scenarioB ZeroLimit.literal)) Query.Model 0 none).out =
        some all ∧
      all.Error = none ∧ all.Cursor = none ∧
      collectPages (sqlIndexer Engine.EngineSQLite (scenarioB ZeroLimit.literal))
        Query.Model 1 4 none = some all.OutputIDs :=
  pagination_stable Engine.EngineSQLite (scenarioB ZeroLimit.literal) Query.Model 1 4
    (by decide) (scenarioB_encodable _ _ (by decide))
    (by simp [Table.distinctKeys, scenarioB, keyDatabase, keyTable]; decide)
    ⟨rfl, by simp [Query.Model]⟩ (by decide) (Or.inl (by decide)) (by decide)

/-- On a relational store every row of a joined read carries the ledger index of the
status row. -/
theorem sqlFind_ledger_index {ρ κ : Type} (db : Database ρ κ) (q : Query κ) (status : Status)
    (results : List queryResult) (hst : db.status = some status)
    (hfind : sqlFind db q = Except.ok results) :
    ∀ x ∈ results, x.LedgerIndex = status.LedgerIndex := by
  unfold sqlFind at hfind
  split_ifs at hfind
  rw [hst] at hfind
  simp only [Except.ok.injEq] at hfind
  subst hfind
  intro x hx
  obtain ⟨r, _, hr⟩ := List.mem_map.mp hx
  rw [← hr]
  rfl

/-- Ledger-index consistency on a relational store: whatever the filter, page size
and cursor, a result without error carries the ledger index of the status row, also
when no row matches (Scenario E). -/
theorem combine_sql_ledger_index {ρ κ : Type} (e : Engine) (db : Database ρ κ)
    (query : Query κ) (p : Nat) (cursor : Option GoString) (status : Status)
    (r : IndexerResult) (hst : db.status = some status)
    (hout : (combineOutputIDFilteredQuery (sqlIndexer e db) query p cursor).out = some r)
    (herr : r.Error = none) : r.LedgerIndex = status.LedgerIndex := by
  have hstat : (sqlIndexer e db).db.Status = Except.ok status := by
    simp [sqlIndexer, sqlStore, sqlStatus, hst]
  unfold combineOutputIDFilteredQuery at hout
  cases hq : pagedQuery (sqlIndexer e db).engine query p cursor with
  | none => simp [hq] at hout
  | some res =>
    cases res with
    | error err =>
      simp only [hq, Option.some.injEq] at hout
      subst hout
      simp [errorResult] at herr
    | ok q =>
      cases hf : (sqlIndexer e db).db.Find q with
      | error err =>
        simp only [hq, hf, Option.some.injEq] at hout
        subst hout
        simp [errorResult] at herr
      | ok results =>
        have hall := sqlFind_ledger_index db q status results hst hf
        simp only [hq, hf, Option.some.injEq] at hout
        subst hout
        cases results with
        | nil => simp [hstat]
        | cons first rest => exact hall first (List.mem_cons_self _ _)

/-! ### The by-id response -/

/-- C14: `singleOutputResponseFromResult` returns the not-found error exactly when
the result carries no error and has no output identifier; a result that carries an
error is answered with the internal-server error whatever its identifiers are;
every other result is answered with the response that lists its identifiers; and
`nftByID` answers with this rendering of the result of `NFTOutput`. -/
theorem single_output_not_found_mapping (result : IndexerResult) :
    ((∃ err, singleOutputResponseFromResult result = Except.error err ∧
        err.wraps = some Sentinel.ErrNotFound) ↔
      (result.Error = none ∧ result.OutputIDs.length = 0)) ∧
    (∀ err, result.Error = some err →
      singleOutputResponseFromResult result =
        Except.error (WithMessage Sentinel.ErrInternalServerError
          ("reading outputIDs failed: " ++ err.msg))) ∧
    (result.Error = none → result.OutputIDs.length ≠ 0 →
      ∃ resp, singleOutputResponseFromResult result = Except.ok resp ∧
        resp.Items = ToHex result.OutputIDs ∧
        resp.Items.length = result.OutputIDs.length ∧
        resp.LedgerIndex = result.LedgerIndex ∧ resp.PageSize = result.PageSize) ∧
    (∀ (s : IndexerServer) (nftID : List Nat),
      (NFTOutput s.Indexer nftID).out = some result →
        (nftByID (Except.ok nftID) s).out =
          some (singleOutputResponseFromResult result)) := by
  refine ⟨?_, ?_, ?_, ?_⟩
  · constructor
    · rintro ⟨err, he, hw⟩
      cases hE : result.Error with
      | some e0 =>
        simp [singleOutputResponseFromResult, hE] at he
        subst he
        simp [WithMessage] at hw
      | none =>
        refine ⟨rfl, ?_⟩
        by_contra hne
        simp [singleOutputResponseFromResult, hE, hne, outputsResponseFromResult] at he
    · rintro ⟨hE, hlen⟩
      exact ⟨WithMessage Sentinel.ErrNotFound "record not found",
        by simp [singleOutputResponseFromResult, hE, hlen], rfl⟩
  · intro err hE
    simp [singleOutputResponseFromResult, hE]
  · intro hE hne
    refine ⟨_, by simp [singleOutputResponseFromResult, hE, hne, outputsResponseFromResult]; rfl,
      rfl, by simp [ToHex], rfl, rfl⟩
  · intro s nftID hout
    simp [nftByID, hout]

/-! ### Errors of the engine at the HTTP layer -/

/-- The length check of the pagination block: a cursor whose length is not 76 ends
the query with the plain length error and no read. -/
theorem combine_bad_cursor {κ : Type} (i : Indexer κ) (query : Query κ) (pageSize : Nat)
    (c : GoString) (hp : 0 < pageSize) (heng : i.engine ≠ Engine.EngineOther)
    (hlen : len c ≠ CursorLength) :
    combineOutputIDFilteredQuery i query pageSize (some c) =
      { ops := [],
        out := some (errorResult (Errorf ("Invalid cursor length: " ++ toString (len c)))) } := by
  have hp2 : pageSize > 0 := hp
  cases he : i.engine with
  | EngineOther => exact absurd he heng
  | EngineSQLite => simp [combineOutputIDFilteredQuery, pagedQuery, paginationQuery, he, hp2, hlen]
  | EnginePostgreSQL =>
    simp [combineOutputIDFilteredQuery, pagedQuery, paginationQuery, he, hp2, hlen]

/-- C17 (as the code has it). When the engine rejects a cursor because its length is
not 76, the error of the result is the plain length error, which wraps no sentinel
and so is not of the invalid-parameter kind, and `outputsResponseFromResult` answers
it with an error that wraps the internal-server sentinel; the invalid-parameter
error for such a cursor is the one `parseCursorQueryParameter` returns, before any
query. -/
theorem engine_cursor_error_kind {κ : Type} (i : Indexer κ) (query : Query κ)
    (pageSize : Nat) (c : GoString)
    (hp : 0 < pageSize) (heng : i.engine ≠ Engine.EngineOther)
    (hlen : len c ≠ CursorLength) :
    ∃ r err resp,
      combineOutputIDFilteredQuery i query pageSize (some c) = { ops := [], out := some r } ∧
      r.Error = some err ∧
      err = Errorf ("Invalid cursor length: " ++ toString (len c)) ∧
      err.wraps = none ∧
      outputsResponseFromResult r = Except.error resp ∧
      resp = WithMessage Sentinel.ErrInternalServerError
        ("reading outputIDs failed: " ++ err.msg) ∧
      resp.wraps = some Sentinel.ErrInternalServerError ∧
      resp.wraps ≠ some Sentinel.ErrInvalidParameter ∧
      (∀ (s : IndexerServer) (ctx : Context) (size : GoString),
        ctx.QueryParam QueryParameter.Cursor = c ++ '.' :: size → '.' ∉ c → '.' ∉ size →
          parseCursorQueryParameter s ctx = Except.error cursorFormatError ∧
          cursorFormatError.wraps = some Sentinel.ErrInvalidParameter) := by
  refine ⟨_, _, _, combine_bad_cursor i query pageSize c hp heng hlen, rfl, rfl, rfl, ?_, rfl,
    rfl, by simp [WithMessage], ?_⟩
  · simp [outputsResponseFromResult, errorResult, Errorf]
  · intro s ctx size hq hc hs
    have hsplit : Split (ctx.QueryParam QueryParameter.Cursor) '.' = [c, size] := by
      rw [hq, Split_append_sep c size '.' hc, Split_of_not_mem size '.' hs]
    rw [parseCursor_of_split s ctx c size hsplit, if_pos hlen]
    exact ⟨rfl, rfl⟩

/-- Witness of `engine_cursor_error_kind`: the three-character cursor on the
three-row store. -/
theorem engine_cursor_error_kind_witness :
    len ['a', 'b', 'c'] ≠ CursorLength ∧
    ∃ r err resp,
      combineOutputIDFilteredQuery threeResultsIndexer Query.Model 2 (some ['a', 'b', 'c']) =
        { ops := [], out := some r } ∧
      r.Error = some err ∧
      err = Errorf ("Invalid cursor length: " ++ toString (len ['a', 'b', 'c'])) ∧
      err.wraps = none ∧
      outputsResponseFromResult r = Except.error resp ∧
      resp = WithMessage Sentinel.ErrInternalServerError
        ("reading outputIDs failed: " ++ err.msg) ∧
      resp.wraps = some Sentinel.ErrInternalServerError ∧
      resp.wraps ≠ some Sentinel.ErrInvalidParameter ∧
      (∀ (s : IndexerServer) (ctx : Context) (size : GoString),
        ctx.QueryParam QueryParameter.Cursor = ['a', 'b', 'c'] ++ '.' :: size →
          '.' ∉ ['a', 'b', 'c'] → '.' ∉ size →
          parseCursorQueryParameter s ctx = Except.error cursorFormatError ∧
          cursorFormatError.wraps = some Sentinel.ErrInvalidParameter) :=
  ⟨by decide,
    engine_cursor_error_kind threeResultsIndexer Query.Model 2 ['a', 'b', 'c']
      (by decide) (by decide) (by decide)⟩

/-- C17 (counterexample). The engine rejects the three-character cursor with an
error that is not of the invalid-parameter kind, and `outputsResponseFromResult`
reports it as an internal-server error. -/
theorem engine_cursor_error_kind_counterexample :
    ∃ r err resp,
      (combineOutputIDFilteredQuery threeResultsIndexer Query.Model 2
        (some ['a', 'b', 'c'])).out = some r ∧
      r.Error = some err ∧ err.msg = "Invalid cursor length: 3" ∧
      err.wraps ≠ some Sentinel.ErrInvalidParameter ∧
      outputsResponseFromResult r = Except.error resp ∧
      resp.wraps = some Sentinel.ErrInternalServerError ∧
      resp.wraps ≠ some Sentinel.ErrInvalidParameter :=
  ⟨errorResult (Errorf "Invalid cursor length: 3"), Errorf "Invalid cursor length: 3",
    WithMessage Sentinel.ErrInternalServerError
      "reading outputIDs failed: Invalid cursor length: 3",
    by decide, rfl, rfl, by decide, rfl, rfl, by decide⟩

/-! ### The read limit -/

/-- The limit of the pagination block: for a page size `p > 0` the handed query
carries the limit `(p + 1) mod 2^32`, and with `p = 0` the limit of the composed
query is left as it is. -/
theorem pagedQuery_limit {κ : Type} (e : Engine) (query : Query κ) (p : Nat)
    (cursor : Option GoString) (he : e ≠ Engine.EngineOther)
    (hc : ∀ c, cursor = some c → len c = CursorLength) :
    ∃ q, pagedQuery e query p cursor = some (Except.ok q) ∧
      q.limit = if p > 0 then some ((((p + 1) % 2 ^ 32 : Nat) : Int)) else query.limit := by
  by_cases hp : p > 0
  · cases e with
    | EngineOther => exact absurd rfl he
    | EngineSQLite =>
      cases cursor with
      | none => exact ⟨_, by simp [pagedQuery, paginationQuery, hp]; rfl, by simp [hp]; rfl⟩
      | some c =>
        have hl := hc c rfl
        exact ⟨_, by simp [pagedQuery, paginationQuery, hp, hl]; rfl, by simp [hp]; rfl⟩
    | EnginePostgreSQL =>
      cases cursor with
      | none => exact ⟨_, by simp [pagedQuery, paginationQuery, hp]; rfl, by simp [hp]; rfl⟩
      | some c =>
        have hl := hc c rfl
        exact ⟨_, by simp [pagedQuery, paginationQuery, hp, hl]; rfl, by simp [hp]; rfl⟩
  · have h0 : p = 0 := by omega
    subst h0
    exact ⟨_, pagedQuery_zero e query cursor, by simp; rfl⟩

/-- The read limit below the wrap: for every page size `p > 0` with `p + 1 < 2^32`
the handed query carries the limit `p + 1`, so a store that honours the limit
returns at most `p + 1` rows and the result carries at most `p` output ids; with
`p = 0` the pagination step leaves the limit of the composed query as it is. -/
theorem read_limit_below_wrap {κ : Type} (i : Indexer κ) (query : Query κ) (p : Nat)
    (cursor : Option GoString) (he : i.engine ≠ Engine.EngineOther)
    (hc : ∀ c, cursor = some c → len c = CursorLength) (h32 : p + 1 < 2 ^ 32) :
    ∃ q, pagedQuery i.engine query p cursor = some (Except.ok q) ∧
      (0 < p → q.limit = some ((p : Int) + 1)) ∧
      (p = 0 → q.limit = query.limit) ∧
      (0 < p → ∀ results, i.db.Find q = Except.ok results → results.length ≤ p + 1 →
        ∃ r, (combineOutputIDFilteredQuery i query p cursor).out = some r ∧
          r.OutputIDs.length ≤ p) := by
  obtain ⟨q, hq, hl⟩ := pagedQuery_limit i.engine query p cursor he hc
  refine ⟨q, hq, ?_, ?_, ?_⟩
  · intro hp
    have hp2 : p > 0 := hp
    rw [hl, if_pos hp2, Nat.mod_eq_of_lt h32]
    simp
  · intro hp
    rw [hl, hp]
    simp
  · intro hp results hfind hlen
    have hp2 : p > 0 := hp
    simp only [combineOutputIDFilteredQuery, hq, hfind]
    have hmod : results.length % 2 ^ 32 = results.length := Nat.mod_eq_of_lt (by omega)
    by_cases hgt : results.length > p
    · have hcond : p > 0 ∧ results.length % 2 ^ 32 > p := ⟨hp2, by omega⟩
      refine ⟨_, by rw [if_pos hcond], ?_⟩
      simp [queryResults.IDs]
      omega
    · have hcond : ¬ (p > 0 ∧ results.length % 2 ^ 32 > p) := by
        rintro ⟨_, h⟩
        omega
      refine ⟨_, by rw [if_neg hcond], ?_⟩
      simp [queryResults.IDs]
      omega

/-- C18 (failing input). With `pageSize = 4294967295` the limit the engine applies
is not `pageSize + 1 = 4294967296`: on either engine the handed query carries the
limit 0, with which the relational store of three rows returns no row when the data
layer emits `LIMIT 0` and all three rows when it omits it. -/
theorem read_limit_wraps_at_max_page_size :
    (∃ q, pagedQuery Engine.EngineSQLite (Query.Model : Query Empty) 4294967295 none =
        some (Except.ok q) ∧
      q.limit = some 0 ∧ q.limit ≠ some (4294967295 + 1) ∧
      (selectRows (scenarioB ZeroLimit.literal) q).length = 0 ∧
      (selectRows (scenarioB ZeroLimit.omitted) q).length = 3) ∧
    (∃ q, pagedQuery Engine.EnginePostgreSQL (Query.Model : Query Empty) 4294967295 none =
        some (Except.ok q) ∧
      q.limit = some 0 ∧ q.limit ≠ some (4294967295 + 1) ∧
      (selectRows (scenarioB ZeroLimit.literal) q).length = 0 ∧
      (selectRows (scenarioB ZeroLimit.omitted) q).length = 3) :=
  ⟨⟨_, rfl, rfl, by decide, by rfl, by rfl⟩, ⟨_, rfl, rfl, by decide, by rfl, by rfl⟩⟩

/-! ### Rendering and parsing of the API cursor -/

theorem decimalDigit_ofNat (d : Nat) (h : d < 10) : decimalDigit (Char.ofNat (48 + d)) = some d := by
  interval_cases d <;> rfl

theorem ofNat_digit_ne_dot (d : Nat) (h : d < 10) : Char.ofNat (48 + d) ≠ '.' := by
  interval_cases d <;> decide

theorem decimalValue_append (xs ys : GoString) :
    ∀ acc, decimalValue (xs ++ ys) acc = (decimalValue xs acc).bind (decimalValue ys) := by
  induction xs with
  | nil => intro acc; simp [decimalValue]
  | cons ch rest ih =>
    intro acc
    rw [List.cons_append, decimalValue, decimalValue]
    cases decimalDigit ch with
    | none => rfl
    | some d => exact ih _

theorem decimalDigitsOf_lt : ∀ fuel n, ∀ d ∈ decimalDigitsOf fuel n, d < 10 := by
  intro fuel
  induction fuel with
  | zero => intro n d hd; simp [decimalDigitsOf] at hd
  | succ f ih =>
    intro n d hd
    rw [decimalDigitsOf] at hd
    split_ifs at hd with hlt
    · simp at hd
      omega
    · rcases List.mem_append.mp hd with h | h
      · exact ih _ d h
      · simp at h
        omega

theorem decimalDigitsOf_ne_nil (fuel n : Nat) : decimalDigitsOf (fuel + 1) n ≠ [] := by
  rw [decimalDigitsOf]
  split_ifs <;> simp

/-- The digits of a number read back as the number, when the fuel covers them. -/
theorem decimalValue_digits : ∀ fuel n, n < 10 ^ fuel →
    decimalValue ((decimalDigitsOf fuel n).map (fun d => Char.ofNat (48 + d))) 0 = some n := by
  intro fuel
  induction fuel with
  | zero =>
    intro n hn
    have h0 : n = 0 := by simpa using hn
    subst h0
    rfl
  | succ f ih =>
    intro n hn
    rw [decimalDigitsOf]
    split_ifs with hlt
    · simp [decimalValue, decimalDigit_ofNat n hlt]
    · have hq : n / 10 < 10 ^ f := by
        rw [Nat.div_lt_iff_lt_mul (by norm_num)]
        rw [pow_succ] at hn
        exact hn
      rw [List.map_append, decimalValue_append, ih _ hq]
      simp only [List.map_cons, List.map_nil, Option.some_bind, decimalValue,
        decimalDigit_ofNat (n % 10) (Nat.mod_lt _ (by norm_num))]
      congr 1
      omega

theorem ParseUint_formatDecimal (n b : Nat) (h : n < 2 ^ b) :
    ParseUint (formatDecimal n) b = some n := by
  have hne : formatDecimal n ≠ [] := by
    unfold formatDecimal
    intro h0
    exact decimalDigitsOf_ne_nil n n (List.map_eq_nil_iff.mp h0)
  have hfuel : n < 10 ^ (n + 1) :=
    lt_trans (Nat.lt_pow_self (by norm_num) n) (Nat.pow_lt_pow_right (by norm_num) (by omega))
  have hv : decimalValue (formatDecimal n) 0 = some n := decimalValue_digits (n + 1) n hfuel
  simp [ParseUint, hne, hv, h]

theorem formatDecimal_no_dot (n : Nat) : '.' ∉ formatDecimal n := by
  unfold formatDecimal
  intro hmem
  obtain ⟨d, hd, he⟩ := List.mem_map.mp hmem
  exact ofNat_digit_ne_dot d (decimalDigitsOf_lt _ _ d hd) he

/-- C19. Cursor round trip: for a result without error whose cursor `c` is 76 bytes
long and has no `.`, and whose page size `n` fits `uint32`,
`outputsResponseFromResult` renders the API cursor `c.n`, and
`parseCursorQueryParameter`, on a request that carries this text under a maximum `M`
representable as `uint32`, accepts it and returns `c` with the page size
`min(n, M)`. -/
theorem cursor_round_trip (s : IndexerServer) (ctx : Context) (result : IndexerResult)
    (c : GoString) (n : Nat)
    (hlen : len c = CursorLength) (hdot : '.' ∉ c) (hn : n < 2 ^ 32)
    (hM0 : 0 ≤ s.RestAPILimitsMaxResults) (hM1 : s.RestAPILimitsMaxResults < 2 ^ 32)
    (herr : result.Error = none) (hcur : result.Cursor = some c)
    (hps : result.PageSize = n) :
    ∃ resp rendered, outputsResponseFromResult result = Except.ok resp ∧
      resp.Cursor = some rendered ∧
      rendered = c ++ '.' :: formatDecimal n ∧
      (ctx.QueryParam QueryParameter.Cursor = rendered →
        parseCursorQueryParameter s ctx =
          Except.ok (c, min n s.RestAPILimitsMaxResults.toNat)) := by
  refine ⟨_, c ++ '.' :: formatDecimal n,
    by simp only [outputsResponseFromResult, herr, hcur, hps]; rfl, rfl, rfl, ?_⟩
  intro hq
  have hsplit : Split (ctx.QueryParam QueryParameter.Cursor) '.' = [c, formatDecimal n] := by
    rw [hq, Split_append_sep c _ '.' hdot, Split_of_not_mem _ '.' (formatDecimal_no_dot n)]
  rw [parseCursor_of_split s ctx c _ hsplit, if_neg (by simp [hlen]),
    ParseUint_formatDecimal n 32 hn, uint32OfInt_of_range _ hM0 hM1]
  simp only [Nat.mod_eq_of_lt hn]
  congr 2
  split_ifs with h
  · omega
  · omega

/-- Witness of `cursor_round_trip`: the cursor of the pair `(1, A)` with page size 5000
under the maximum 1000 is parsed back with page size 1000. -/
theorem cursor_round_trip_witness :
    (len (encodeCursor 1 idA) = CursorLength ∧ '.' ∉ encodeCursor 1 idA ∧
      (5000 : Nat) < 2 ^ 32 ∧ (0 : Int) ≤ (exampleServer 1000).RestAPILimitsMaxResults ∧
      (exampleServer 1000).RestAPILimitsMaxResults < 2 ^ 32) ∧
    ∃ resp rendered,
      outputsResponseFromResult
          { OutputIDs := [idA], LedgerIndex := 7, PageSize := 5000,
            Cursor := some (encodeCursor 1 idA), Error := none } = Except.ok resp ∧
      resp.Cursor = some rendered ∧
      rendered = encodeCursor 1 idA ++ '.' :: formatDecimal 5000 ∧
      ((cursorRequest (encodeCursor 1 idA ++ '.' :: formatDecimal 5000)).QueryParam
          QueryParameter.Cursor = rendered →
        parseCursorQueryParameter (exampleServer 1000)
            (cursorRequest (encodeCursor 1 idA ++ '.' :: formatDecimal 5000)) =
          Except.ok (encodeCursor 1 idA,
            min 5000 (exampleServer 1000).RestAPILimitsMaxResults.toNat)) :=
  ⟨⟨by decide, by decide, by decide, by decide, by decide⟩,
    cursor_round_trip (exampleServer 1000)
      (cursorRequest (encodeCursor 1 idA ++ '.' :: formatDecimal 5000))
      { OutputIDs := [idA], LedgerIndex := 7, PageSize := 5000,
        Cursor := some (encodeCursor 1 idA), Error := none }
      (encodeCursor 1 idA) 5000 (by decide) (by decide) (by decide) (by decide) (by decide)
      rfl rfl rfl⟩

/-! ### The cursor encoding -/

theorem hexValue_hexDigitLower (d : Nat) (h : d < 16) : hexValue (hexDigitLower d) = some d := by
  interval_cases d <;> rfl

theorem isHexChar_hexDigitLower (d : Nat) : isHexChar (hexDigitLower d) = true := by
  by_cases h : d < 16
  · interval_cases d <;> rfl
  · have h15 : hexDigitLower d = 'f' := by
      unfold hexDigitLower
      split <;> first | omega | rfl
    rw [h15]
    rfl

theorem hexValues_lowerHex (ds : List Nat) (h : ∀ d ∈ ds, d < 16) :
    hexValues (ds.map hexDigitLower) = some ds := by
  induction ds with
  | nil => rfl
  | cons d rest ih =>
    have h1 := hexValue_hexDigitLower d (h d (List.mem_cons_self _ _))
    have h2 := ih (fun x hx => h x (List.mem_cons_of_mem _ hx))
    simp [hexValues, h1, h2]

theorem bytesOfNibbles_nibbles (o : List Nat) (h : ∀ b ∈ o, b < 256) :
    bytesOfNibbles (nibbles o) = some o := by
  induction o with
  | nil => rfl
  | cons b rest ih =>
    have hb := h b (List.mem_cons_self _ _)
    have h2 := ih (fun x hx => h x (List.mem_cons_of_mem _ hx))
    simp only [nibbles, bytesOfNibbles, h2, Option.map_some', Option.some.injEq,
      List.cons.injEq, and_true]
    omega

theorem valueOfDigits_fixedHex8 (t : Nat) (h : t < 2 ^ 32) : valueOfDigits (fixedHex8 t) = t := by
  simp only [valueOfDigits, fixedHex8, List.foldl]
  omega

/-- The reference decoding inverts the external encoding. -/
theorem decodeCursor_encodeCursor (t : Nat) (o : List Nat) (ht : t < 2 ^ 32)
    (ho : isOutputID o) : decodeCursor (encodeCursor t o) = some (t, o) := by
  have hlen : (encodeCursor t o).length = CursorLength := by
    simp [encodeCursor, fixedHex8, nibbles_length, ho.1, OutputIDLength, CursorLength]
  have hv : hexValues (encodeCursor t o) = some (fixedHex8 t ++ nibbles o) :=
    hexValues_lowerHex _ (cursorDigits_lt t o)
  have h8 : (fixedHex8 t).length = 8 := rfl
  have hd : (fixedHex8 t ++ nibbles o).drop 8 = nibbles o := by
    rw [← h8, List.drop_left]
  have htk : (fixedHex8 t ++ nibbles o).take 8 = fixedHex8 t := by
    rw [← h8, List.take_left]
  simp only [decodeCursor, hlen, hv, hd, htk, bytesOfNibbles_nibbles o ho.2,
    valueOfDigits_fixedHex8 t ht]
  simp

/-- The properties of the external encoding on the unsigned 32-bit range: it is
what the SQLite expression yields once lower-cased, and what the PostgreSQL
expression yields for `created_at` below `2^31`; it is 76 hexadecimal characters;
the reference decoding inverts it, so it is injective; and two pairs compare as
their encodings do, lower-cased or upper-cased. -/
theorem cursor_encoding_properties (t1 t2 : Nat) (o1 o2 : List Nat)
    (ht1 : t1 < 2 ^ 32) (ht2 : t2 < 2 ^ 32) (ho1 : isOutputID o1) (ho2 : isOutputID o2) :
    ToLower (sqliteCursorExpr t1 o1) = encodeCursor t1 o1 ∧
    (t1 < 2 ^ 31 → pgCursorExpr t1 o1 = Except.ok (encodeCursor t1 o1)) ∧
    (encodeCursor t1 o1).length = 76 ∧ len (encodeCursor t1 o1) = 76 ∧
    (∀ ch ∈ encodeCursor t1 o1, isHexChar ch = true) ∧
    decodeCursor (encodeCursor t1 o1) = some (t1, o1) ∧
    (encodeCursor t1 o1 = encodeCursor t2 o2 → t1 = t2 ∧ o1 = o2) ∧
    strLE (encodeCursor t1 o1) (encodeCursor t2 o2) = pairLE (t1, o1) (t2, o2) ∧
    strLE (ToUpper (encodeCursor t1 o1)) (ToUpper (encodeCursor t2 o2)) =
      pairLE (t1, o1) (t2, o2) := by
  refine ⟨?_, ?_, ?_, len_encodeCursor t1 o1 ho1.1, ?_,
    decodeCursor_encodeCursor t1 o1 ht1 ho1, ?_, ?_, ?_⟩
  · rw [sqliteCursorExpr_eq t1 o1 ht1, ToLower_upperHex, encodeCursor]
  · intro h31
    rw [pgCursorExpr, if_pos h31, pgCursorText_eq t1 o1 ht1]
  · simp [encodeCursor, fixedHex8, nibbles_length, ho1.1, OutputIDLength]
  · intro ch hch
    obtain ⟨d, _, hd⟩ := List.mem_map.mp hch
    rw [← hd]
    exact isHexChar_hexDigitLower d
  · intro heq
    have h1 := decodeCursor_encodeCursor t1 o1 ht1 ho1
    have h2 := decodeCursor_encodeCursor t2 o2 ht2 ho2
    rw [heq, h2] at h1
    simpa [eq_comm] using h1
  · rw [encodeCursor, encodeCursor,
      strLE_lowerHex _ _ (cursorDigits_lt t1 o1) (cursorDigits_lt t2 o2),
      bytesLE_cursorDigits t1 t2 o1 o2 ht1 ht2 ho1.2 ho2.2]
    rfl
  · rw [encodeCursor, encodeCursor, ToUpper_lowerHex, ToUpper_lowerHex,
      strLE_upperHex _ _ (cursorDigits_lt t1 o1) (cursorDigits_lt t2 o2),
      bytesLE_cursorDigits t1 t2 o1 o2 ht1 ht2 ho1.2 ho2.2]
    rfl

/-- C15 (failing input). For the pair `(2147483649, B)` the encoding is not computed
by the cursor expression of the PostgreSQL engine: a page of one over the two rows
booked from `2^31` seconds on ends with the error of the cast to `integer` and no
cursor, whereas the SQLite engine returns the first output id and the 76-character
cursor of `(2147483649, B)`, which decodes to that pair. -/
theorem cursor_encoding_fails_on_postgres :
    (combineOutputIDFilteredQuery (sqlIndexer Engine.EnginePostgreSQL (lateRows ZeroLimit.literal))
        Query.Model 1 none).out = some (errorResult (Errorf "integer out of range")) ∧
    (combineOutputIDFilteredQuery (sqlIndexer Engine.EngineSQLite (lateRows ZeroLimit.literal))
        Query.Model 1 none).out =
      some { OutputIDs := [idA], LedgerIndex := 7, PageSize := 1,
             Cursor := some (encodeCursor 2147483649 idB), Error := none } ∧
    len (encodeCursor 2147483649 idB) = 76 ∧
    decodeCursor (encodeCursor 2147483649 idB) = some (2147483649, idB) := by
  refine ⟨by rfl, by rfl, by decide, by rfl⟩

/-! ### The two dialects of the cursor expression -/

/-- The dialects below `2^31`: for every `created_at` below `2^31` and every 34-byte
output id the SQLite expression, lower-cased, and the PostgreSQL expression yield
the same text of 76 characters, the eight hexadecimal digits of `created_at` followed
by the lower-case hexadecimal text of the output id. -/
theorem dialects_agree_below_cast_bound (t : Nat) (o : List Nat) (ht : t < 2 ^ 31)
    (ho : isOutputID o) :
    pgCursorExpr t o = Except.ok (ToLower (sqliteCursorExpr t o)) ∧
    ToLower (sqliteCursorExpr t o) = encodeCursor t o ∧
    len (encodeCursor t o) = 76 ∧ (encodeCursor t o).length = 76 := by
  have h32 : t < 2 ^ 32 := by omega
  have hs : ToLower (sqliteCursorExpr t o) = encodeCursor t o := by
    rw [sqliteCursorExpr_eq t o h32, ToLower_upperHex, encodeCursor]
  refine ⟨?_, hs, len_encodeCursor t o ho.1, ?_⟩
  · rw [hs, pgCursorExpr, if_pos ht, pgCursorText_eq t o h32]
  · simp [encodeCursor, fixedHex8, nibbles_length, ho.1, OutputIDLength]

/-- C16 (failing input). At `created_at = 2147483648`, an unsigned 32-bit value, the
two expressions do not produce the same text: the SQLite expression, lower-cased,
is the 76-character encoding that starts with `80000000`, while the PostgreSQL
expression fails in the cast to `integer`; the same holds at `4294967295`. -/
theorem dialects_differ_from_cast_bound :
    ToLower (sqliteCursorExpr 2147483648 idA) = encodeCursor 2147483648 idA ∧
    (encodeCursor 2147483648 idA).take 8 = ['8', '0', '0', '0', '0', '0', '0', '0'] ∧
    len (encodeCursor 2147483648 idA) = 76 ∧
    pgCursorExpr 2147483648 idA = Except.error (Errorf "integer out of range") ∧
    ToLower (sqliteCursorExpr 4294967295 idA) = encodeCursor 4294967295 idA ∧
    pgCursorExpr 4294967295 idA = Except.error (Errorf "integer out of range") := by
  refine ⟨by decide, by decide, by decide, by rfl, by decide, by rfl⟩

/-! ### The single-row lookup -/

/-- The engine without pagination: one joined read of the selected and ordered
query, a result with page size 0 and no cursor. -/
theorem combine_unpaged {κ : Type} (i : Indexer κ) (query : Query κ)
    (cursor : Option GoString) :
    ∃ r, (combineOutputIDFilteredQuery i query 0 cursor).out = some r ∧
      r.PageSize = 0 ∧ r.Cursor = none ∧
      (∀ err, i.db.Find ((query.Select [Column.output_id]).Order) = Except.error err →
        r = errorResult err) ∧
      (∀ results, i.db.Find ((query.Select [Column.output_id]).Order) = Except.ok results →
        r.OutputIDs = queryResults.IDs results ∧ r.Error = none) := by
  simp only [combineOutputIDFilteredQuery, pagedQuery_zero]
  cases hf : i.db.Find ((query.Select [Column.output_id]).Order) with
  | error err =>
    refine ⟨_, rfl, rfl, rfl, ?_, ?_⟩
    · intro err2 h2
      cases h2
      rfl
    · intro results h2
      cases h2
  | ok results =>
    refine ⟨_, rfl, rfl, ?_, ?_, ?_⟩
    · simp
    · intro err2 h2
      cases h2
    · intro rs h2
      cases h2
      simp

/-- The read of `NFTOutput` against a database: the first row, in the order
`(created_at, output_id)`, among those whose `nft_id` is the given one. -/
theorem sqlFind_nft_lookup (db : Database nft NFTCond) (nftID : List Nat) :
    sqlFind db (((((Query.Model).Where (Cond.table (NFTCond.nftIDEq nftID))).Limit 1).Select
        [Column.output_id]).Order) =
      match db.status with
      | none => Except.ok []
      | some status =>
        Except.ok (((List.insertionSort (fun a b => rowLE db.table a b = true)
          (db.table.rows.filter (fun r => db.table.holds (NFTCond.nftIDEq nftID) r))).take 1).map
            (fun r => { OutputID := db.table.output_id r, Cursor := [],
                        LedgerIndex := status.LedgerIndex })) := by
  rw [sqlFind_ok db _ (by rfl) (Or.inl (by rfl))]
  cases db.status with
  | none => rfl
  | some status =>
    simp only
    rw [selectRows_limited db _ 0 rfl rfl]
    simp only [Query.Order, Query.Select, Query.Limit, Query.Where, Query.Model, Cond.holds,
      List.nil_append, List.all_cons, List.all_nil, Bool.and_true, List.map_take]
    rfl

/-- The relational store honours `LIMIT 1`. -/
theorem sqlFind_limit_one {ρ κ : Type} (db : Database ρ κ) (q : Query κ)
    (results : List queryResult) (hl : q.limit = some 1)
    (hfind : sqlFind db q = Except.ok results) : results.length ≤ 1 := by
  unfold sqlFind at hfind
  split_ifs at hfind
  cases hst : db.status with
  | none =>
    rw [hst] at hfind
    cases hfind
    simp
  | some status =>
    rw [hst] at hfind
    cases hfind
    simp [selectRows, hl, applyLimit]

/-- C13. Single-row lookup: on every store that honours `LIMIT 1`, `NFTOutput`
returns a result with page size 0, no cursor and at most one output id, and when the
read finds no row the result has no output id and no error; on the relational store
of NFT rows the result has no error, and no output id when no row has the given
`nft_id`; and on the store of Scenario A (the single row, status at ledger index 42)
the result is the output id of the row with ledger index 42, no cursor, page size 0
and no error. -/
theorem nft_output_single_row (i : Indexer NFTCond) (nftID : List Nat)
    (hlimit : ∀ q results, q.limit = some 1 → i.db.Find q = Except.ok results →
      results.length ≤ 1) :
    (∃ r, (NFTOutput i nftID).out = some r ∧
      r.PageSize = 0 ∧ r.Cursor = none ∧ r.OutputIDs.length ≤ 1 ∧
      (i.db.Find (((((Query.Model).Where (Cond.table (NFTCond.nftIDEq nftID))).Limit 1).Select
          [Column.output_id]).Order) = Except.ok [] →
        r.OutputIDs = [] ∧ r.Error = none)) ∧
    (∀ (e : Engine) (rows : List nft) (status : Option Status) (z : ZeroLimit),
      ∃ r, (NFTOutput (sqlIndexer e { table := nftTable rows, status := status, zeroLimit := z })
          nftID).out = some r ∧
        r.Error = none ∧ r.PageSize = 0 ∧ r.Cursor = none ∧ r.OutputIDs.length ≤ 1 ∧
        ((∀ row ∈ rows, row.NFTID ≠ nftID) → r.OutputIDs = [])) ∧
    (∀ (e : Engine) (z : ZeroLimit),
      (NFTOutput (sqlIndexer e (scenarioA z)) (List.replicate 32 1)).out =
        some { OutputIDs := [idA], LedgerIndex := 42, PageSize := 0, Cursor := none,
               Error := none }) := by
  refine ⟨?_, ?_, ?_⟩
  · obtain ⟨r, hr, hps, hcur, herr, hok⟩ :=
      combine_unpaged i (((Query.Model).Where (Cond.table (NFTCond.nftIDEq nftID))).Limit 1) none
    refine ⟨r, hr, hps, hcur, ?_, ?_⟩
    · cases hf : i.db.Find (((((Query.Model).Where
          (Cond.table (NFTCond.nftIDEq nftID))).Limit 1).Select [Column.output_id]).Order) with
      | error err =>
        rw [herr err hf]
        simp [errorResult]
      | ok results =>
        rw [(hok results hf).1]
        simpa [queryResults.IDs] using hlimit _ results rfl hf
    · intro hf
      have h := hok [] hf
      exact ⟨by rw [h.1]; rfl, h.2⟩
  · intro e rows status z
    obtain ⟨r, hr, hps, hcur, _, hok⟩ :=
      combine_unpaged (sqlIndexer e { table := nftTable rows, status := status, zeroLimit := z })
        (((Query.Model).Where (Cond.table (NFTCond.nftIDEq nftID))).Limit 1) none
    have hfind := sqlFind_nft_lookup { table := nftTable rows, status := status, zeroLimit := z }
      nftID
    cases status with
    | none =>
      have h := hok [] hfind
      refine ⟨r, hr, h.2, hps, hcur, by rw [h.1]; simp [queryResults.IDs], ?_⟩
      intro _
      rw [h.1]
      rfl
    | some st =>
      have h := hok _ hfind
      refine ⟨r, hr, h.2, hps, hcur, ?_, ?_⟩
      · rw [h.1]
        simp only [queryResults.IDs, List.length_map, List.length_take]
        omega
      · intro hno
        have hfilter : (nftTable rows).rows.filter
            (fun r => (nftTable rows).holds (NFTCond.nftIDEq nftID) r) = [] := by
          rw [List.filter_eq_nil_iff]
          intro row hrow
          have := hno row hrow
          simpa [nftTable, NFTCond.holds] using this
        rw [h.1]
        simp only [hfilter]
        rfl
  · intro e z
    cases e <;> cases z <;> rfl

/-- Witness of `nft_output_single_row`: the lookup of Scenario A on the relational
store, which honours `LIMIT 1`. -/
theorem nft_output_single_row_witness :
    (∀ q results, q.limit = some 1 →
      (sqlIndexer Engine.EngineSQLite (scenarioA ZeroLimit.literal)).db.Find q =
        Except.ok results → results.length ≤ 1) ∧
    (∃ r, (NFTOutput (sqlIndexer Engine.EngineSQLite (scenarioA ZeroLimit.literal))
        (List.replicate 32 1)).out = some r ∧
      r.PageSize = 0 ∧ r.Cursor = none ∧ r.OutputIDs.length ≤ 1 ∧
      ((sqlIndexer Engine.EngineSQLite (scenarioA ZeroLimit.literal)).db.Find
          (((((Query.Model).Where (Cond.table (NFTCond.nftIDEq (List.replicate 32 1)))).Limit
            1).Select [Column.output_id]).Order) = Except.ok [] →
        r.OutputIDs = [] ∧ r.Error = none)) ∧
    (NFTOutput (sqlIndexer Engine.EngineSQLite (scenarioA ZeroLimit.literal))
        (List.replicate 32 1)).out =
      some { OutputIDs := [idA], LedgerIndex := 42, PageSize := 0, Cursor := none,
             Error := none } :=
  ⟨fun q results hl hf => sqlFind_limit_one (scenarioA ZeroLimit.literal) q results hl hf,
    (nft_output_single_row (sqlIndexer Engine.EngineSQLite (scenarioA ZeroLimit.literal))
      (List.replicate 32 1)
      (fun q results hl hf => sqlFind_limit_one (scenarioA ZeroLimit.literal) q results hl hf)).1,
    (nft_output_single_row (sqlIndexer Engine.EngineSQLite (scenarioA ZeroLimit.literal))
      (List.replicate 32 1)
      (fun q results hl hf => sqlFind_limit_one (scenarioA ZeroLimit.literal) q results hl hf)).2.2
      Engine.EngineSQLite ZeroLimit.literal⟩

/-! ### The batcher worker -/

theorem flatten_length_of_full {T : Type} (n : Nat) (L : List (List T))
    (h : ∀ b ∈ L, b.length = n) : L.flatten.length = n * L.length := by
  induction L with
  | nil => simp
  | cons b rest ih =>
    rw [List.flatten_cons, List.length_append, h b (List.mem_cons_self _ _),
      ih (fun x hx => h x (List.mem_cons_of_mem _ hx)), List.length_cons]
    ring

/-- A worker that never observes a cancelled context, from any state of the loop:
what it sends after the batches already sent are the chunks of the local batch
followed by the rows it receives. -/
theorem batcherRun_uncancelled {T : Type} (rows : List T) :
    ∀ w : batcherWorker T, w.batch.length < batchSize →
      w.count % batchSize = w.batch.length →
      ∃ tail, batcherWorker.Run (rows.map (fun x => (x, false))) w = w.sent ++ tail ∧
        tail.flatten = w.batch ++ rows ∧
        (∀ b ∈ tail, 1 ≤ b.length ∧ b.length ≤ batchSize) ∧
        (∀ b ∈ tail.dropLast, b.length = batchSize) ∧
        tail.length = (w.batch.length + rows.length + (batchSize - 1)) / batchSize := by
  induction rows with
  | nil =>
    intro w hlt hcnt
    simp only [batchSize] at hlt hcnt ⊢
    by_cases hpos : w.batch.length > 0
    · refine ⟨[w.batch], by simp [batcherWorker.Run, hpos], by simp, ?_, by simp, ?_⟩
      · intro b hb
        simp only [List.mem_singleton] at hb
        subst hb
        omega
      · simp only [List.length_singleton, List.length_nil]
        omega
    · have h0 : w.batch = [] := List.eq_nil_of_length_eq_zero (by omega)
      refine ⟨[], by simp [batcherWorker.Run, hpos], by simp [h0], by simp, by simp, ?_⟩
      simp [h0]
  | cons x rest ih =>
    intro w hlt hcnt
    simp only [batchSize] at hlt hcnt
    by_cases hfull : (w.count + 1) % batchSize = 0
    · have hfull2 : (w.count + 1) % 1000 = 0 := hfull
      have hlen : (w.batch ++ [x]).length = 1000 := by
        rw [List.length_append, List.length_singleton]
        omega
      obtain ⟨tail, hrun, hflat, hmem, hdl, hcount⟩ :=
        ih { batch := [], count := w.count + 1, sent := w.sent ++ [w.batch ++ [x]] }
          (by simp [batchSize]) (by simpa using hfull)
      refine ⟨(w.batch ++ [x]) :: tail, ?_, ?_, ?_, ?_, ?_⟩
      · rw [List.map_cons, batcherWorker.Run]
        simp only [Bool.false_eq_true, if_false, if_pos hfull]
        rw [hrun]
        simp
      · rw [List.flatten_cons, hflat]
        simp
      · intro b hb
        rcases List.mem_cons.mp hb with h | h
        · rw [h, hlen]
          simp [batchSize]
        · exact hmem b h
      · intro b hb
        cases tail with
        | nil => simp at hb
        | cons t ts =>
          rw [List.dropLast_cons_of_ne_nil (List.cons_ne_nil _ _)] at hb
          rcases List.mem_cons.mp hb with h | h
          · rw [h, hlen]
            rfl
          · exact hdl b h
      · dsimp only at hcount
        rw [List.length_cons, hcount]
        simp only [batchSize, List.length_nil, List.length_cons]
        have hl : w.batch.length + 1 = 1000 := by
          rw [List.length_append, List.length_singleton] at hlen
          exact hlen
        omega
    · have hfull2 : ¬ (w.count + 1) % 1000 = 0 := hfull
      obtain ⟨tail, hrun, hflat, hmem, hdl, hcount⟩ :=
        ih { batch := w.batch ++ [x], count := w.count + 1, sent := w.sent }
          (by simp only [batchSize, List.length_append, List.length_singleton]; omega)
          (by simp only [batchSize, List.length_append, List.length_singleton]; omega)
      refine ⟨tail, ?_, ?_, hmem, hdl, ?_⟩
      · rw [List.map_cons, batcherWorker.Run]
        simp only [Bool.false_eq_true, if_false, if_neg hfull]
        exact hrun
      · rw [hflat]
        simp
      · dsimp only at hcount
        rw [hcount]
        simp only [batchSize, List.length_append, List.length_singleton, List.length_cons,
          List.length_nil]
        omega

/-- C11. Batcher contract: for every finite sequence of rows a batcher worker
receives without ever observing a cancelled context before its input is closed, the
batches it sends concatenate to the received sequence in order, every batch is
non-empty, every batch but the last has exactly `batchSize = 1000` rows, the last
has between 1 and 1000 rows, and the number of batches is `ceil(n / 1000)`, zero for
no rows. -/
theorem batcher_contract {T : Type} (rows : List T) :
    ∃ out, batcherWorker.Run (rows.map (fun x => (x, false))) batcherWorker.start = out ∧
      out.flatten = rows ∧
      (∀ b ∈ out, b ≠ []) ∧
      (∀ b ∈ out.dropLast, b.length = 1000) ∧
      (∀ b, out.getLast? = some b → 1 ≤ b.length ∧ b.length ≤ 1000) ∧
      out.length = (rows.length + 999) / 1000 ∧
      (rows.length = 0 → out.length = 0) ∧
      batchSize = 1000 := by
  obtain ⟨tail, hrun, hflat, hmem, hdl, hcount⟩ :=
    batcherRun_uncancelled rows batcherWorker.start (by simp [batcherWorker.start, batchSize]) rfl
  refine ⟨tail, by simpa [batcherWorker.start] using hrun,
    by simpa [batcherWorker.start] using hflat, ?_, hdl, ?_, ?_, ?_, rfl⟩
  · intro b hb h0
    have := (hmem b hb).1
    rw [h0] at this
    simp at this
  · intro b hb
    exact hmem b (List.mem_of_mem_getLast? hb)
  · simpa [batcherWorker.start, batchSize] using hcount
  · intro h0
    rw [hcount]
    simp [batcherWorker.start, batchSize, h0]

/-- Two lists of batches of the same positive size with the same concatenation are
the same list. -/
theorem full_chunks_unique {T : Type} (n : Nat) (hn : 0 < n) :
    ∀ (L M : List (List T)), (∀ b ∈ L, b.length = n) → (∀ b ∈ M, b.length = n) →
      L.flatten = M.flatten → L = M := by
  intro L
  induction L with
  | nil =>
    intro M _ hM h
    cases M with
    | nil => rfl
    | cons m ms =>
      have hm := hM m (List.mem_cons_self _ _)
      have hl := congrArg List.length h
      simp only [List.flatten_nil, List.length_nil, List.flatten_cons, List.length_append] at hl
      omega
  | cons l ls ih =>
    intro M hL hM h
    have hlL := hL l (List.mem_cons_self _ _)
    cases M with
    | nil =>
      have hl := congrArg List.length h
      simp only [List.flatten_nil, List.length_nil, List.flatten_cons, List.length_append] at hl
      omega
    | cons m ms =>
      have hm := hM m (List.mem_cons_self _ _)
      rw [List.flatten_cons, List.flatten_cons] at h
      have hlm : l.length = m.length := by rw [hlL, hm]
      obtain ⟨h1, h2⟩ := List.append_inj h hlm
      rw [h1, ih ms (fun b hb => hL b (List.mem_cons_of_mem _ hb))
        (fun b hb => hM b (List.mem_cons_of_mem _ hb)) h2]

/-- A worker that observes a cancelled context on receiving an item, from any state
of the loop: what it has sent after the batches already sent are full batches, and
the local batch of fewer than `batchSize` rows is left unsent. -/
theorem batcherRun_cancelled {T : Type} (pre : List T) (x : T) (rest : List (T × Bool)) :
    ∀ w : batcherWorker T, w.batch.length < batchSize →
      w.count % batchSize = w.batch.length →
      ∃ tail dropped,
        batcherWorker.Run (pre.map (fun y => (y, false)) ++ (x, true) :: rest) w =
          w.sent ++ tail ∧
        tail.flatten ++ dropped = w.batch ++ pre ∧
        (∀ b ∈ tail, b.length = batchSize) ∧
        dropped.length < batchSize := by
  induction pre with
  | nil =>
    intro w hlt hcnt
    exact ⟨[], w.batch, by simp [batcherWorker.Run], by simp, by simp, hlt⟩
  | cons y ys ih =>
    intro w hlt hcnt
    simp only [batchSize] at hlt hcnt
    by_cases hfull : (w.count + 1) % batchSize = 0
    · have hfull2 : (w.count + 1) % 1000 = 0 := hfull
      have hlen : (w.batch ++ [y]).length = 1000 := by
        rw [List.length_append, List.length_singleton]
        omega
      obtain ⟨tail, dropped, hrun, hflat, hmem, hdrop⟩ :=
        ih { batch := [], count := w.count + 1, sent := w.sent ++ [w.batch ++ [y]] }
          (by simp [batchSize]) (by simpa using hfull)
      refine ⟨(w.batch ++ [y]) :: tail, dropped, ?_, ?_, ?_, hdrop⟩
      · rw [List.map_cons, List.cons_append, batcherWorker.Run]
        simp only [Bool.false_eq_true, if_false, if_pos hfull]
        rw [hrun]
        simp
      · dsimp only at hflat
        rw [List.flatten_cons, List.append_assoc, hflat]
        simp
      · intro b hb
        rcases List.mem_cons.mp hb with h | h
        · rw [h, hlen]
          rfl
        · exact hmem b h
    · have hfull2 : ¬ (w.count + 1) % 1000 = 0 := hfull
      obtain ⟨tail, dropped, hrun, hflat, hmem, hdrop⟩ :=
        ih { batch := w.batch ++ [y], count := w.count + 1, sent := w.sent }
          (by simp only [batchSize, List.length_append, List.length_singleton]; omega)
          (by simp only [batchSize, List.length_append, List.length_singleton]; omega)
      refine ⟨tail, dropped, ?_, ?_, hmem, hdrop⟩
      · rw [List.map_cons, List.cons_append, batcherWorker.Run]
        simp only [Bool.false_eq_true, if_false, if_neg hfull]
        exact hrun
      · dsimp only at hflat
        rw [hflat]
        simp

/-- C20. Cancellation discards buffered rows: when a batcher worker that has received
the rows `pre` observes the context cancelled on receiving the next item, it sends
nothing further, whatever the item and whatever would follow on the input; the
batches it has sent are the full 1000-row chunks of `pre`, in order, `n / 1000` of
them, and the remaining `n mod 1000` rows of `pre`, fewer than `batchSize`, which
were in its local batch, are not sent, nor is the received item. -/
theorem cancellation_discards_buffer {T : Type} (pre : List T) (x : T)
    (rest : List (T × Bool)) :
    ∃ out, batcherWorker.Run (pre.map (fun y => (y, false)) ++ (x, true) :: rest)
        batcherWorker.start = out ∧
      (∀ b ∈ out, b.length = 1000) ∧
      out.length = pre.length / 1000 ∧
      out.flatten = pre.take (1000 * (pre.length / 1000)) ∧
      out.flatten ++ pre.drop (1000 * (pre.length / 1000)) = pre ∧
      (pre.drop (1000 * (pre.length / 1000))).length = pre.length % 1000 ∧
      (pre.drop (1000 * (pre.length / 1000))).length ≤ batchSize - 1 ∧
      (∀ (x2 : T) (rest2 : List (T × Bool)),
        batcherWorker.Run (pre.map (fun y => (y, false)) ++ (x2, true) :: rest2)
          batcherWorker.start = out) := by
  obtain ⟨tail, dropped, hrun, hflat, hmem, hdrop⟩ :=
    batcherRun_cancelled pre x rest batcherWorker.start
      (by simp [batcherWorker.start, batchSize]) rfl
  have hstart : (batcherWorker.start : batcherWorker T).sent ++ tail = tail := rfl
  have hflat2 : tail.flatten ++ dropped = pre := by simpa [batcherWorker.start] using hflat
  have hmem2 : ∀ b ∈ tail, b.length = 1000 := hmem
  have hd : dropped.length < 1000 := hdrop
  have hfl := flatten_length_of_full 1000 tail hmem2
  have hn : pre.length = 1000 * tail.length + dropped.length := by
    rw [← hflat2, List.length_append, hfl]
  have hk : pre.length / 1000 = tail.length := by omega
  have htake : tail.flatten = pre.take (1000 * (pre.length / 1000)) := by
    rw [hk, ← hfl, ← hflat2, List.take_left]
  have hdropeq : pre.drop (1000 * (pre.length / 1000)) = dropped := by
    rw [hk, ← hfl, ← hflat2, List.drop_left]
  refine ⟨tail, by rw [hrun, hstart], hmem2, hk.symm, htake, ?_, ?_, ?_, ?_⟩
  · rw [hdropeq, hflat2]
  · rw [hdropeq]
    omega
  · rw [hdropeq]
    simp only [batchSize]
    omega
  · intro x2 rest2
    obtain ⟨tail2, dropped2, hrun2, hflat3, hmem3, hdrop2⟩ :=
      batcherRun_cancelled pre x2 rest2 batcherWorker.start
        (by simp [batcherWorker.start, batchSize]) rfl
    have hflat4 : tail2.flatten ++ dropped2 = pre := by
      simpa [batcherWorker.start] using hflat3
    have hmem4 : ∀ b ∈ tail2, b.length = 1000 := hmem3
    have hd2 : dropped2.length < 1000 := hdrop2
    have hfl2 := flatten_length_of_full 1000 tail2 hmem4
    have hn2 : pre.length = 1000 * tail2.length + dropped2.length := by
      rw [← hflat4, List.length_append, hfl2]
    have hlen : tail2.length = tail.length := by omega
    have hflatEq : tail2.flatten = tail.flatten := by
      have h1 : tail2.flatten = pre.take (1000 * tail2.length) := by
        rw [← hfl2, ← hflat4, List.take_left]
      have h2 : tail.flatten = pre.take (1000 * tail.length) := by
        rw [← hfl, ← hflat2, List.take_left]
      rw [h1, h2, hlen]
    rw [hrun2]
    show tail2 = tail
    exact full_chunks_unique 1000 (by norm_num) tail2 tail hmem4 hmem2 hflatEq

/-! ### The finalize barrier -/

/-- The effects of `Finalize`: the drains in the described order, the log line, and
the upsert of the status row built from the arguments. -/
theorem Finalize_effects (db : ImportDB) (ledgerIndex : Nat) (protoParams : ProtocolParameters)
    (databaseVersion : Nat) :
    (ImportTransaction.Finalize db ledgerIndex protoParams databaseVersion).1 =
      (finalizeOrder ++ [ImportEffect.logInfo "Finished insertion, update ledger index"]) ++
        [ImportEffect.upsertStatus
          { ID := 1, LedgerIndex := ledgerIndex, ProtocolVersion := protoParams.Version,
            NetworkName := protoParams.NetworkName, DatabaseVersion := databaseVersion }] := by
  rfl

theorem not_isUpsert_before (e : ImportEffect)
    (h : e ∈ finalizeOrder ++ [ImportEffect.logInfo "Finished insertion, update ledger index"]) :
    e.isUpsert = false := by
  simp [finalizeOrder] at h
  rcases h with h | h | h | h | h | h | h | h | h | h | h | h | h | h | h | h | h <;>
    rw [h] <;> rfl

/-- C12. Finalize barrier: the effects of `Finalize` are, in this order, the drain
of basic, of NFT, of alias and of foundry (each drain: close the input, join the
batchers, close the batches channel, join the inserters), the log line, and the
status upsert as the last effect; the upsert is issued exactly once; in every
execution cut short during the call (a prefix of the effects) the upsert is issued
at most once and only when the sixteen drain effects precede it; and the upserted
row has `id = 1`, the given ledger index, the protocol version and network name of
the protocol parameters, and the given schema version as database version. -/
theorem finalize_barrier (db : ImportDB) (ledgerIndex : Nat) (protoParams : ProtocolParameters)
    (databaseVersion : Nat) :
    ∃ status effects,
      (ImportTransaction.Finalize db ledgerIndex protoParams databaseVersion).1 = effects ∧
      effects =
        [ImportEffect.closeInput Pipeline.basic, ImportEffect.waitBatchers Pipeline.basic,
          ImportEffect.closeOutput Pipeline.basic, ImportEffect.waitInserters Pipeline.basic,
          ImportEffect.closeInput Pipeline.nft, ImportEffect.waitBatchers Pipeline.nft,
          ImportEffect.closeOutput Pipeline.nft, ImportEffect.waitInserters Pipeline.nft,
          ImportEffect.closeInput Pipeline.alias, ImportEffect.waitBatchers Pipeline.alias,
          ImportEffect.closeOutput Pipeline.alias, ImportEffect.waitInserters Pipeline.alias,
          ImportEffect.closeInput Pipeline.foundry, ImportEffect.waitBatchers Pipeline.foundry,
          ImportEffect.closeOutput Pipeline.foundry, ImportEffect.waitInserters Pipeline.foundry,
          ImportEffect.logInfo "Finished insertion, update ledger index",
          ImportEffect.upsertStatus status] ∧
      finalizeOrder <+: effects ∧
      effects.getLast? = some (ImportEffect.upsertStatus status) ∧
      (effects.filter ImportEffect.isUpsert).length = 1 ∧
      (∀ t, t <+: effects →
        (t.filter ImportEffect.isUpsert).length ≤ 1 ∧
        (∀ row, ImportEffect.upsertStatus row ∈ t →
          row = status ∧
          t = (finalizeOrder ++
            [ImportEffect.logInfo "Finished insertion, update ledger index"]) ++
              [ImportEffect.upsertStatus row])) ∧
      status.ID = 1 ∧ status.LedgerIndex = ledgerIndex ∧
      status.ProtocolVersion = protoParams.Version ∧
      status.NetworkName = protoParams.NetworkName ∧
      status.DatabaseVersion = databaseVersion := by
  refine ⟨{ ID := 1, LedgerIndex := ledgerIndex, ProtocolVersion := protoParams.Version,
            NetworkName := protoParams.NetworkName, DatabaseVersion := databaseVersion },
    _, rfl, rfl, ?_, rfl, rfl, ?_, rfl, rfl, rfl, rfl, rfl⟩
  · rw [Finalize_effects, List.append_assoc]
    exact List.prefix_append _ _
  · intro t ht
    rw [Finalize_effects, List.prefix_concat_iff] at ht
    rcases ht with ht | ht
    · subst ht
      refine ⟨by simp [finalizeOrder, ImportEffect.isUpsert], ?_⟩
      intro row hrow
      rcases List.mem_append.mp hrow with h | h
      · have := not_isUpsert_before _ h
        simp [ImportEffect.isUpsert] at this
      · simp only [List.mem_singleton, ImportEffect.upsertStatus.injEq] at h
        subst h
        exact ⟨rfl, rfl⟩
    · have hnone : ∀ e ∈ t, e.isUpsert = false :=
        fun e he => not_isUpsert_before e (ht.subset he)
      refine ⟨?_, ?_⟩
      · rw [List.filter_eq_nil_iff.mpr (fun e he => by simp [hnone e he])]
        simp
      · intro row hrow
        have := hnone _ hrow
        simp [ImportEffect.isUpsert] at this

/-! ### The error returned by `Finalize` -/

/-- C21. Finalize error reporting: the error `Finalize` returns is the `Error` field
of the import session handle as the call found it; neither it nor the effects depend
on the outcome of the status upsert, which stays on the handle `Create` returns; so
for a session handle without error `Finalize` returns no error also when the upsert,
which it has issued, fails, as on the handle `failingUpsert`; and a session handle
that carries an error makes `Finalize` return it also when the upsert succeeds. -/
theorem finalize_error_reporting (db : ImportDB) (ledgerIndex : Nat)
    (protoParams : ProtocolParameters) (databaseVersion : Nat) :
    (ImportTransaction.Finalize db ledgerIndex protoParams databaseVersion).2 = db.Error ∧
    (∀ create : Status → Option GoError,
      ImportTransaction.Finalize { Error := db.Error, Create := create } ledgerIndex
          protoParams databaseVersion =
        ImportTransaction.Finalize db ledgerIndex protoParams databaseVersion) ∧
    (db.Error = none →
      ∀ status err, db.Create status = some err →
        ImportEffect.upsertStatus status ∈
          (ImportTransaction.Finalize db ledgerIndex protoParams databaseVersion).1 →
        (ImportTransaction.Finalize db ledgerIndex protoParams databaseVersion).2 = none) ∧
    (∀ err, db.Error = some err → (∀ status, db.Create status = none) →
      (ImportTransaction.Finalize db ledgerIndex protoParams databaseVersion).2 = some err) ∧
    (∃ status err,
      ImportEffect.upsertStatus status ∈
        (ImportTransaction.Finalize failingUpsert 42 exampleProtocolParameters 1).1 ∧
      failingUpsert.Create status = some err ∧
      (ImportTransaction.Finalize failingUpsert 42 exampleProtocolParameters 1).2 = none) := by
  have hret : (ImportTransaction.Finalize db ledgerIndex protoParams databaseVersion).2 =
      db.Error := rfl
  refine ⟨hret, fun _ => rfl, ?_, ?_, ?_⟩
  · intro hnil status err _ _
    rw [hret, hnil]
  · intro err herr _
    rw [hret, herr]
  · refine ⟨{ ID := 1, LedgerIndex := 42, ProtocolVersion := 2, NetworkName := "testnet",
              DatabaseVersion := 1 }, Errorf "database is locked", ?_, rfl, rfl⟩
    rw [Finalize_effects]
    simp [exampleProtocolParameters]

/-! ### The next-cursor rule -/

/-- The method `queryResults.IDs` as a value: the output id column of every row, in
order, cut or zero-filled to 34 bytes. -/
theorem IDs_eq_map (rows : List queryResult) :
    queryResults.IDs rows =
      rows.map (fun x => (x.OutputID ++ List.replicate 34 0).take 34) := rfl

/-- C2. Next-cursor rule: when the joined read returns `results` (a slice whose length
fits `uint32`) for the query the engine built with `pageSize > 0`, the engine returns
without error; with more than `pageSize` rows it returns the output ids of all rows
but the last, in order (one id a row, the 34 bytes of its output id column), and as
cursor the cursor column of the dropped last row with every upper-case letter
replaced by its lower-case letter, so an upper-case hexadecimal cursor column comes
out as the same digits in lower case; otherwise it returns the output id of every
row, in order, and no cursor. With `pageSize = 0` it returns and never carries a
cursor. -/
theorem next_cursor_rule {κ : Type} (i : Indexer κ) (query q : Query κ) (pageSize : Nat)
    (cursor : Option GoString) (results : List queryResult)
    (hp : 0 < pageSize)
    (hq : pagedQuery i.engine query pageSize cursor = some (Except.ok q))
    (hfind : i.db.Find q = Except.ok results)
    (hlen : results.length < 2 ^ 32) :
    (∃ r, (combineOutputIDFilteredQuery i query pageSize cursor).out = some r ∧
      r.Error = none ∧ r.PageSize = pageSize ∧
      (pageSize < results.length →
        r.OutputIDs = queryResults.IDs results.dropLast ∧
        r.OutputIDs =
          results.dropLast.map (fun x => (x.OutputID ++ List.replicate 34 0).take 34) ∧
        r.OutputIDs.length + 1 = results.length ∧
        (∀ (k : Nat) (row : queryResult), results.dropLast[k]? = some row → row.OutputID.length = 34 →
          r.OutputIDs[k]? = some row.OutputID) ∧
        ∃ lastResult, results.getLast? = some lastResult ∧
          r.Cursor = some (ToLower lastResult.Cursor) ∧
          r.Cursor = some (lastResult.Cursor.map Char.toLower) ∧
          (∀ digits : List Nat, lastResult.Cursor = digits.map hexDigitUpper →
            r.Cursor = some (digits.map hexDigitLower))) ∧
      (results.length ≤ pageSize →
        r.OutputIDs = queryResults.IDs results ∧
        r.OutputIDs = results.map (fun x => (x.OutputID ++ List.replicate 34 0).take 34) ∧
        r.OutputIDs.length = results.length ∧
        (∀ (k : Nat) (row : queryResult), results[k]? = some row → row.OutputID.length = 34 →
          r.OutputIDs[k]? = some row.OutputID) ∧
        r.Cursor = none)) ∧
    (∃ r0, (combineOutputIDFilteredQuery i query 0 cursor).out = some r0 ∧
      r0.Cursor = none) := by
  have hmod : results.length % 2 ^ 32 = results.length := Nat.mod_eq_of_lt hlen
  have hid : ∀ (rows : List queryResult) (k : Nat) (row : queryResult),
      rows[k]? = some row → row.OutputID.length = 34 →
        (queryResults.IDs rows)[k]? = some row.OutputID := by
    intro rows k row hk h34
    rw [queryResults.IDs, List.getElem?_map, hk]
    simp only [Option.map_some', Option.some.injEq]
    exact ID_of_length row.OutputID h34
  refine ⟨?_, ?_⟩
  · simp only [combineOutputIDFilteredQuery, hq, hfind, hmod]
    refine ⟨_, rfl, rfl, rfl, ?_, ?_⟩
    · intro h
      have hne : results ≠ [] := by
        intro h0
        simp [h0] at h
      obtain ⟨l, hl⟩ := Option.isSome_iff_exists.mp
        (by simpa [List.getLast?_isSome] using hne : (results.getLast?).isSome = true)
      have hcond : pageSize > 0 ∧ results.length > pageSize := ⟨hp, h⟩
      rw [if_pos hcond, hl]
      refine ⟨rfl, IDs_eq_map _, ?_, hid _, l, rfl, rfl, rfl, ?_⟩
      · rw [queryResults.IDs, List.length_map, List.length_dropLast]
        omega
      · intro digits hd
        show some (ToLower l.Cursor) = some (digits.map hexDigitLower)
        rw [hd, ToLower_upperHex]
    · intro h
      have hcond : ¬ (pageSize > 0 ∧ results.length > pageSize) := by
        rintro ⟨_, h2⟩
        omega
      rw [if_neg hcond]
      exact ⟨rfl, IDs_eq_map _, by simp [queryResults.IDs], hid _, rfl⟩
  · simp only [combineOutputIDFilteredQuery, pagedQuery_zero]
    cases hf : i.db.Find ((query.Select [Column.output_id]).Order) with
    | error err => exact ⟨_, rfl, rfl⟩
    | ok rs => exact ⟨_, rfl, by simp⟩

/-- Witness of `next_cursor_rule`: a page of two over three returned rows; the
result carries the output ids `A` and `B` and the cursor `00000002cc…cc` of the
dropped row `(2, C)`, whose cursor column is `00000002CC…CC`. -/
theorem next_cursor_rule_witness :
    (0 < 2 ∧ threeResults.length < 2 ^ 32) ∧
    ((∃ r, (combineOutputIDFilteredQuery threeResultsIndexer Query.Model 2 none).out = some r ∧
      r.Error = none ∧ r.PageSize = 2 ∧
      (2 < threeResults.length →
        r.OutputIDs = queryResults.IDs threeResults.dropLast ∧
        r.OutputIDs =
          threeResults.dropLast.map (fun x => (x.OutputID ++ List.replicate 34 0).take 34) ∧
        r.OutputIDs.length + 1 = threeResults.length ∧
        (∀ (k : Nat) (row : queryResult), threeResults.dropLast[k]? = some row → row.OutputID.length = 34 →
          r.OutputIDs[k]? = some row.OutputID) ∧
        ∃ lastResult, threeResults.getLast? = some lastResult ∧
          r.Cursor = some (ToLower lastResult.Cursor) ∧
          r.Cursor = some (lastResult.Cursor.map Char.toLower) ∧
          (∀ digits : List Nat, lastResult.Cursor = digits.map hexDigitUpper →
            r.Cursor = some (digits.map hexDigitLower))) ∧
      (threeResults.length ≤ 2 →
        r.OutputIDs = queryResults.IDs threeResults ∧
        r.OutputIDs =
          threeResults.map (fun x => (x.OutputID ++ List.replicate 34 0).take 34) ∧
        r.OutputIDs.length = threeResults.length ∧
        (∀ (k : Nat) (row : queryResult), threeResults[k]? = some row → row.OutputID.length = 34 →
          r.OutputIDs[k]? = some row.OutputID) ∧
        r.Cursor = none)) ∧
    (∃ r0, (combineOutputIDFilteredQuery threeResultsIndexer Query.Model 0 none).out = some r0 ∧
      r0.Cursor = none)) ∧
    (threeResults.getLast?).map (fun x => x.Cursor) =
      some (['0', '0', '0', '0', '0', '0', '0', '2'] ++ List.replicate 68 'C') ∧
    (combineOutputIDFilteredQuery threeResultsIndexer Query.Model 2 none).out =
      some { OutputIDs := [List.replicate 34 170, List.replicate 34 187]
             LedgerIndex := 7
             PageSize := 2
             Cursor := some (['0', '0', '0', '0', '0', '0', '0', '2'] ++ List.replicate 68 'c')
             Error := none } :=
  ⟨⟨by decide, by decide⟩,
    next_cursor_rule threeResultsIndexer Query.Model
      (((Query.Model.Select [Column.output_id]).Order.Select
        [Column.output_id, Column.cursorSQLite]).Limit 3)
      2 none threeResults (by decide) rfl rfl (by decide),
    by decide, by decide⟩

end Inx
